import Mathlib

/-!
The network core of the SA-MP audio client plugin.

A shallow embedding of `src/network.cpp` (class `Network`) together with the
parts of `Program`, `Audio` and `Game` that the network core touches.

* Text (`std::string`, `std::wstring`) is a list of characters, one per byte.
* Every completion handler of the reactor is a function `World → World`;
  the world carries the member variables of the four singletons, the file
  system, the tick counter and a chronological trace of the calls made to
  collaborators, to the file system and to the asio objects.
* The asio objects are reduced to what the handlers observe: whether the
  socket is open, which timers are armed, which operations are outstanding.
  `step` delivers one completion; cancelling a timer disarms it, since the
  timer handlers do nothing when called with an error.
* Values that come from headers that are not part of the sources
  (`plugin.h`, BASS, Boost floating-point conversion) and the inside of the
  audio engine (`Audio::playStream`, `Audio::initializeSequence`) are fields
  of `Env`.
* Log lines are kept as text; the text of system error messages is left out.
-/

namespace SampAudio

/-! ## Text helpers (Boost string algorithms) -/

/-- Text: the characters of a `std::string`. -/
abbrev Str := List Char

/-- The tokens of `boost::algorithm::split(out, input, is_any_of(sep))`
(token compression off): `k` separators give `k + 1` tokens. -/
def splitOn (sep : Char) : Str → List Str
  | [] => [[]]
  | c :: cs =>
    if c = sep then [] :: splitOn sep cs
    else
      match splitOn sep cs with
      | [] => [[c]]
      | t :: ts => (c :: t) :: ts

/-- Case-insensitive equality of two characters (`boost::is_iequal`). -/
def ieqChar (a b : Char) : Bool := a.toLower == b.toLower

/-- Text `p` is a case-insensitive leading part of `s`
(`boost::algorithm::istarts_with(s, p)`). -/
def istarts_with : Str → Str → Bool
  | _, [] => true
  | [], _ :: _ => false
  | c :: cs, p :: ps => ieqChar c p && istarts_with cs ps

/-- Text `p` is a case-insensitive trailing part of `s`
(`boost::algorithm::iends_with(s, p)`). -/
def iends_with (s p : Str) : Bool := istarts_with s.reverse p.reverse

/-- Text `p` occurs in `s`, ignoring case (`boost::algorithm::icontains(s, p)`). -/
def icontains : Str → Str → Bool
  | [], p => istarts_with [] p
  | c :: cs, p => istarts_with (c :: cs) p || icontains cs p

/-- Index just past the last occurrence of `ch`, or `0` when there is none:
`s.find_last_of(ch) + 1` with `npos + 1 = 0`. -/
def afterLast (ch : Char) : Str → Nat
  | [] => 0
  | c :: cs =>
    let r := afterLast ch cs
    if r ≠ 0 then r + 1 else if c = ch then 1 else 0

/-- Value of a decimal digit. -/
def digitVal (c : Char) : Option Nat :=
  if 48 ≤ c.toNat ∧ c.toNat ≤ 57 then some (c.toNat - 48) else none

/-- Accumulate decimal digits onto `acc`; `none` at the first non-digit. -/
def digitsFrom (acc : Nat) : Str → Option Nat
  | [] => some acc
  | c :: cs =>
    match digitVal c with
    | none => none
    | some d => digitsFrom (acc * 10 + d) cs

/-- A non-empty run of decimal digits, as a number. -/
def parseDigits (s : Str) : Option Nat :=
  match s with
  | [] => none
  | _ :: _ => digitsFrom 0 s

/-- The conversion `boost::lexical_cast<int>` (32-bit `int`): an optional sign,
then decimal digits only, and the value must fit. -/
def lexicalCastInt (s : Str) : Option Int :=
  match s with
  | '-' :: ds =>
    match parseDigits ds with
    | some v => if v ≤ 2147483648 then some (-(v : Int)) else none
    | none => none
  | '+' :: ds =>
    match parseDigits ds with
    | some v => if v ≤ 2147483647 then some (v : Int) else none
    | none => none
  | ds =>
    match parseDigits ds with
    | some v => if v ≤ 2147483647 then some (v : Int) else none
    | none => none

/-- The conversion `boost::lexical_cast<std::size_t>` (32-bit target): an
optional sign, decimal digits, the magnitude must fit in 32 bits and a
leading minus negates modulo `2 ^ 32`. -/
def lexicalCastSizeT (s : Str) : Option Nat :=
  match s with
  | '-' :: ds =>
    match parseDigits ds with
    | some v => if v ≤ 4294967295 then some ((4294967296 - v) % 4294967296) else none
    | none => none
  | '+' :: ds =>
    match parseDigits ds with
    | some v => if v ≤ 4294967295 then some v else none
    | none => none
  | ds =>
    match parseDigits ds with
    | some v => if v ≤ 4294967295 then some v else none
    | none => none

/-- The conversion `boost::lexical_cast<bool>`: `0` and `1`, optionally
written `+0`, `+1` or `-0`; every other text fails. -/
def lexicalCastBool (s : Str) : Option Bool :=
  match s with
  | [c] => if c = '1' then some true else if c = '0' then some false else none
  | ['+', c] => if c = '1' then some true else if c = '0' then some false else none
  | ['-', c] => if c = '0' then some false else none
  | _ => none

/-- Decimal rendering of a natural number (`%1%` of an unsigned value). -/
def showNat (n : Nat) : Str := Nat.toDigits 10 n

/-- Decimal rendering of an integer (`%1%` of an `int`). -/
def showInt (i : Int) : Str :=
  match i with
  | Int.ofNat n => showNat n
  | Int.negSucc n => '-' :: showNat (n + 1)

/-- Upper-case hexadecimal rendering without leading zeros (`%X`). -/
def showHexUpper (n : Nat) : Str := (Nat.toDigits 16 n).map Char.toUpper

/-! ## CRC-32 (`boost::crc_32_type`) -/

/-- One bit step of the reflected CRC-32 register (polynomial `0xEDB88320`). -/
def crcBit (r : Nat) : Nat :=
  if r % 2 = 1 then Nat.xor (r / 2) 3988292384 else r / 2

/-- Fold one byte into the CRC-32 register. -/
def crcByte (r b : Nat) : Nat :=
  crcBit (crcBit (crcBit (crcBit (crcBit (crcBit (crcBit (crcBit (Nat.xor r (b % 256)))))))))

/-- The checksum of `boost::crc_32_type` over a byte sequence (each character
is one byte). -/
def crc32 (bytes : Str) : Nat :=
  Nat.xor (bytes.foldl (fun r c => crcByte r c.toNat) 4294967295) 4294967295

/-! ## Data model -/

/-- A resolved endpoint, in its textual form. -/
abbrev Endpoint := Str

/-- A `tcp::resolver::iterator`: the endpoints from the current one onwards;
the empty list is the end iterator and `++it` is the tail. -/
abbrev Iter := List Endpoint

/-- The record `Program::Settings`. -/
structure Settings where
  allowRadioStationAdjustment : Bool
  connectAttempts : Nat
  connectDelay : Nat
  connectTimeout : Nat
  enableLogging : Bool
  networkTimeout : Nat
  streamFiles : Bool
  transferFiles : Bool
  deriving DecidableEq, Repr

/-- The defaults of `Program::Settings::Settings()`. -/
def Settings.defaults : Settings :=
  { allowRadioStationAdjustment := true, connectAttempts := 10, connectDelay := 10000,
    connectTimeout := 5000, enableLogging := true, networkTimeout := 20000,
    streamFiles := true, transferFiles := true }

/-- The member variables of `Program` that the network core reads or writes. -/
structure Program where
  settings : Settings
  address : Str
  name : Str
  port : Str
  downloadPath : Str
  savePath : Str
  acceptedFileExtensions : List Str
  illegalCharacters : List Str
  deriving DecidableEq, Repr

/-- The table `defaultAcceptedFileExtensions` of `Program::Program()`. -/
def defaultAcceptedFileExtensions : List Str :=
  [".afc".toList, ".aif".toList, ".aifc".toList, ".aiff".toList, ".it".toList,
   ".mo3".toList, ".mod".toList, ".mp1".toList, ".mp2".toList, ".mp3".toList,
   ".mtm".toList, ".oga".toList, ".ogg".toList, ".s3m".toList, ".umx".toList,
   ".wav".toList, ".wave".toList, ".xm".toList]

/-- The table `defaultIllegalCharacters` of `Program::Program()`. -/
def defaultIllegalCharacters : List Str :=
  ["\"".toList, "*".toList, "..".toList, "/".toList, ":".toList, "<".toList,
   ">".toList, "?".toList, "\\".toList, "|".toList]

/-- The record `Audio::Stream::Position`; single-precision values are carried
as rationals. -/
structure Position where
  distance : Rat
  x : Rat
  y : Rat
  z : Rat
  deriving DecidableEq, Repr

/-- The record `Audio::Stream::Sequence`. -/
structure Sequence where
  downmix : Bool
  loop : Bool
  pause : Bool
  count : Int
  id : Int
  audioIDs : List Int
  deriving DecidableEq, Repr

/-- The state after `Audio::Stream::Sequence::Sequence()`. -/
def Sequence.new : Sequence :=
  { downmix := false, loop := false, pause := false, count := 0, id := 0, audioIDs := [] }

/-- The record `Audio::Stream`. -/
structure Stream where
  position : Option Position
  sequence : Option Sequence
  effects : List Nat
  channel : Nat
  mixer : Nat
  name : Str
  meta : Str
  deriving DecidableEq, Repr

/-- The state after `Audio::Stream::Stream()`. -/
def Stream.new : Stream :=
  { position := none, sequence := none, effects := List.replicate 9 0, channel := 0,
    mixer := 0, name := [], meta := [] }

/-- Lookup in a `std::map<int, T>` (`find`). -/
def mapFind {α : Type} (m : List (Int × α)) (k : Int) : Option α :=
  match m with
  | [] => none
  | (k0, v) :: rest => if k0 = k then some v else mapFind rest k

/-- The call `std::map::insert(std::make_pair(k, v))`: an existing key keeps its
value. -/
def mapInsert {α : Type} (m : List (Int × α)) (k : Int) (v : α) : List (Int × α) :=
  match mapFind m k with
  | some _ => m
  | none => m ++ [(k, v)]

/-- Assignment through an iterator obtained from `find(k)`. -/
def mapSet {α : Type} (m : List (Int × α)) (k : Int) (v : α) : List (Int × α) :=
  m.map (fun p => if p.1 = k then (p.1, v) else p)

/-- The member variables of `Audio` that the network core reads or writes. -/
structure Audio where
  files : List (Int × Str)
  streams : List (Int × Stream)
  stopped : Bool
  deriving DecidableEq, Repr

/-- The flags of `Game` read by the network core (`open` is `gameOpen`). -/
structure Game where
  gameOpen : Bool
  started : Bool
  deriving DecidableEq, Repr

/-- The file system as seen through `std::fstream` and `boost::filesystem`. -/
structure FileSys where
  files : List (Str × Str)
  dirs : List Str
  readOnly : List Str
  deriving DecidableEq, Repr

/-- Content of the file at `path`, when it can be opened for reading. -/
def FileSys.read (fs : FileSys) (path : Str) : Option Str :=
  match fs.files.find? (fun p => p.1 = path) with
  | some p => some p.2
  | none => none

/-- Whether `path` can be opened for writing. -/
def FileSys.canWrite (fs : FileSys) (path : Str) : Bool := !(fs.readOnly.contains path)

/-- Opening `path` with `std::ios_base::out`: the file exists and is empty. -/
def FileSys.truncate (fs : FileSys) (path : Str) : FileSys :=
  { fs with files := (fs.files.filter (fun p => p.1 ≠ path)) ++ [(path, [])] }

/-- Appending `bytes` to the file at `path`. -/
def FileSys.append (fs : FileSys) (path : Str) (bytes : Str) : FileSys :=
  { fs with files := fs.files.map (fun p => if p.1 = path then (p.1, p.2 ++ bytes) else p) }

/-- The part of a `std::fstream` opened for output that the core observes. -/
structure FStream where
  isOpen : Bool
  pos : Nat
  deriving DecidableEq, Repr

/-- The record `Network::File`: the one transfer in progress. -/
structure File where
  buffer : Str
  handle : FStream
  id : Int
  name : Str
  path : Str
  size : Nat
  transferable : Bool
  url : Str
  deriving DecidableEq, Repr

/-- Which handler an outstanding `clientSocket.async_read_some` is bound to:
`handleRead` (command) or `handleReadFile` (file). -/
inductive ReadKind where
  | command
  | file
  deriving DecidableEq, Repr

/-- Calls into the BASS library made by the network core. -/
inductive BassCall where
  | channelPause (mixer : Nat)
  | channelPlay (mixer : Nat)
  | channelStop (mixer : Nat)
  | channelGetPosition (channel : Nat)
  | channelSetPosition (channel : Nat) (seconds : Int)
  | channelSetVolume (mixer : Nat) (volume : Rat)
  | channelSetFX (mixer : Nat) (type : Int)
  | channelRemoveFX (mixer : Nat) (fx : Nat)
  | channelSet3DAttributes (mixer : Nat) (relative : Bool)
  | channelSet3DPosition (mixer : Nat) (x : Rat) (y : Rat) (z : Rat)
  | apply3D
  | stop
  deriving DecidableEq, Repr

/-- One entry of the trace: a call made to a collaborator, to the file system
or to an asio object. `send` marks a call of `Network::sendAsync`. -/
inductive Effect where
  | logText (text : Str)
  | send (message : Str)
  | asyncWrite (message : Str)
  | asyncRead (kind : ReadKind)
  | asyncConnect (endpoint : Endpoint)
  | asyncResolve (address : Str) (port : Str)
  | asyncOpenStream (url : Str)
  | asyncReadStream
  | bass (call : BassCall)
  | playStream (handleID : Int) (pause : Bool) (loop : Bool) (downmix : Bool)
  | initializeSequence (handleID : Int)
  | setRadioStation (station : Int)
  | stopRadio
  | createDirectories (path : Str)
  | openForWriting (path : Str)
  deriving DecidableEq, Repr

/-- The member variables of `Network`, with the asio objects reduced to what
the handlers observe: whether the socket and the HTTP stream are open, which
timers are armed and which asynchronous operations are outstanding. -/
structure Network where
  connected : Bool
  file : Option File
  attempts : Nat
  authenticated : Bool
  connecting : Bool
  commandTokens : List Str
  lastCommunication : Nat
  messageTokens : List Str
  pendingMessages : List Str
  receivedData : Str
  sentData : Str
  writeInProgress : Bool
  socketOpen : Bool
  readStreamOpen : Bool
  connectTimer : Option Iter
  mainTimer : Bool
  timeoutTimer : Bool
  resolveOp : Bool
  connectOp : Option Iter
  readOps : List ReadKind
  writeOps : List Str
  streamOpenOp : Bool
  streamReadOps : Nat
  deriving DecidableEq, Repr

/-- Everything the handlers of the network core can read or change. -/
structure World where
  net : Network
  program : Program
  audio : Audio
  game : Game
  fs : FileSys
  tick : Nat
  trace : List Effect
  deriving DecidableEq, Repr

/-- What a call into the audio engine leaves behind: the audio tables, and in
order the log lines, BASS calls and `sendAsync` messages it produced. -/
structure EngineResult where
  audio : Audio
  acts : List Effect

/-- Values and behaviour that come from outside the sources at hand:
constants of `plugin.h`, floating-point conversion, results of BASS calls and
the audio engine entry points `Audio::playStream` and
`Audio::initializeSequence`. -/
structure Env where
  MAX_BUFFER : Nat
  PLUGIN_VERSION : Str
  NETWORK_TIMER_TICK : Nat
  freshBuffer : Str
  lexicalCastFloat : Str → Option Rat
  formatFileSize : Nat → Str
  bassChannelPause : Nat → Bool
  bassChannelPlay : Nat → Bool
  bassChannelSetPosition : Nat → Bool
  bassPositionSeconds : Nat → Int
  bassChannelSetFX : Nat → Int → Nat
  playStream : World → Int → Bool → Bool → Bool → EngineResult
  initializeSequence : World → Int → EngineResult

/-! ## Protocol constants (`network.h`) -/

/-- Client opcode `Client::Authenticate`. -/
def Client.Authenticate : Nat := 0
/-- Client opcode `Client::Transfer`. -/
def Client.Transfer : Nat := 1
/-- Client opcode `Client::Play`. -/
def Client.Play : Nat := 2
/-- Client opcode `Client::Sequence`. -/
def Client.Sequence : Nat := 3
/-- Client opcode `Client::Stop`. -/
def Client.Stop : Nat := 4
/-- Client opcode `Client::RadioStation`. -/
def Client.RadioStation : Nat := 5
/-- Client opcode `Client::Track`. -/
def Client.Track : Nat := 6
/-- Client opcode `Client::Position`. -/
def Client.Position : Nat := 7
/-- Transfer code `Client::Local`. -/
def Client.Local : Nat := 0
/-- Transfer code `Client::Remote`. -/
def Client.Remote : Nat := 1
/-- Transfer code `Client::Check`. -/
def Client.Check : Nat := 2
/-- Transfer code `Client::Error`. -/
def Client.Error : Nat := 3

/-- Server opcode `Server::Connect`. -/
def Server.Connect : Int := 0
/-- Server opcode `Server::Message`. -/
def Server.Message : Int := 1
/-- Server opcode `Server::Name`. -/
def Server.Name : Int := 2
/-- Server opcode `Server::Transfer`. -/
def Server.Transfer : Int := 3
/-- Server opcode `Server::Play`. -/
def Server.Play : Int := 4
/-- Server opcode `Server::PlaySequence`. -/
def Server.PlaySequence : Int := 5
/-- Server opcode `Server::Pause`. -/
def Server.Pause : Int := 6
/-- Server opcode `Server::Resume`. -/
def Server.Resume : Int := 7
/-- Server opcode `Server::Stop`. -/
def Server.Stop : Int := 8
/-- Server opcode `Server::Restart`. -/
def Server.Restart : Int := 9
/-- Server opcode `Server::GetPosition`. -/
def Server.GetPosition : Int := 10
/-- Server opcode `Server::SetPosition`. -/
def Server.SetPosition : Int := 11
/-- Server opcode `Server::SetVolume`. -/
def Server.SetVolume : Int := 12
/-- Server opcode `Server::SetFX`. -/
def Server.SetFX : Int := 13
/-- Server opcode `Server::RemoveFX`. -/
def Server.RemoveFX : Int := 14
/-- Server opcode `Server::Set3DPosition`. -/
def Server.Set3DPosition : Int := 15
/-- Server opcode `Server::Remove3DPosition`. -/
def Server.Remove3DPosition : Int := 16
/-- Server opcode `Server::GetRadioStation`. -/
def Server.GetRadioStation : Int := 17
/-- Server opcode `Server::SetRadioStation`. -/
def Server.SetRadioStation : Int := 18
/-- Server opcode `Server::StopRadio`. -/
def Server.StopRadio : Int := 19

/-- The text of `"%1%\t%2%\n" % a % b`. -/
def fmt2 (a b : Str) : Str := a ++ '\t' :: b ++ ['\n']

/-- The text of `"%1%\t%2%\t%3%\n" % a % b % c`. -/
def fmt3 (a b c : Str) : Str := a ++ '\t' :: b ++ '\t' :: c ++ ['\n']

/-- The text of `"%1%\t%2%\t%3%\t%4%\n" % a % b % c % d`. -/
def fmt4 (a b c d : Str) : Str := a ++ '\t' :: b ++ '\t' :: c ++ '\t' :: d ++ ['\n']

/-- The reply `Client::Transfer` with a transfer code. -/
def transferReply (code : Nat) : Str := fmt2 (showNat Client.Transfer) (showNat code)

/-! ## World helpers -/

/-- Append one entry to the trace. -/
def World.emit (w : World) (e : Effect) : World := { w with trace := w.trace ++ [e] }

/-- The call `core->getProgram()->logText(text)`. -/
def logText (text : Str) (w : World) : World := w.emit (Effect.logText text)

/-- Assignment to `Network::file` (`file.reset(...)`). -/
def setFile (f : Option File) (w : World) : World := { w with net := { w.net with file := f } }

/-- The call `clientSocket.async_read_some(...)` bound to the handler `kind`. -/
def armRead (kind : ReadKind) (w : World) : World :=
  ({ w with net := { w.net with readOps := w.net.readOps ++ [kind] } }).emit (Effect.asyncRead kind)

/-- The call `core->getAudio()->files.insert(std::make_pair(id, name))`. -/
def registerFile (id : Int) (name : Str) (w : World) : World :=
  { w with audio := { w.audio with files := mapInsert w.audio.files id name } }

/-- Assignment to `core->getAudio()->streams`. -/
def setStreams (streams : List (Int × Stream)) (w : World) : World :=
  { w with audio := { w.audio with streams := streams } }

/-- A BASS call, recorded in the trace. -/
def bass (call : BassCall) (w : World) : World := w.emit (Effect.bass call)

/-- The messages passed to `sendAsync`, in order, among the trace entries. -/
def sentMessages : List Effect → List Str
  | [] => []
  | Effect.send m :: rest => m :: sentMessages rest
  | _ :: rest => sentMessages rest

/-- The messages handed to the socket by `async_write`, in order. -/
def socketWrites : List Effect → List Str
  | [] => []
  | Effect.asyncWrite m :: rest => m :: socketWrites rest
  | _ :: rest => socketWrites rest

/-- A freshly allocated `Network::File` (`new File`); the scalar members are
indeterminate until assigned and are shown as zero. -/
def File.new (env : Env) : File :=
  { buffer := env.freshBuffer, handle := { isOpen := false, pos := 0 }, id := 0, name := [],
    path := [], size := 0, transferable := false, url := [] }

/-- Token `i` of `commandTokens` (`commandTokens.at(i)` after the size check). -/
def tok (w : World) (i : Nat) : Str := w.net.commandTokens.getD i []

/-! ## Outbound queue: `Network::sendAsync`, `Network::handleWrite` -/

/-- The method `Network::sendAsync`. -/
def sendAsync (buffer : Str) (w : World) : World :=
  let w := w.emit (Effect.send buffer)
  if w.net.writeInProgress then
    { w with net := { w.net with pendingMessages := w.net.pendingMessages ++ [buffer] } }
  else
    ({ w with net := { w.net with sentData := buffer, writeInProgress := true,
                                  writeOps := w.net.writeOps ++ [buffer] } }).emit
      (Effect.asyncWrite buffer)

/-- The method `Network::handleWrite`; `error` is true when the write failed. -/
def handleWrite (error : Bool) (w : World) : World :=
  let w := { w with net := { w.net with writeInProgress := false } }
  if !error then
    match w.net.pendingMessages with
    | [] => w
    | front :: _ =>
      let w := sendAsync front w
      { w with net := { w.net with pendingMessages := w.net.pendingMessages.tail } }
  else
    { w with net := { w.net with pendingMessages := [] } }

/-! ## Timers and connection life cycle -/

/-- The method `Network::startMainTimer`. -/
def startMainTimer (w : World) : World := { w with net := { w.net with mainTimer := true } }

/-- The method `Network::stopMainTimer`. -/
def stopMainTimer (w : World) : World := { w with net := { w.net with mainTimer := false } }

/-- The method `Network::startTimeoutTimer`. -/
def startTimeoutTimer (w : World) : World := { w with net := { w.net with timeoutTimer := true } }

/-- The method `Network::stopTimeoutTimer`. -/
def stopTimeoutTimer (w : World) : World := { w with net := { w.net with timeoutTimer := false } }

/-- The method `Network::stopConnectTimer`. -/
def stopConnectTimer (w : World) : World := { w with net := { w.net with connectTimer := none } }

/-- The method `Network::startConnectTimer`. -/
def startConnectTimer (endpoint_iterator : Iter) (w : World) : World :=
  if w.net.attempts < w.program.settings.connectAttempts then
    { w with net := { w.net with attempts := w.net.attempts + 1,
                                 connectTimer := some endpoint_iterator } }
  else
    { w with net := { w.net with attempts := 1, connectTimer := some endpoint_iterator.tail } }

/-- The method `Network::startAsync`. -/
def startAsync (w : World) : World :=
  let w := w.emit (Effect.asyncResolve w.program.address w.program.port)
  { w with net := { w.net with resolveOp := true, connecting := true } }

/-- The method `Network::stopAsync`. Closing the socket leaves the operations
outstanding on it to complete with an error; `resolver.cancel()` ends an
outstanding resolve, whose aborted handler only writes a log line. -/
def stopAsync (w : World) : World :=
  if w.net.socketOpen then
    let w :=
      if w.net.connected then
        { w with net := { w.net with authenticated := false, connected := false, file := none,
                                     pendingMessages := [], writeInProgress := false } }
      else w
    let w := { w with net := { w.net with socketOpen := false, readStreamOpen := false } }
    let w :=
      if w.net.resolveOp then
        logText "Error resolving server address: Operation aborted".toList
          { w with net := { w.net with resolveOp := false } }
      else w
    stopTimeoutTimer (stopConnectTimer w)
  else w

/-- The method `Audio::freeMemory`. -/
def freeMemory (w : World) : World :=
  bass BassCall.stop { w with audio := { files := [], streams := [], stopped := true } }

/-- The method `Network::closeConnection`. -/
def closeConnection (w : World) : World :=
  let w :=
    if w.net.connected then
      let w := logText "Disconnected from server".toList w
      { w with program := { w.program with downloadPath := [] } }
    else w
  stopAsync (freeMemory w)

/-- The method `Network::handleResolve`; `result` is the resolved endpoint
list, or `none` on error. -/
def handleResolve (result : Option Iter) (w : World) : World :=
  match result with
  | some endpoint_iterator =>
    startConnectTimer endpoint_iterator { w with net := { w.net with attempts := 0 } }
  | none => logText "Error resolving server address".toList w

/-- The method `Network::handleTimeoutTimer` (no error). -/
def handleTimeoutTimer (w : World) : World :=
  if !w.net.connected then stopAsync w else w

/-- The log line `"Connecting to %1% (attempt %2% of %3%)..."`. -/
def connectingLine (endpoint : Endpoint) (attempts total : Nat) : Str :=
  "Connecting to ".toList ++ endpoint ++ " (attempt ".toList ++ showNat attempts ++
    " of ".toList ++ showNat total ++ ")...".toList

/-- The log line `"Could not connect to %1% (%2%)"`, without the text of the
system error. -/
def refusedLine (endpoint : Endpoint) : Str := "Could not connect to ".toList ++ endpoint

/-- The log line `"Could not connect to %1% (Connection timed out)"`. -/
def timedOutLine (endpoint : Endpoint) : Str :=
  "Could not connect to ".toList ++ endpoint ++ " (Connection timed out)".toList

/-- The method `Network::handleConnectTimer` (no error). -/
def handleConnectTimer (endpoint_iterator : Iter) (w : World) : World :=
  match endpoint_iterator with
  | endpoint :: _ =>
    if !w.game.gameOpen then
      { w with net := { w.net with connectTimer := some endpoint_iterator } }
    else
      let w := logText
        (connectingLine endpoint w.net.attempts w.program.settings.connectAttempts) w
      let w := w.emit (Effect.asyncConnect endpoint)
      let w := { w with net := { w.net with connectOp := some endpoint_iterator,
                                            socketOpen := true } }
      startTimeoutTimer w
  | [] => stopMainTimer (stopAsync w)

/-- The method `Network::handleConnect`; `error` is true when the connect
failed. -/
def handleConnect (env : Env) (error : Bool) (endpoint_iterator : Iter) (w : World) : World :=
  let endpoint : Endpoint := endpoint_iterator.headD []
  let w :=
    if !error then
      let w := logText ("Connected to ".toList ++ endpoint) w
      let w := sendAsync (fmt3 (showNat Client.Authenticate) w.program.name env.PLUGIN_VERSION) w
      let w := armRead ReadKind.command w
      { w with net := { w.net with connecting := false, connected := true } }
    else
      let w :=
        if w.net.socketOpen then stopAsync (logText (refusedLine endpoint) w)
        else logText (timedOutLine endpoint) w
      startConnectTimer endpoint_iterator w
  if w.net.connected then
    { w with net := { w.net with lastCommunication := w.tick } }
  else w

/-- The method `Network::handleMainTimer` (no error). -/
def handleMainTimer (w : World) : World :=
  let w :=
    if w.game.started && !w.net.connected && !w.net.connecting then
      startAsync (stopAsync w)
    else w
  let w :=
    if w.net.connected then
      let timeElapsed := (w.tick + 4294967296 - w.net.lastCommunication) % 4294967296
      if timeElapsed > w.program.settings.networkTimeout then closeConnection w else w
    else w
  startMainTimer w

/-! ## Command handlers -/

/-- Apply `g` to the transfer record, when there is one (`file->... = ...`). -/
def updFile (g : File → File) (w : World) : World :=
  match w.net.file with
  | some f => setFile (some (g f)) w
  | none => w

/-- Replay what an audio engine call produced: `sendAsync` for its messages,
a trace entry for everything else. -/
def applyActs : List Effect → World → World
  | [], w => w
  | Effect.send m :: rest, w => applyActs rest (sendAsync m w)
  | e :: rest, w => applyActs rest (w.emit e)

/-- The method `Network::performConnect`. The loop over `illegalCharacters`
runs from `begin()` to `begin()`, that is over no element. -/
def performConnect (w : World) : World :=
  let n := w.net.commandTokens.length
  let w :=
    if n = 1 ∨ n = 2 then
      if !w.net.authenticated then
        let w := logText "Authenticated to server".toList w
        { w with net := { w.net with authenticated := true } }
      else w
    else w
  if n = 2 then
    if (w.program.illegalCharacters.take 0).any (fun i => icontains (tok w 1) i) then
      logText ("Download path could not be set to \"audiopacks\\".toList ++ tok w 1 ++
        "\" (illegal characters)".toList) w
    else
      let w := logText ("Download path set to \"audiopacks\\".toList ++ tok w 1 ++ "\"".toList) w
      let path := w.program.savePath ++ "\\audiopacks\\".toList ++ tok w 1
      let w := { w with program := { w.program with downloadPath := path } }
      if !(w.fs.dirs.contains path) then
        ({ w with fs := { w.fs with dirs := w.fs.dirs ++ [path] } }).emit
          (Effect.createDirectories path)
      else w
  else w

/-- The method `Network::performMessage`. -/
def performMessage (w : World) : World :=
  if w.net.commandTokens.length ≠ 2 then w
  else logText ("Message from server: ".toList ++ tok w 1) w

/-- The method `Network::performName`. -/
def performName (w : World) : World :=
  if w.net.commandTokens.length ≠ 2 then w
  else { w with program := { w.program with name := tok w 1 } }

/-- Lines 755 to 779 of `Network::performTransfer`: the transfer is started,
unless transfers are disabled or the destination cannot be written; `t` is
`commandTokens` and `f` the record `*file`. -/
def performTransferStart (env : Env) (t : List Str) (f : File) (remote : Bool)
    (w : World) : World :=
  if !w.program.settings.transferFiles then
    setFile none (sendAsync (transferReply Client.Error)
      (logText ("Transfer of file \"".toList ++ t.getD 3 [] ++
        "\" rejected (file transfer requests disabled)".toList) w))
  else if remote then
    ({ w with net := { w.net with streamOpenOp := true } }).emit (Effect.asyncOpenStream f.url)
  else
    let w := w.emit (Effect.openForWriting f.path)
    if !(w.fs.canWrite f.path) then
      setFile none (sendAsync (transferReply Client.Error)
        (logText ("Error opening \"".toList ++ t.getD 3 [] ++ "\" for writing".toList) w))
    else
      let w := { w with fs := w.fs.truncate f.path }
      let w := setFile (some { f with handle := { isOpen := true, pos := 0 } }) w
      let w := logText ("Transferring local file \"".toList ++ f.name ++ "\" (".toList ++
        env.formatFileSize f.size ++ ")...".toList) w
      let w := sendAsync (transferReply Client.Local) w
      armRead ReadKind.file w

/-- Lines 709 to 754 of `Network::performTransfer`: the test of a local file
that may already be present, followed by the start of the transfer; `t` is
`commandTokens` and `f` the record `*file`. -/
def performTransferLocal (env : Env) (t : List Str) (f : File) (transferable : Bool)
    (w : World) : World :=
  match w.fs.read f.path with
  | some content =>
    if transferable then
      let fileChecksum := crc32 content
      if t.getD 5 [] = showHexUpper fileChecksum then
        setFile none (registerFile f.id f.name (sendAsync (transferReply Client.Check)
          (logText ("Local file \"".toList ++ t.getD 3 [] ++ "\" passed CRC check".toList) w)))
      else performTransferStart env t f false w
    else
      setFile none (registerFile f.id f.name (sendAsync (transferReply Client.Check)
        (logText ("Local file \"".toList ++ t.getD 3 [] ++ "\" exists".toList) w)))
  | none =>
    if !transferable then
      setFile none (sendAsync (transferReply Client.Error)
        (logText ("Local file \"".toList ++ t.getD 3 [] ++ "\" does not exist".toList) w))
    else performTransferStart env t f false w

/-- The method `Network::performTransfer`; `t` is `commandTokens` and `f` the
record `*file`, written back at each assignment. The loop over
`illegalCharacters` runs from `begin()` to `begin()`, that is over no
element. -/
def performTransfer (env : Env) (w : World) : World :=
  let t := w.net.commandTokens
  if t.length = 6 then
    if w.program.downloadPath = [] then
      sendAsync (transferReply Client.Error)
        (logText ("Transfer of file \"".toList ++ t.getD 3 [] ++
          "\" rejected (no download path specified)".toList) w)
    else
      let w := setFile (some (File.new env)) w
      match lexicalCastBool (t.getD 1 []), lexicalCastInt (t.getD 2 []),
        lexicalCastSizeT (t.getD 4 []) with
      | some transferable, some id, some size =>
        let f : File := { File.new env with id := id, size := size }
        let remote := istarts_with (t.getD 3 []) "http://".toList
        let f : File := if remote then { f with url := t.getD 3 [] } else f
        let name := if remote then (t.getD 3 []).drop (afterLast '/' (t.getD 3 [])) else t.getD 3 []
        let f : File := { f with name := name }
        let w := setFile (some f) w
        let result := w.program.acceptedFileExtensions.any (fun i => iends_with f.name i)
        if !result then
          setFile none (sendAsync (transferReply Client.Error)
            (logText ("Transfer of file \"".toList ++ t.getD 3 [] ++
              "\" rejected (invalid file type)".toList) w))
        else if (w.program.illegalCharacters.take 0).any (fun i => icontains f.name i) then
          setFile none (sendAsync (transferReply Client.Error)
            (logText ("Transfer of file \"".toList ++ t.getD 3 [] ++
              "\" rejected (illegal characters)".toList) w))
        else
          let f : File := { f with path := w.program.downloadPath ++ '\\' :: f.name }
          let w := setFile (some f) w
          if !remote then performTransferLocal env t f transferable w
          else performTransferStart env t f remote w
      | _, _, _ => setFile none (sendAsync (transferReply Client.Error) w)
  else if t.length = 1 then
    logText "All files processed".toList w
  else w

/-- The method `Network::performPlay`. -/
def performPlay (env : Env) (w : World) : World :=
  if w.net.commandTokens.length ≠ 6 then w
  else
    match lexicalCastInt (tok w 2), lexicalCastBool (tok w 3), lexicalCastBool (tok w 4),
      lexicalCastBool (tok w 5) with
    | some handleID, some pause, some loop, some downmix =>
      let stream : Stream := { Stream.new with name := tok w 1 }
      let w := setStreams (mapInsert w.audio.streams handleID stream) w
      let w := w.emit (Effect.playStream handleID pause loop downmix)
      let r := env.playStream w handleID pause loop downmix
      applyActs r.acts { w with audio := r.audio }
    | _, _, _, _ => w

/-- The loop over `inputTokens` at the end of `Network::performPlaySequence`,
for the stream found under `handleID`. -/
def sequenceLoop (env : Env) (handleID : Int) : List Str → World → World
  | [], w => w
  | i :: rest, w =>
    if i.length = 0 then sequenceLoop env handleID rest w
    else if i = ['F'] then
      let w := w.emit (Effect.initializeSequence handleID)
      let r := env.initializeSequence w handleID
      applyActs r.acts { w with audio := r.audio }
    else if i = ['U'] then
      match mapFind w.audio.streams handleID with
      | some s =>
        match s.sequence with
        | some q => sendAsync (fmt3 (showNat Client.Sequence) (showInt q.id) (showInt handleID)) w
        | none => w
      | none => w
    else
      match lexicalCastInt i with
      | none => sequenceLoop env handleID rest w
      | some audioID =>
        match mapFind w.audio.streams handleID with
        | some s =>
          match s.sequence with
          | some q =>
            sequenceLoop env handleID rest
              (setStreams (mapSet w.audio.streams handleID
                { s with sequence := some { q with audioIDs := q.audioIDs ++ [audioID] } }) w)
          | none => w
        | none => w

/-- Lines 860 to 898 of `Network::performPlaySequence`: the checks on the
stream and on the token list, then the loop. -/
def performPlaySequenceTail (env : Env) (handleID : Int) (inputTokens : List Str)
    (w : World) : World :=
  match mapFind w.audio.streams handleID with
  | none => w
  | some s =>
    if s.sequence.isNone then w
    else if inputTokens.length < 2 then w
    else sequenceLoop env handleID inputTokens w

/-- The method `Network::performPlaySequence`. -/
def performPlaySequence (env : Env) (w : World) : World :=
  let n := w.net.commandTokens.length
  if n ≠ 3 ∧ n ≠ 7 then w
  else if n = 3 then
    match lexicalCastInt (tok w 1) with
    | none => w
    | some handleID => performPlaySequenceTail env handleID (splitOn ' ' (tok w 2)) w
  else
    match lexicalCastInt (tok w 1), lexicalCastInt (tok w 2), lexicalCastBool (tok w 3),
      lexicalCastBool (tok w 4), lexicalCastBool (tok w 5) with
    | some sequenceID, some handleID, some pause, some loop, some downmix =>
      let stream : Stream :=
        { Stream.new with
          sequence := some { Sequence.new with downmix := downmix, id := sequenceID,
                                               loop := loop, pause := pause } }
      let w := setStreams (mapInsert w.audio.streams handleID stream) w
      performPlaySequenceTail env handleID (splitOn ' ' (tok w 6)) w
    | _, _, _, _, _ => w

/-- The method `Network::performPause`. -/
def performPause (env : Env) (w : World) : World :=
  if w.net.commandTokens.length ≠ 2 then w
  else
    match lexicalCastInt (tok w 1) with
    | none => w
    | some handleID =>
      match mapFind w.audio.streams handleID with
      | some s =>
        let w := bass (BassCall.channelPause s.mixer) w
        if env.bassChannelPause s.mixer then
          logText ("Paused: \"".toList ++ s.name ++ "\"".toList) w
        else w
      | none => w

/-- The method `Network::performResume`. -/
def performResume (env : Env) (w : World) : World :=
  if w.net.commandTokens.length ≠ 2 then w
  else
    match lexicalCastInt (tok w 1) with
    | none => w
    | some handleID =>
      match mapFind w.audio.streams handleID with
      | some s =>
        let w := bass (BassCall.channelPlay s.mixer) w
        if env.bassChannelPlay s.mixer then
          logText ("Resumed: \"".toList ++ s.name ++ "\"".toList) w
        else w
      | none => w

/-- The method `Network::performStop`. -/
def performStop (w : World) : World :=
  if w.net.commandTokens.length ≠ 2 then w
  else
    match lexicalCastInt (tok w 1) with
    | none => w
    | some handleID =>
      match mapFind w.audio.streams handleID with
      | some s => bass (BassCall.channelStop s.mixer) w
      | none => w

/-- The method `Network::performRestart`. -/
def performRestart (env : Env) (w : World) : World :=
  if w.net.commandTokens.length ≠ 2 then w
  else
    match lexicalCastInt (tok w 1) with
    | none => w
    | some handleID =>
      match mapFind w.audio.streams handleID with
      | some s =>
        let w := bass (BassCall.channelSetPosition s.channel 0) w
        if env.bassChannelSetPosition s.channel then
          let w := bass (BassCall.channelPlay s.mixer) w
          if env.bassChannelPlay s.mixer then
            logText ("Restarted: \"".toList ++ s.name ++ "\"".toList) w
          else w
        else w
      | none => w

/-- The method `Network::performGetPosition`. -/
def performGetPosition (env : Env) (w : World) : World :=
  if w.net.commandTokens.length ≠ 3 then w
  else
    match lexicalCastInt (tok w 1), lexicalCastInt (tok w 2) with
    | some requestID, some handleID =>
      match mapFind w.audio.streams handleID with
      | some s =>
        let w := bass (BassCall.channelGetPosition s.channel) w
        sendAsync (fmt4 (showNat Client.Position) (showInt requestID) (showInt handleID)
          (showInt (env.bassPositionSeconds s.channel))) w
      | none =>
        sendAsync (fmt4 (showNat Client.Position) (showInt requestID) (showInt handleID)
          (showInt 0)) w
    | _, _ => w

/-- The method `Network::performSetPosition`. -/
def performSetPosition (w : World) : World :=
  if w.net.commandTokens.length ≠ 3 then w
  else
    match lexicalCastInt (tok w 1), lexicalCastInt (tok w 2) with
    | some handleID, some seconds =>
      if seconds < 0 then w
      else
        match mapFind w.audio.streams handleID with
        | some s => bass (BassCall.channelSetPosition s.channel seconds) w
        | none => w
    | _, _ => w

/-- The method `Network::performSetVolume`. -/
def performSetVolume (env : Env) (w : World) : World :=
  if w.net.commandTokens.length ≠ 3 then w
  else
    match lexicalCastInt (tok w 1), env.lexicalCastFloat (tok w 2) with
    | some handleID, some volume =>
      if volume < 0 ∨ volume > 100 then w
      else
        match mapFind w.audio.streams handleID with
        | some s =>
          if s.position.isNone then bass (BassCall.channelSetVolume s.mixer (volume / 100)) w
          else w
        | none => w
    | _, _ => w

/-- The method `Network::performSetFX`. -/
def performSetFX (env : Env) (w : World) : World :=
  if w.net.commandTokens.length ≠ 3 then w
  else
    match lexicalCastInt (tok w 1), lexicalCastInt (tok w 2) with
    | some handleID, some type =>
      if type < 0 ∨ type > 8 then w
      else
        match mapFind w.audio.streams handleID with
        | some s =>
          if s.effects.getD type.toNat 0 = 0 then
            let w := bass (BassCall.channelSetFX s.mixer type) w
            setStreams (mapSet w.audio.streams handleID
              { s with effects := s.effects.set type.toNat (env.bassChannelSetFX s.mixer type) }) w
          else w
        | none => w
    | _, _ => w

/-- The method `Network::performRemoveFX`. -/
def performRemoveFX (w : World) : World :=
  if w.net.commandTokens.length ≠ 3 then w
  else
    match lexicalCastInt (tok w 1), lexicalCastInt (tok w 2) with
    | some handleID, some type =>
      if type < 0 ∨ type > 8 then w
      else
        match mapFind w.audio.streams handleID with
        | some s =>
          let w := bass (BassCall.channelRemoveFX s.mixer (s.effects.getD type.toNat 0)) w
          setStreams (mapSet w.audio.streams handleID
            { s with effects := s.effects.set type.toNat 0 }) w
        | none => w
    | _, _ => w

/-- The method `Network::performSet3DPosition`. -/
def performSet3DPosition (env : Env) (w : World) : World :=
  if w.net.commandTokens.length ≠ 6 then w
  else
    match lexicalCastInt (tok w 1) with
    | none => w
    | some handleID =>
      match mapFind w.audio.streams handleID with
      | some s =>
        match env.lexicalCastFloat (tok w 2), env.lexicalCastFloat (tok w 3),
          env.lexicalCastFloat (tok w 4), env.lexicalCastFloat (tok w 5) with
        | some x, some y, some z, some distance =>
          let w := setStreams (mapSet w.audio.streams handleID
            { s with position := some { distance := distance * distance, x := x, y := y, z := z } })
            w
          let w := bass (BassCall.channelSet3DAttributes s.mixer false) w
          let w := bass (BassCall.channelSet3DPosition s.mixer x y z) w
          bass BassCall.apply3D w
        | _, _, _, _ =>
          setStreams (mapSet w.audio.streams handleID { s with position := none }) w
      | none => w

/-- The method `Network::performRemove3DPosition`. -/
def performRemove3DPosition (w : World) : World :=
  if w.net.commandTokens.length ≠ 2 then w
  else
    match lexicalCastInt (tok w 1) with
    | none => w
    | some handleID =>
      match mapFind w.audio.streams handleID with
      | some s =>
        let w := setStreams (mapSet w.audio.streams handleID { s with position := none }) w
        let w := bass (BassCall.channelSetVolume s.mixer 1) w
        let w := bass (BassCall.channelSet3DAttributes s.mixer true) w
        let w := bass (BassCall.channelSet3DPosition s.mixer 0 0 0) w
        bass BassCall.apply3D w
      | none => w

/-- The method `Network::performSetRadioStation`. -/
def performSetRadioStation (w : World) : World :=
  if w.net.commandTokens.length ≠ 2 then w
  else
    match lexicalCastInt (tok w 1) with
    | none => w
    | some radioStation => w.emit (Effect.setRadioStation radioStation)

/-- The method `Network::performStopRadio`. -/
def performStopRadio (w : World) : World :=
  if w.net.commandTokens.length ≠ 1 then w
  else w.emit Effect.stopRadio

/-- The `switch (command)` of `Network::parseBuffer`; `Server::GetRadioStation`
has no case. -/
def dispatch (env : Env) (command : Int) (w : World) : World :=
  if command = Server.Connect then performConnect w
  else if command = Server.Message then performMessage w
  else if command = Server.Name then performName w
  else if command = Server.Transfer then performTransfer env w
  else if command = Server.Play then performPlay env w
  else if command = Server.PlaySequence then performPlaySequence env w
  else if command = Server.Pause then performPause env w
  else if command = Server.Resume then performResume env w
  else if command = Server.Stop then performStop w
  else if command = Server.Restart then performRestart env w
  else if command = Server.GetPosition then performGetPosition env w
  else if command = Server.SetPosition then performSetPosition w
  else if command = Server.SetVolume then performSetVolume env w
  else if command = Server.SetFX then performSetFX env w
  else if command = Server.RemoveFX then performRemoveFX w
  else if command = Server.Set3DPosition then performSet3DPosition env w
  else if command = Server.Remove3DPosition then performRemove3DPosition w
  else if command = Server.SetRadioStation then performSetRadioStation w
  else if command = Server.StopRadio then performStopRadio w
  else w

/-- Assignment to `Network::commandTokens`. -/
def setTokens (tokens : List Str) (w : World) : World :=
  { w with net := { w.net with commandTokens := tokens } }

/-- The method `Network::parseBuffer`. -/
def parseBuffer (env : Env) (buffer : Str) (w : World) : World :=
  if buffer = [] then sendAsync ['\n'] w
  else
    let tokens := splitOn '\t' buffer
    let tokens := if tokens = [] then [buffer] else tokens
    let w := setTokens tokens w
    if tokens.any (fun i => i = []) then w
    else
      match lexicalCastInt (tokens.getD 0 []) with
      | none => w
      | some command => dispatch env command w

/-! ## Read handlers -/

/-- The NUL character that ends a C string. -/
def nul : Char := Char.ofNat 0

/-- The C string held in a character array: the characters before the first
NUL. -/
def cString (buffer : Str) : Str := buffer.takeWhile (fun c => c ≠ nul)

/-- The call `std::string::resize(n)`: cut, or pad with NUL characters. -/
def resize (n : Nat) (s : Str) : Str := s.take n ++ List.replicate (n - s.length) nul

/-- The call `boost::algorithm::erase_last(s, ch)` for a one-character text:
the last occurrence of `ch` is removed. -/
def eraseLast (ch : Char) : Str → Str
  | [] => []
  | c :: cs =>
    if cs.contains ch then c :: eraseLast ch cs
    else if c = ch then cs
    else c :: cs

/-- What asio does before a read handler runs: the received bytes overwrite
the start of the target array. -/
def overwrite (chunk array : Str) : Str := chunk ++ array.drop chunk.length

/-- The method `Network::handleRead`; on success the first `transferredBytes`
characters of `receivedData` are the received chunk. -/
def handleRead (env : Env) (error : Bool) (transferredBytes : Nat) (w : World) : World :=
  if !error then
    let buffer := resize transferredBytes (cString w.net.receivedData)
    let buffer := eraseLast '\n' buffer
    let messageTokens := splitOn '\n' buffer
    let w := { w with net := { w.net with messageTokens := messageTokens } }
    let w :=
      if messageTokens = [] then parseBuffer env buffer w
      else messageTokens.foldl (fun w i => parseBuffer env i w) w
    let stop :=
      match w.net.file with
      | some f => decide (f.url = [])
      | none => false
    if stop then w
    else
      let w := armRead ReadKind.command w
      { w with net := { w.net with lastCommunication := w.tick } }
  else closeConnection w

/-- The text `"CANCEL"` that ends an upload when the transfer buffer, read as
a C string, equals it. -/
def cancelToken : Str := "CANCEL".toList

/-- The method `Network::handleReadFile`; on success the first
`transferredBytes` characters of `file->buffer` are the received chunk. -/
def handleReadFile (error : Bool) (transferredBytes : Nat) (w : World) : World :=
  let w :=
    if !error then
      match w.net.file with
      | some f =>
        if transferredBytes ≠ 0 then
          if cString f.buffer = cancelToken then
            setFile none (logText ("Transfer of local file \"".toList ++ f.name ++
              "\" canceled server-side".toList) w)
          else
            let w := { w with fs := w.fs.append f.path (f.buffer.take transferredBytes) }
            let w := setFile (some { f with handle := { f.handle with
              pos := f.handle.pos + transferredBytes } }) w
            if f.handle.pos + transferredBytes ≥ f.size then
              setFile none (registerFile f.id f.name
                (logText ("Transfer of local file \"".toList ++ f.name ++
                  "\" complete".toList) w))
            else w
        else
          setFile none (sendAsync (transferReply Client.Error)
            (logText ("Error reading data for local file \"".toList ++ f.name ++
              "\" during transfer: No data received".toList) w))
      | none => w
    else
      match w.net.file with
      | some f =>
        setFile none (sendAsync (transferReply Client.Error)
          (logText ("Error reading data for local file \"".toList ++ f.name ++
            "\" during transfer".toList) w))
      | none => w
  if w.net.socketOpen then
    let w :=
      match w.net.file with
      | some _ => armRead ReadKind.file w
      | none => armRead ReadKind.command w
    { w with net := { w.net with lastCommunication := w.tick } }
  else w

/-- The method `Network::handleOpenStream`; `contentLength` is
`readStream.content_length()`. -/
def handleOpenStream (env : Env) (error : Bool) (contentLength : Nat) (w : World) : World :=
  let w :=
    if !error then
      match w.net.file with
      | some f =>
        let w := updFile (fun f => { f with size := contentLength }) w
        let w :=
          match w.fs.read f.path with
          | some content =>
            if contentLength = content.length then
              setFile none (registerFile f.id f.name (sendAsync (transferReply Client.Check)
                (logText ("Remote file \"".toList ++ f.url ++
                  "\" passed file size check".toList) w)))
            else w
          | none => w
        match w.net.file with
        | some f =>
          let w := w.emit (Effect.openForWriting f.path)
          if !(w.fs.canWrite f.path) then
            setFile none (sendAsync (transferReply Client.Error)
              (logText ("Error opening \"".toList ++ f.name ++ "\" for writing".toList) w))
          else
            updFile (fun f => { f with handle := { isOpen := true, pos := 0 } })
              { w with fs := w.fs.truncate f.path }
        | none => w
      | none => w
    else
      match w.net.file with
      | some f =>
        setFile none (sendAsync (transferReply Client.Error)
          (logText ("Error opening stream for remote file \"".toList ++ f.url ++ "\"".toList) w))
      | none => w
  if w.net.socketOpen && w.net.readStreamOpen then
    match w.net.file with
    | some f =>
      let w := logText ("Transferring remote file \"".toList ++ f.url ++ "\" (".toList ++
        env.formatFileSize f.size ++ ")...".toList) w
      ({ w with net := { w.net with streamReadOps := w.net.streamReadOps + 1 } }).emit
        Effect.asyncReadStream
    | none =>
      let w := armRead ReadKind.command w
      { w with net := { w.net with readStreamOpen := false } }
  else w

/-- How a read on the HTTP stream ended. -/
inductive StreamStatus where
  | ok
  | eof
  | failed
  deriving DecidableEq, Repr

/-- The method `Network::handleReadStream`; on success the first
`transferredBytes` characters of `file->buffer` are the received chunk. -/
def handleReadStream (status : StreamStatus) (transferredBytes : Nat) (w : World) : World :=
  let w :=
    match status with
    | StreamStatus.ok =>
      match w.net.file with
      | some f =>
        if transferredBytes ≠ 0 then
          updFile (fun f => { f with handle := { f.handle with
              pos := f.handle.pos + transferredBytes } })
            { w with fs := w.fs.append f.path (f.buffer.take transferredBytes) }
        else
          let w := setFile none (sendAsync (transferReply Client.Error)
            (logText ("Error reading stream for remote file \"".toList ++ f.url ++
              "\" during transfer: No data received".toList) w))
          { w with net := { w.net with readStreamOpen := false } }
      | none => w
    | StreamStatus.failed =>
      match w.net.file with
      | some f =>
        let w := sendAsync (transferReply Client.Error)
          (logText ("Error reading stream for remote file \"".toList ++ f.url ++
            "\" during transfer".toList) w)
        let w := setFile none w
        { w with net := { w.net with readStreamOpen := false } }
      | none => w
    | StreamStatus.eof =>
      match w.net.file with
      | some f =>
        let w := registerFile f.id f.name (sendAsync (transferReply Client.Remote)
          (logText ("Transfer of remote file \"".toList ++ f.url ++ "\" complete".toList) w))
        let w := setFile none w
        { w with net := { w.net with readStreamOpen := false } }
      | none => w
  if w.net.readStreamOpen then
    match w.net.file with
    | some _ =>
      ({ w with net := { w.net with streamReadOps := w.net.streamReadOps + 1 } }).emit
        Effect.asyncReadStream
    | none => w
  else w

/-! ## The reactor -/

/-- The state after the constructors of `Program`, `Audio`, `Game` and
`Network` have run: nothing connected, the main timer armed. -/
def initialWorld (program : Program) (fs : FileSys) (tick : Nat) : World :=
  { net :=
      { connected := false, file := none, attempts := 0, authenticated := false,
        connecting := false, commandTokens := [], lastCommunication := 0, messageTokens := [],
        pendingMessages := [], receivedData := [], sentData := [], writeInProgress := false,
        socketOpen := false, readStreamOpen := false, connectTimer := none, mainTimer := true,
        timeoutTimer := false, resolveOp := false, connectOp := none, readOps := [],
        writeOps := [], streamOpenOp := false, streamReadOps := 0 },
    program := program,
    audio := { files := [], streams := [], stopped := false },
    game := { gameOpen := false, started := false },
    fs := fs, tick := tick, trace := [] }

/-- The program state after `Program::Program()` with the default settings. -/
def defaultProgram : Program :=
  { settings := Settings.defaults, address := [], name := [], port := [], downloadPath := [],
    savePath := ['.'], acceptedFileExtensions := defaultAcceptedFileExtensions,
    illegalCharacters := defaultIllegalCharacters }

/-- A completion delivered by the reactor, a change of the surroundings (tick
counter, game flags), or a call from a collaborator: `sendAsync` from the
audio engine or the game, `closeConnection` from `Program::stop`. -/
inductive Event where
  | mainTick
  | resolved (result : Option Iter)
  | connectTimerFired
  | connectDone (error : Bool)
  | timeoutFired
  | received (chunk : Str)
  | readFailed
  | writeDone (error : Bool)
  | streamOpened (error : Bool) (contentLength : Nat)
  | streamRead (status : StreamStatus) (chunk : Str)
  | clock (tick : Nat)
  | gameFlags (gameOpen : Bool) (started : Bool)
  | collaboratorSend (message : Str)
  | programStop
  deriving DecidableEq, Repr

/-- One turn of the reactor: the operation the event completes is taken off
the outstanding ones and its handler runs; `none` when no such operation is
outstanding. A read completes with data only on an established connection:
the socket is open and its connect has completed, which is from the success
branch of `handleConnect` to the next `stopAsync`, the span in which
`connected` is set. -/
def step (env : Env) (w : World) : Event → Option World
  | Event.mainTick =>
    if w.net.mainTimer then
      some (handleMainTimer { w with net := { w.net with mainTimer := false } })
    else none
  | Event.resolved result =>
    if w.net.resolveOp then
      some (handleResolve result { w with net := { w.net with resolveOp := false } })
    else none
  | Event.connectTimerFired =>
    match w.net.connectTimer with
    | some it => some (handleConnectTimer it { w with net := { w.net with connectTimer := none } })
    | none => none
  | Event.connectDone error =>
    match w.net.connectOp with
    | some it =>
      if !error && !w.net.socketOpen then none
      else some (handleConnect env error it { w with net := { w.net with connectOp := none } })
    | none => none
  | Event.timeoutFired =>
    if w.net.timeoutTimer then
      some (handleTimeoutTimer { w with net := { w.net with timeoutTimer := false } })
    else none
  | Event.received chunk =>
    if w.net.socketOpen && w.net.connected then
      match w.net.readOps with
      | ReadKind.command :: rest =>
        some (handleRead env false chunk.length
          { w with net := { w.net with readOps := rest,
                                       receivedData := overwrite chunk w.net.receivedData } })
      | ReadKind.file :: rest =>
        some (handleReadFile false chunk.length
          (updFile (fun f => { f with buffer := overwrite chunk f.buffer })
            { w with net := { w.net with readOps := rest } }))
      | [] => none
    else none
  | Event.readFailed =>
    match w.net.readOps with
    | ReadKind.command :: rest =>
      some (handleRead env true 0 { w with net := { w.net with readOps := rest } })
    | ReadKind.file :: rest =>
      some (handleReadFile true 0 { w with net := { w.net with readOps := rest } })
    | [] => none
  | Event.writeDone error =>
    match w.net.writeOps with
    | _ :: rest =>
      if !error && !w.net.socketOpen then none
      else some (handleWrite error { w with net := { w.net with writeOps := rest } })
    | [] => none
  | Event.streamOpened error contentLength =>
    if w.net.streamOpenOp then
      some (handleOpenStream env error contentLength
        { w with net := { w.net with streamOpenOp := false, readStreamOpen := !error } })
    else none
  | Event.streamRead status chunk =>
    if w.net.streamReadOps ≠ 0 then
      some (handleReadStream status chunk.length
        (updFile (fun f => { f with buffer := overwrite chunk f.buffer })
          { w with net := { w.net with streamReadOps := w.net.streamReadOps - 1 } }))
    else none
  | Event.clock tick => some { w with tick := tick }
  | Event.gameFlags gameOpen started =>
    some { w with game := { gameOpen := gameOpen, started := started } }
  | Event.collaboratorSend message => some (sendAsync message w)
  | Event.programStop => some (closeConnection w)

/-- Run the reactor over a list of events; `none` as soon as one of them has
no outstanding operation to complete. -/
def run (env : Env) : World → List Event → Option World
  | w, [] => some w
  | w, e :: rest =>
    match step env w e with
    | some w1 => run env w1 rest
    | none => none

/-- A sample environment: 16-byte buffers, BASS calls that succeed, an audio
engine that leaves the tables alone. -/
def sampleEnv : Env :=
  { MAX_BUFFER := 16, PLUGIN_VERSION := "0.5".toList, NETWORK_TIMER_TICK := 25,
    freshBuffer := List.replicate 16 nul,
    lexicalCastFloat := fun s => (lexicalCastInt s).map (fun i => (i : Rat)),
    formatFileSize := fun n => showNat n ++ " bytes".toList,
    bassChannelPause := fun _ => true, bassChannelPlay := fun _ => true,
    bassChannelSetPosition := fun _ => true, bassPositionSeconds := fun _ => 0,
    bassChannelSetFX := fun _ _ => 1,
    playStream := fun w _ _ _ _ => { audio := w.audio, acts := [] },
    initializeSequence := fun w _ => { audio := w.audio, acts := [] } }

/-! ## Sample worlds and tables used by the statements -/

/-- A file system with no file and no directory. -/
def emptyFs : FileSys := { files := [], dirs := [], readOnly := [] }

/-- A connected, authenticated session: socket open, one command read
outstanding, game running. -/
def sessionWorld (program : Program) (fs : FileSys) : World :=
  let w := initialWorld program fs 0
  { w with net := { w.net with connected := true, authenticated := true, socketOpen := true,
                               readOps := [ReadKind.command] },
           game := { gameOpen := true, started := true } }

/-- The default program state with a download directory configured. -/
def programWithPack : Program :=
  { defaultProgram with downloadPath := ".\\audiopacks\\pack".toList }

/-- The scenario line of the specification: first field `4`. -/
def scenarioLine : Str := "4\t1\t7\tsong.mp3\t120\tA1B2C3D4".toList

/-- The same line with the opcode of `Server::Transfer`, which is `3`. -/
def scenarioLineTransfer : Str := "3\t1\t7\tsong.mp3\t120\tA1B2C3D4".toList

/-- A session with a download directory, transfers disabled and no file. -/
def scenarioWorld : World :=
  sessionWorld { programWithPack with settings := { Settings.defaults with transferFiles := false } }
    emptyFs

/-- The record `*file` of `performTransfer` once id, size, name and path are
assigned, for a file that is not a URL. -/
def transferRecord (env : Env) (id : Int) (size : Nat) (name : Str) (dir : Str) : File :=
  { File.new env with id := id, size := size, name := name, path := dir ++ '\\' :: name }

/-- The server opcodes that have a case in the `switch` of `parseBuffer`. -/
def handledOpcodes : List Int :=
  [Server.Connect, Server.Message, Server.Name, Server.Transfer, Server.Play,
   Server.PlaySequence, Server.Pause, Server.Resume, Server.Stop, Server.Restart,
   Server.GetPosition, Server.SetPosition, Server.SetVolume, Server.SetFX, Server.RemoveFX,
   Server.Set3DPosition, Server.Remove3DPosition, Server.SetRadioStation, Server.StopRadio]

/-- The field counts on which the handler of an opcode goes past its
`commandTokens.size()` test to carry out the command. -/
def requiredFieldCounts (command : Int) : List Nat :=
  if command = Server.Connect then [1, 2]
  else if command = Server.PlaySequence then [3, 7]
  else if command = Server.StopRadio then [1]
  else if command = Server.Transfer ∨ command = Server.Play ∨ command = Server.Set3DPosition
    then [6]
  else if command = Server.GetPosition ∨ command = Server.SetPosition ∨
      command = Server.SetVolume ∨ command = Server.SetFX ∨ command = Server.RemoveFX then [3]
  else if command = Server.Message ∨ command = Server.Name ∨ command = Server.Pause ∨
      command = Server.Resume ∨ command = Server.Stop ∨ command = Server.Restart ∨
      command = Server.Remove3DPosition ∨ command = Server.SetRadioStation then [2]
  else []

/-- A Transfer line whose file name holds the illegal strings `..` and `\`. -/
def traversalLine : Str := "3\t1\t7\t..\\evil.mp3\t120\tA1B2C3D4".toList

/-- A session with a download directory, transfers enabled and no file. -/
def uploadReadyWorld : World := sessionWorld programWithPack emptyFs

/-- A session in which `song.mp3` is already present with content `abc`. -/
def existingFileWorld : World :=
  sessionWorld programWithPack
    { files := [(".\\audiopacks\\pack\\song.mp3".toList, "abc".toList)], dirs := [],
      readOnly := [] }

/-- A Transfer line for `song.mp3` declaring the checksum of `abc`. -/
def matchingLine : Str := "3\t1\t7\tsong.mp3\t3\t352441C2".toList

/-- A Transfer line that starts a local upload of five bytes. -/
def uploadLine : Str := "3\t1\t7\tsong.mp3\t5\tA1B2C3D4".toList

/-- The session after the command read received `uploadLine` and a newline:
the upload is active and a file read is outstanding. -/
def uploadingWorld : World :=
  (step sampleEnv uploadReadyWorld (Event.received (uploadLine ++ ['\n']))).getD
    uploadReadyWorld

/-- The transfer record of `uploadingWorld`. -/
def uploadingFile : File :=
  { transferRecord sampleEnv 7 5 "song.mp3".toList programWithPack.downloadPath with
    handle := { isOpen := true, pos := 0 } }

/-- The events of one failed connect attempt. First the game window is
closed and the connect timer fires `idle` times, which only re-arms it; then
the window is open again, the timer fires and starts the connect, and the
connect fails, either refused or, when `viaTimeout`, aborted after the timeout
timer has closed the socket. -/
def failedAttempt (idle : Nat) (viaTimeout : Bool) : List Event :=
  Event.gameFlags false true :: (List.replicate idle Event.connectTimerFired ++
    Event.gameFlags true true :: Event.connectTimerFired ::
      (if viaTimeout then [Event.timeoutFired, Event.connectDone true]
       else [Event.connectDone true]))

/-- The events of a run of failed connect attempts; each attempt comes with
its number of idle timer firings and its failure mode. -/
def failedAttempts : List (Nat × Bool) → List Event
  | [] => []
  | m :: ms => failedAttempt m.1 m.2 ++ failedAttempts ms

/-- What one failed attempt leaves in the trace: the log line with endpoint
and attempt counter, the `async_connect`, and the log line of the failure. -/
def attemptTrace (total : Nat) (endpoint : Endpoint) (attempts : Nat) (viaTimeout : Bool) :
    List Effect :=
  [Effect.logText (connectingLine endpoint attempts total), Effect.asyncConnect endpoint,
   Effect.logText (if viaTimeout then timedOutLine endpoint else refusedLine endpoint)]

/-- The attempts the claim expects: `n` against each endpoint in turn, with the
counter running from `1` to `n`. -/
def schedule (n : Nat) (eps : Iter) : List (Endpoint × Nat) :=
  eps.flatMap (fun e => (List.range n).map (fun k => (e, k + 1)))

/-- The rest of the schedule when the counter stands at `a` for the first
endpoint of `it`. -/
def scheduleFrom (n a : Nat) : Iter → List (Endpoint × Nat)
  | [] => []
  | e :: rest => (List.range (n + 1 - a)).map (fun k => (e, a + k)) ++ schedule n rest

/-- The trace of the attempts of a schedule, one failure mode per attempt. -/
def scheduleTrace (total : Nat) : List (Endpoint × Nat) → List (Nat × Bool) → List Effect
  | p :: ps, m :: ms => attemptTrace total p.1 p.2 m.2 ++ scheduleTrace total ps ms
  | _, _ => []

/-- A program with one connect attempt per endpoint. -/
def singleAttemptProgram : Program :=
  { defaultProgram with settings := { Settings.defaults with connectAttempts := 1 } }

/-- Two sample endpoints. -/
def sampleEndpoints : Iter := ["10.0.0.1:7777".toList, "10.0.0.2:7777".toList]

/-- The state once the game is running and the first main tick has started
the resolve. -/
def resolvingWorld (program : Program) : World :=
  handleMainTimer
    { initialWorld program emptyFs 0 with game := { gameOpen := true, started := true } }

/-- The situation between two connect attempts: the connect timer is armed
with iterator `it`, the counter stands at `a` with `1 ≤ a ≤ n`, nothing is
connected and no resolve is outstanding. -/
def BetweenAttempts (n : Nat) (w : World) (a : Nat) (it : Iter) : Prop :=
  w.net.connectTimer = some it ∧ w.net.attempts = a ∧ 1 ≤ a ∧ a ≤ n ∧
  w.net.connected = false ∧ w.net.resolveOp = false ∧
  w.program.settings.connectAttempts = n

/-- Failure modes for two attempts: the first after three idle firings and by
timeout, the second at once and refused. -/
def sampleModes : List (Nat × Bool) := [(3, true), (0, false)]

/-- An event of the outbound queue: a call `sendAsync(m)`, or the completion of
the write in flight (`error` true when it failed). -/
inductive QueueEvent where
  | send (m : Str)
  | complete (error : Bool)
  deriving DecidableEq, Repr

/-- One event of the outbound queue: `sendAsync`, or `handleWrite` for the
oldest outstanding `async_write`; a completion with no write outstanding
cannot happen (`none`). -/
def queueStep (w : World) : QueueEvent → Option World
  | QueueEvent.send m => some (sendAsync m w)
  | QueueEvent.complete error =>
    match w.net.writeOps with
    | _ :: rest => some (handleWrite error { w with net := { w.net with writeOps := rest } })
    | [] => none

/-- An interleaving of `sendAsync` calls and write completions. -/
def queueRun : World → List QueueEvent → Option World
  | w, [] => some w
  | w, e :: rest =>
    match queueStep w e with
    | some w1 => queueRun w1 rest
    | none => none

/-- The messages passed to `sendAsync` by the events, in call order. -/
def passedMessages : List QueueEvent → List Str
  | [] => []
  | QueueEvent.send m :: rest => m :: passedMessages rest
  | QueueEvent.complete _ :: rest => passedMessages rest

/-- The messages that are in the pending queue at the moment a write completes
with an error, collected along the run. -/
def discardedMessages : World → List QueueEvent → List Str
  | _, [] => []
  | w, e :: rest =>
    (match e with
      | QueueEvent.complete true => w.net.pendingMessages
      | _ => []) ++
    (match queueStep w e with
      | some w1 => discardedMessages w1 rest
      | none => [])

/-- The elements of a list at the positions marked `true`. -/
def pick {α : Type} : List Bool → List α → List α
  | true :: ks, x :: xs => x :: pick ks xs
  | false :: ks, _ :: xs => pick ks xs
  | _, _ => []

/-- The outbound queue is at rest or has exactly one write in flight; at rest
nothing is pending. -/
def QueueConsistent (w : World) : Prop :=
  (w.net.writeInProgress = true ∧ w.net.writeOps.length = 1) ∨
  (w.net.writeInProgress = false ∧ w.net.writeOps = [] ∧ w.net.pendingMessages = [])

/-- Deliver the chunks one after the other to `handleReadFile`: each chunk
completes the outstanding file read of the active transfer. `none` when a
chunk finds no active transfer, no outstanding file read or a closed socket. -/
def deliverChunks (env : Env) : World → List Str → Option World
  | w, [] => some w
  | w, c :: cs =>
    if w.net.file.isSome ∧ w.net.readOps.head? = some ReadKind.file then
      match step env w (Event.received c) with
      | some w1 => deliverChunks env w1 cs
      | none => none
    else none

/-- The transfer buffer after the chunks were received into it in turn. -/
def lastBuffer (buffer : Str) (cs : List Str) : Str :=
  cs.foldl (fun b c => overwrite c b) buffer

/-- The total number of bytes of the chunks. -/
def totalLength (cs : List Str) : Nat := (cs.map List.length).sum

/-- The transfer record after the chunks `cs` were written: buffer and write
position have moved, everything else is as in `f`. -/
def fileAfter (f : File) (cs : List Str) : File :=
  { f with buffer := lastBuffer f.buffer cs,
           handle := { f.handle with pos := f.handle.pos + totalLength cs } }

/-- A five-byte upload receives a chunk of eight bytes. -/
def overlongChunk : Str := "12345678".toList

/-- A sample interleaving: two sends, a successful completion, a third send,
a failed completion, a fourth send. -/
def queueSample : List QueueEvent :=
  [QueueEvent.send "a\n".toList, QueueEvent.send "b\n".toList, QueueEvent.complete false,
   QueueEvent.send "c\n".toList, QueueEvent.complete true, QueueEvent.send "d\n".toList]

/-- The state after `queueSample`, started in a session at rest. -/
def queueSampleEnd : World := (queueRun uploadReadyWorld queueSample).getD uploadReadyWorld

/-- Two chunks that add up to the five bytes of the sample upload. -/
def exactChunks : List Str := ["12".toList, "345".toList]

/-- The state after `exactChunks` were delivered to the sample upload. -/
def exactChunksEnd : World :=
  (deliverChunks sampleEnv uploadingWorld exactChunks).getD uploadingWorld

/-! ## Framing of a received chunk -/

/-- The text `handleRead` frames after a read of `n` bytes: the C string held
in `receivedData`, resized to `n` characters. -/
def readBuffer (receivedData : Str) (n : Nat) : Str := resize n (cString receivedData)

/-- The lines `handleRead` passes to `parseBuffer` for the framed text
`buffer`, in order: the last newline is erased, the rest is split at every
newline. -/
def framedLines (buffer : Str) : List Str :=
  if splitOn '\n' (eraseLast '\n' buffer) = [] then [eraseLast '\n' buffer]
  else splitOn '\n' (eraseLast '\n' buffer)

/-- One call of `parseBuffer` per line, in order. -/
def dispatchLines (env : Env) (lines : List Str) (w : World) : World :=
  lines.foldl (fun w i => parseBuffer env i w) w

/-- The world in which the lines of a chunk are dispatched: `messageTokens`
holds the split text. -/
def setMessageTokens (messageTokens : List Str) (w : World) : World :=
  { w with net := { w.net with messageTokens := messageTokens } }

/-- The end of `handleRead`: with a local transfer active nothing more is
done; otherwise the next command read is armed and `lastCommunication` is
set. -/
def finishRead (w : World) : World :=
  if (match w.net.file with
      | some f => decide (f.url = [])
      | none => false) then w
  else
    { armRead ReadKind.command w with
      net := { (armRead ReadKind.command w).net with lastCommunication := w.tick } }

/-- The world asio hands to `handleRead` once `chunk` has been received. -/
def withReceived (chunk : Str) (w : World) : World :=
  { w with net := { w.net with receivedData := overwrite chunk w.net.receivedData } }

/-- Lines joined into one chunk, each followed by a newline. -/
def joinLines (lines : List Str) : Str := (lines.map (fun l => l ++ ['\n'])).flatten

/-- A chunk with one complete Message line and a trailing fragment. -/
def fragmentChunk : Str := "1\ta\n1\tb".toList

/-- A chunk that is only a fragment: no newline. -/
def fragmentOnly : Str := "1\tb".toList

/-- A line with a NUL character inside its second field. -/
def nulLine : Str := "1\ta".toList ++ nul :: "b".toList

/-! ## State invariants -/

/-- What a handler that only logs, sends, calls the audio engine or edits the
audio tables leaves alone: the connection flags, the outstanding reads, the
transfer record and the download directory. -/
def Same (w v : World) : Prop :=
  v.net.connected = w.net.connected ∧ v.net.connecting = w.net.connecting ∧
  v.net.socketOpen = w.net.socketOpen ∧ v.net.readOps = w.net.readOps ∧
  v.net.file = w.net.file ∧ v.program.downloadPath = w.program.downloadPath

/-- What every command handler respects: the connection flags are kept, the
only reads it arms are file reads, and a transfer record is held afterwards
only with a download directory configured (or because it was held before and
the directory is the same). -/
def Frame (w v : World) : Prop :=
  v.net.connected = w.net.connected ∧ v.net.connecting = w.net.connecting ∧
  v.net.socketOpen = w.net.socketOpen ∧
  (∀ k ∈ v.net.readOps, k = ReadKind.file ∨ k ∈ w.net.readOps) ∧
  (v.net.file.isSome = true →
    v.program.downloadPath ≠ [] ∨
      (w.net.file.isSome = true ∧ v.program.downloadPath = w.program.downloadPath))

/-- The part of `Frame` that the completion handlers of the transfer and of
the outbound queue respect as well. -/
def Keeps (w v : World) : Prop :=
  v.net.connected = w.net.connected ∧ v.net.connecting = w.net.connecting ∧
  v.net.socketOpen = w.net.socketOpen ∧
  (v.net.file.isSome = true →
    v.program.downloadPath ≠ [] ∨
      (w.net.file.isSome = true ∧ v.program.downloadPath = w.program.downloadPath))

/-- The invariant of the connection state: while connected the socket is open
and no connect cycle is running, and a transfer record is held only while a
download directory is configured. -/
def Sound (w : World) : Prop :=
  (w.net.connected = true → w.net.socketOpen = true ∧ w.net.connecting = false) ∧
  (w.net.file.isSome = true → w.program.downloadPath ≠ [])

/-- The states the reactor reaches from the state after construction. -/
def Reachable (env : Env) (w : World) : Prop :=
  ∃ program fs tick evs, run env (initialWorld program fs tick) evs = some w

/-! ## Transfers: samples and conditions -/

/-- A second Transfer line, for another file. -/
def secondLine : Str := "3\t1\t8\tother.mp3\t9\tA1B2C3D4".toList

/-- A chunk with two Transfer lines. -/
def twoTransfers : Str := joinLines [uploadLine, secondLine]

/-- The file name `performTransfer` takes from the fourth field: for a URL the
part after the last `/`, otherwise the field itself. -/
def transferName (field : Str) : Str :=
  if istarts_with field "http://".toList then field.drop (afterLast '/' field) else field

/-- The condition under which `performTransfer` answers a six-field command
with typed fields from the file already present: a download directory is
configured, the fourth field is no URL and ends with an accepted extension,
the file exists at the destination and, when `transferable`, the sixth field
is the upper-case hexadecimal text of its CRC-32. -/
def passesLocalCheck (w : World) (transferable : Bool) : Bool :=
  decide (w.program.downloadPath ≠ []) && !(istarts_with (tok w 3) "http://".toList) &&
  w.program.acceptedFileExtensions.any (fun i => iends_with (tok w 3) i) &&
  match w.fs.read (w.program.downloadPath ++ '\\' :: tok w 3) with
  | some content => !transferable || decide (tok w 5 = showHexUpper (crc32 content))
  | none => false

/-- The session of `existingFileWorld` with transfers disabled. -/
def disabledExistingWorld : World :=
  { existingFileWorld with
    program := { existingFileWorld.program with
      settings := { Settings.defaults with transferFiles := false } } }

/-- Events that take the machine from construction to an open session and
then let thirty seconds pass without traffic. -/
def connectEvents : List Event :=
  [Event.gameFlags true true, Event.mainTick, Event.resolved (some sampleEndpoints),
   Event.connectTimerFired, Event.connectDone false, Event.clock 30000]

/-- The session reached by `connectEvents`. -/
def idleSession : World :=
  (run sampleEnv (initialWorld defaultProgram emptyFs 0) connectEvents).getD
    (initialWorld defaultProgram emptyFs 0)

/-! ## Typed fields -/

/-- Whether every field that the handler of `command` converts with
`lexical_cast` parses, for the token list `t`: the conversions of the `try`
blocks of the handlers, by opcode and, for `Server::PlaySequence`, by field
count. The handlers of Connect, Message, Name and StopRadio convert nothing. -/
def typedFieldsParse (env : Env) (command : Int) (t : List Str) : Bool :=
  if command = Server.Transfer then
    (lexicalCastBool (t.getD 1 [])).isSome && (lexicalCastInt (t.getD 2 [])).isSome &&
      (lexicalCastSizeT (t.getD 4 [])).isSome
  else if command = Server.Play then
    (lexicalCastInt (t.getD 2 [])).isSome && (lexicalCastBool (t.getD 3 [])).isSome &&
      (lexicalCastBool (t.getD 4 [])).isSome && (lexicalCastBool (t.getD 5 [])).isSome
  else if command = Server.PlaySequence then
    if t.length = 3 then (lexicalCastInt (t.getD 1 [])).isSome
    else
      (lexicalCastInt (t.getD 1 [])).isSome && (lexicalCastInt (t.getD 2 [])).isSome &&
        (lexicalCastBool (t.getD 3 [])).isSome && (lexicalCastBool (t.getD 4 [])).isSome &&
        (lexicalCastBool (t.getD 5 [])).isSome
  else if command = Server.Pause ∨ command = Server.Resume ∨ command = Server.Stop ∨
      command = Server.Restart ∨ command = Server.Remove3DPosition ∨
      command = Server.SetRadioStation then
    (lexicalCastInt (t.getD 1 [])).isSome
  else if command = Server.GetPosition ∨ command = Server.SetPosition ∨
      command = Server.SetFX ∨ command = Server.RemoveFX then
    (lexicalCastInt (t.getD 1 [])).isSome && (lexicalCastInt (t.getD 2 [])).isSome
  else if command = Server.SetVolume then
    (lexicalCastInt (t.getD 1 [])).isSome && (env.lexicalCastFloat (t.getD 2 [])).isSome
  else if command = Server.Set3DPosition then
    (lexicalCastInt (t.getD 1 [])).isSome && (env.lexicalCastFloat (t.getD 2 [])).isSome &&
      (env.lexicalCastFloat (t.getD 3 [])).isSome && (env.lexicalCastFloat (t.getD 4 [])).isSome &&
      (env.lexicalCastFloat (t.getD 5 [])).isSome
  else true

/-- A Transfer line whose transferable flag is no boolean. -/
def badFlagLine : Str := "3\tx\t7\tsong.mp3\t5\tA1B2C3D4".toList

/-! ## Samples for the dispatcher and the stream table -/

/-- A Connect line whose path field holds the illegal strings `..` and `\`. -/
def illegalConnectLine : Str := "0\t..\\evil".toList

/-- A connected session with no download directory yet. -/
def freshSession : World := sessionWorld defaultProgram emptyFs

/-- A stored 3D position. -/
def samplePosition : Position := { distance := 16, x := 1, y := 2, z := 3 }

/-- A session in which stream 7 has a 3D position. -/
def positionedWorld : World :=
  setStreams [((7 : Int), { Stream.new with position := some samplePosition })] uploadReadyWorld

/-- A Set3DPosition line for stream 7 whose x coordinate is no number. -/
def badCoordinateLine : Str := "15\t7\tx\t0\t0\t4".toList

/-! ## Samples for the checksum test -/

/-- The Transfer line of `matchingLine` with the checksum in lower case. -/
def lowerCaseLine : Str := "3\t1\t7\tsong.mp3\t3\t352441c2".toList

/-- A session in which `song.mp3` is present with content `c`, whose CRC-32
is `06B9DF6F`. -/
def shortFileWorld : World :=
  sessionWorld programWithPack
    { files := [(".\\audiopacks\\pack\\song.mp3".toList, "c".toList)], dirs := [],
      readOnly := [] }

/-- A Transfer line that declares the checksum of `c` with eight digits. -/
def paddedLine : Str := "3\t1\t7\tsong.mp3\t1\t06B9DF6F".toList

/-- The value of one hexadecimal digit, in either case. -/
def hexDigitValue (c : Char) : Option Nat :=
  if '0'.toNat ≤ c.toNat ∧ c.toNat ≤ '9'.toNat then some (c.toNat - '0'.toNat)
  else if 'A'.toNat ≤ c.toNat ∧ c.toNat ≤ 'F'.toNat then some (c.toNat - 'A'.toNat + 10)
  else if 'a'.toNat ≤ c.toNat ∧ c.toNat ≤ 'f'.toNat then some (c.toNat - 'a'.toNat + 10)
  else none

/-- The number that a declared checksum spells, read as a non-empty string of
hexadecimal digits, whatever the case of its digits and the number of its
leading zeros. This is the reading of the specification under which a declared
checksum equals a CRC-32; the program never converts the sixth field to a
number. -/
def hexValue (s : Str) : Option Nat :=
  if s = [] then none
  else s.foldl (fun acc c =>
    match acc, hexDigitValue c with
    | some v, some d => some (16 * v + d)
    | _, _ => none) (some 0)

/-- The reply of `performTransferStart` for a file that is not a URL. -/
def startReply (w : World) (path : Str) : Str :=
  if w.program.settings.transferFiles && w.fs.canWrite path then transferReply Client.Local
  else transferReply Client.Error

/-! ## The liveness check -/

/-- The value `timeElapsed` of `handleMainTimer`: the difference
`GetTickCount() - lastCommunication` of two `DWORD` values, which wraps
modulo 2^32. -/
def timeElapsed (w : World) : Nat :=
  (w.tick + 4294967296 - w.net.lastCommunication) % 4294967296

/-- What no command handler touches: the tick counter, the time stamp
`lastCommunication` and the game flags. -/
def Still (w v : World) : Prop :=
  v.tick = w.tick ∧ v.net.lastCommunication = w.net.lastCommunication ∧ v.game = w.game

/-- A session whose last communication was one second before the tick counter
wrapped, seen four seconds after the wrap. -/
def wrappedSession : World :=
  { uploadReadyWorld with
    tick := 4000,
    net := { uploadReadyWorld.net with lastCommunication := 4294966296 } }

/-- Events that open a session at tick 0, let the write of the Authenticate
message complete at tick 15000 and let the main timer fire at tick 25000. -/
def writeThenIdle : List Event :=
  [Event.gameFlags true true, Event.mainTick, Event.resolved (some sampleEndpoints),
   Event.connectTimerFired, Event.connectDone false, Event.clock 15000,
   Event.writeDone false, Event.clock 25000, Event.mainTick]

/-! ## The setting `connect_attempts` at zero -/

/-- The state with the setting `connectAttempts` at `n`; `loadSettings`
stores whatever unsigned number the file holds. -/
def withConnectAttempts (n : Nat) (w : World) : World :=
  { w with program := { w.program with
      settings := { w.program.settings with connectAttempts := n } } }

/-- The state after construction with `connect_attempts = 0`. -/
def zeroAttemptsWorld : World := withConnectAttempts 0 (initialWorld defaultProgram emptyFs 0)

/-- Events up to the first firing of the connect timer, for the resolved
endpoints `eps`. -/
def firstFiring (eps : Iter) : List Event :=
  [Event.gameFlags true true, Event.mainTick, Event.resolved (some eps),
   Event.connectTimerFired]

/-! ## Authentication and outstanding reads -/

/-- The invariant of the authentication flag. -/
def Authentic (w : World) : Prop := w.net.authenticated = true → w.net.connected = true

/-- Events that take the machine from construction to an open session in
which the Connect command of the server has been received. -/
def authenticatedEvents : List Event :=
  connectEvents ++ [Event.received "0\tpack\n".toList]

/-- The session reached by `authenticatedEvents`. -/
def authenticatedSession : World :=
  (run sampleEnv (initialWorld defaultProgram emptyFs 0) authenticatedEvents).getD
    (initialWorld defaultProgram emptyFs 0)

/-- A file system in which `song.mp3` is present in the pack with content `abc`. -/
def songOnDisk : FileSys :=
  { files := [(".\\audiopacks\\pack\\song.mp3".toList, "abc".toList)], dirs := [],
    readOnly := [] }

/-- A file system in which `song.mp3` cannot be opened for writing. -/
def songReadOnly : FileSys :=
  { files := [], dirs := [], readOnly := [".\\audiopacks\\pack\\song.mp3".toList] }

/-- A Transfer line for the remote file `http://host/song.mp3` of 3 bytes. -/
def remoteLine : Str := "3\t1\t7\thttp://host/song.mp3\t3\tX".toList

/-- Events of a remote download that ends in `handleOpenStream`: the session
is authenticated, the command read receives `remoteLine` and the HTTP stream
opens with a content length of 3. -/
def remoteDownloadEvents : List Event :=
  authenticatedEvents ++
    [Event.received (remoteLine ++ ['\n']), Event.streamOpened false 3]

/-- Events of a session whose command read receives `twoTransfers`. -/
def twoTransferEvents : List Event :=
  authenticatedEvents ++ [Event.received (twoTransfers ++ ['\n'])]

/-! ## Helper lemmas -/

theorem sentMessages_append (a b : List Effect) :
    sentMessages (a ++ b) = sentMessages a ++ sentMessages b := by
  induction a with
  | nil => rfl
  | cons e rest ih => cases e <;> simp [sentMessages, ih]

theorem socketWrites_append (a b : List Effect) :
    socketWrites (a ++ b) = socketWrites a ++ socketWrites b := by
  induction a with
  | nil => rfl
  | cons e rest ih => cases e <;> simp [socketWrites, ih]

@[simp] theorem emit_proj (w : World) (e : Effect) :
    (w.emit e).net = w.net ∧ (w.emit e).program = w.program ∧ (w.emit e).audio = w.audio ∧
    (w.emit e).game = w.game ∧ (w.emit e).fs = w.fs ∧ (w.emit e).tick = w.tick ∧
    (w.emit e).trace = w.trace ++ [e] :=
  ⟨rfl, rfl, rfl, rfl, rfl, rfl, rfl⟩

@[simp] theorem logText_proj (w : World) (t : Str) :
    (logText t w).net = w.net ∧ (logText t w).program = w.program ∧
    (logText t w).audio = w.audio ∧ (logText t w).game = w.game ∧ (logText t w).fs = w.fs ∧
    (logText t w).tick = w.tick ∧ (logText t w).trace = w.trace ++ [Effect.logText t] :=
  ⟨rfl, rfl, rfl, rfl, rfl, rfl, rfl⟩

@[simp] theorem bass_proj (w : World) (c : BassCall) :
    (bass c w).net = w.net ∧ (bass c w).program = w.program ∧
    (bass c w).audio = w.audio ∧ (bass c w).game = w.game ∧ (bass c w).fs = w.fs ∧
    (bass c w).tick = w.tick ∧ (bass c w).trace = w.trace ++ [Effect.bass c] :=
  ⟨rfl, rfl, rfl, rfl, rfl, rfl, rfl⟩

@[simp] theorem setFile_proj (w : World) (f : Option File) :
    (setFile f w).net = { w.net with file := f } ∧ (setFile f w).program = w.program ∧
    (setFile f w).audio = w.audio ∧ (setFile f w).game = w.game ∧ (setFile f w).fs = w.fs ∧
    (setFile f w).tick = w.tick ∧ (setFile f w).trace = w.trace :=
  ⟨rfl, rfl, rfl, rfl, rfl, rfl, rfl⟩

@[simp] theorem setTokens_proj (w : World) (t : List Str) :
    (setTokens t w).net = { w.net with commandTokens := t } ∧
    (setTokens t w).program = w.program ∧
    (setTokens t w).audio = w.audio ∧ (setTokens t w).game = w.game ∧
    (setTokens t w).fs = w.fs ∧
    (setTokens t w).tick = w.tick ∧ (setTokens t w).trace = w.trace :=
  ⟨rfl, rfl, rfl, rfl, rfl, rfl, rfl⟩

@[simp] theorem registerFile_proj (w : World) (id : Int) (name : Str) :
    (registerFile id name w).net = w.net ∧ (registerFile id name w).program = w.program ∧
    (registerFile id name w).audio = { w.audio with files := mapInsert w.audio.files id name } ∧
    (registerFile id name w).game = w.game ∧ (registerFile id name w).fs = w.fs ∧
    (registerFile id name w).tick = w.tick ∧ (registerFile id name w).trace = w.trace :=
  ⟨rfl, rfl, rfl, rfl, rfl, rfl, rfl⟩

@[simp] theorem armRead_proj (w : World) (k : ReadKind) :
    (armRead k w).net = { w.net with readOps := w.net.readOps ++ [k] } ∧
    (armRead k w).program = w.program ∧
    (armRead k w).audio = w.audio ∧ (armRead k w).game = w.game ∧ (armRead k w).fs = w.fs ∧
    (armRead k w).tick = w.tick ∧ (armRead k w).trace = w.trace ++ [Effect.asyncRead k] :=
  ⟨rfl, rfl, rfl, rfl, rfl, rfl, rfl⟩

@[simp] theorem sendAsync_proj (w : World) (m : Str) :
    (sendAsync m w).program = w.program ∧ (sendAsync m w).audio = w.audio ∧
    (sendAsync m w).game = w.game ∧ (sendAsync m w).fs = w.fs ∧
    (sendAsync m w).tick = w.tick ∧
    (sendAsync m w).net.file = w.net.file ∧
    (sendAsync m w).net.commandTokens = w.net.commandTokens ∧
    (sendAsync m w).net.readOps = w.net.readOps ∧
    (sendAsync m w).net.socketOpen = w.net.socketOpen ∧
    (sendAsync m w).net.connected = w.net.connected ∧
    (sendAsync m w).net.authenticated = w.net.authenticated ∧
    (sendAsync m w).net.lastCommunication = w.net.lastCommunication ∧
    sentMessages (sendAsync m w).trace = sentMessages w.trace ++ [m] := by
  unfold sendAsync
  by_cases h : w.net.writeInProgress = true <;>
    simp [World.emit, h, sentMessages_append, sentMessages]

@[simp] theorem setFile_setFile (a b : Option File) (w : World) :
    setFile a (setFile b w) = setFile a w := rfl

/-- A valid command for a local file reaches the test of the local file. -/
theorem performTransfer_local (env : Env) (w : World) (transferable : Bool) (id : Int)
    (size : Nat)
    (hlen : w.net.commandTokens.length = 6)
    (hdir : w.program.downloadPath ≠ [])
    (hb : lexicalCastBool (w.net.commandTokens.getD 1 []) = some transferable)
    (hi : lexicalCastInt (w.net.commandTokens.getD 2 []) = some id)
    (hs : lexicalCastSizeT (w.net.commandTokens.getD 4 []) = some size)
    (hurl : istarts_with (w.net.commandTokens.getD 3 []) "http://".toList = false)
    (hext : w.program.acceptedFileExtensions.any
      (fun i => iends_with (w.net.commandTokens.getD 3 []) i) = true) :
    performTransfer env w =
      performTransferLocal env w.net.commandTokens
        (transferRecord env id size (w.net.commandTokens.getD 3 []) w.program.downloadPath)
        transferable
        (setFile (some (transferRecord env id size (w.net.commandTokens.getD 3 [])
          w.program.downloadPath)) w) := by
  unfold performTransfer
  simp only [hlen, hdir, hb, hi, hs, hurl, hext, ↓reduceIte, Bool.not_true, Bool.false_eq_true,
    setFile_setFile, List.take_zero, List.any_nil, transferRecord, setFile_proj, Bool.not_false]

theorem performPlay_bad_pause (env : Env) (w : World)
    (hb : lexicalCastBool (tok w 3) = none) : performPlay env w = w := by
  unfold performPlay
  split
  · rfl
  · split
    · simp_all
    · rfl

theorem parseBuffer_dispatch (env : Env) (w : World) (buffer : Str) (command : Int)
    (hfields : (splitOn '\t' buffer).any (fun i => i = []) = false)
    (hcmd : lexicalCastInt ((splitOn '\t' buffer).getD 0 []) = some command) :
    parseBuffer env buffer w = dispatch env command (setTokens (splitOn '\t' buffer) w) := by
  have hne : buffer ≠ [] := by
    intro h
    subst h
    simp [splitOn] at hfields
  have hsp : splitOn '\t' buffer ≠ [] := by
    cases buffer with
    | nil => exact absurd rfl hne
    | cons c cs =>
      unfold splitOn
      split
      · simp
      · split <;> simp
  simp only [parseBuffer, hne, hsp, if_false, hfields, hcmd]
  simp

@[simp] theorem setTokens_tokens (t : List Str) (w : World) :
    (setTokens t w).net.commandTokens = t := rfl

theorem dispatch_transfer (env : Env) (w : World) :
    dispatch env 3 w = performTransfer env w := by
  simp [dispatch, Server.Connect, Server.Message, Server.Name, Server.Transfer]

theorem dispatch_play (env : Env) (w : World) :
    dispatch env 4 w = performPlay env w := by
  simp [dispatch, Server.Connect, Server.Message, Server.Name, Server.Transfer, Server.Play]

theorem performTransferLocal_refused (env : Env) (t : List Str) (f : File) (tr : Bool)
    (w : World) (hno : w.fs.read f.path = none)
    (hdis : w.program.settings.transferFiles = false) :
    sentMessages (performTransferLocal env t f tr w).trace
        = sentMessages w.trace ++ [transferReply Client.Error]
      ∧ (performTransferLocal env t f tr w).net.file = none
      ∧ (performTransferLocal env t f tr w).audio = w.audio
      ∧ (performTransferLocal env t f tr w).fs = w.fs
      ∧ (performTransferLocal env t f tr w).net.readOps = w.net.readOps := by
  unfold performTransferLocal performTransferStart
  rw [hno]
  cases tr <;> simp [hdis, sentMessages_append, sentMessages]

theorem splitOn_ne_nil (sep : Char) (s : Str) : splitOn sep s ≠ [] := by
  cases s with
  | nil => simp [splitOn]
  | cons c cs =>
    unfold splitOn
    split
    · simp
    · split <;> simp

/-! ### Connect cycle -/

theorem run_append (env : Env) (w : World) (xs ys : List Event) :
    run env w (xs ++ ys) = (run env w xs).bind (fun w1 => run env w1 ys) := by
  induction xs generalizing w with
  | nil => rfl
  | cons e rest ih =>
    simp only [List.cons_append, run]
    cases step env w e with
    | none => rfl
    | some w1 => exact ih w1

theorem idle_firing (env : Env) (w : World) (e : Endpoint) (rest : Iter)
    (ht : w.net.connectTimer = some (e :: rest)) (hg : w.game.gameOpen = false) :
    step env w Event.connectTimerFired = some w := by
  obtain ⟨net, program, audio, game, fs, tick, trace⟩ := w
  obtain ⟨connected, file, attempts, authenticated, connecting, commandTokens,
    lastCommunication, messageTokens, pendingMessages, receivedData, sentData,
    writeInProgress, socketOpen, readStreamOpen, connectTimer, mainTimer, timeoutTimer,
    resolveOp, connectOp, readOps, writeOps, streamOpenOp, streamReadOps⟩ := net
  simp only at ht hg
  subst ht
  simp [step, handleConnectTimer, hg]

theorem idle_firings (env : Env) (w : World) (e : Endpoint) (rest : Iter) (k : Nat)
    (ht : w.net.connectTimer = some (e :: rest)) (hg : w.game.gameOpen = false) :
    run env w (List.replicate k Event.connectTimerFired) = some w := by
  induction k with
  | zero => rfl
  | succ k ih => simp only [List.replicate_succ, run, idle_firing env w e rest ht hg, ih]

theorem attempt_step (env : Env) (w : World) (n a : Nat) (e : Endpoint) (rest : Iter)
    (m : Bool) (h : BetweenAttempts n w a (e :: rest)) (hg : w.game.gameOpen = true) :
    ∃ w1, run env w (Event.connectTimerFired ::
        (if m then [Event.timeoutFired, Event.connectDone true]
         else [Event.connectDone true])) = some w1 ∧
      w1.trace = w.trace ++ attemptTrace n e a m ∧
      BetweenAttempts n w1 (if a < n then a + 1 else 1) (if a < n then e :: rest else rest) ∧
      w1.net.connecting = w.net.connecting ∧ w1.net.mainTimer = w.net.mainTimer := by
  obtain ⟨h1, h2, h3, h4, h5, h6, h8⟩ := h
  by_cases ha : a < n <;> cases m <;>
    simp [run, step, handleConnectTimer, handleConnect, handleTimeoutTimer,
      stopAsync, startConnectTimer, startTimeoutTimer, stopTimeoutTimer, stopConnectTimer,
      h1, h2, h5, h6, hg, h8, ha, attemptTrace, BetweenAttempts, logText, World.emit]
  all_goals omega

theorem failedAttempt_step (env : Env) (w : World) (n a : Nat) (e : Endpoint) (rest : Iter)
    (m : Nat × Bool) (h : BetweenAttempts n w a (e :: rest)) :
    ∃ w1, run env w (failedAttempt m.1 m.2) = some w1 ∧
      w1.trace = w.trace ++ attemptTrace n e a m.2 ∧
      BetweenAttempts n w1 (if a < n then a + 1 else 1) (if a < n then e :: rest else rest) ∧
      w1.net.connecting = w.net.connecting ∧ w1.net.mainTimer = w.net.mainTimer := by
  have hidle := idle_firings env { w with game := { gameOpen := false, started := true } }
    e rest m.1 h.1 rfl
  obtain ⟨w1, hrun, htr, hb, hc, hm⟩ := attempt_step env
    { w with game := { gameOpen := true, started := true } } n a e rest m.2 h rfl
  refine ⟨w1, ?_, htr, hb, hc, hm⟩
  unfold failedAttempt
  have h1 : ∀ xs, run env w (Event.gameFlags false true :: xs)
      = run env { w with game := { gameOpen := false, started := true } } xs := fun _ => rfl
  have h2 : ∀ xs, run env { w with game := { gameOpen := false, started := true } }
        (Event.gameFlags true true :: xs)
      = run env { w with game := { gameOpen := true, started := true } } xs := fun _ => rfl
  rw [h1, run_append, hidle, Option.some_bind, h2]
  exact hrun

theorem schedule_cons (n : Nat) (e : Endpoint) (rest : Iter) :
    schedule n (e :: rest) = (List.range n).map (fun k => (e, k + 1)) ++ schedule n rest := by
  simp [schedule]

theorem scheduleFrom_one (n : Nat) (it : Iter) : scheduleFrom n 1 it = schedule n it := by
  cases it with
  | nil => simp [scheduleFrom, schedule]
  | cons e rest =>
    simp only [scheduleFrom, schedule_cons, Nat.add_sub_cancel]
    congr 1
    apply List.map_congr_left
    intro k _
    rw [Nat.add_comm]

theorem scheduleFrom_step (n a : Nat) (e : Endpoint) (rest : Iter) (h2 : a ≤ n) :
    scheduleFrom n a (e :: rest)
      = (e, a) :: scheduleFrom n (if a < n then a + 1 else 1) (if a < n then e :: rest else rest) := by
  by_cases ha : a < n
  · simp only [ha, if_true, scheduleFrom]
    have hk : n + 1 - a = (n + 1 - (a + 1)) + 1 := by omega
    rw [hk, List.range_succ_eq_map]
    simp only [List.map_cons, List.map_map, List.cons_append, Nat.add_zero]
    congr 2
    apply List.map_congr_left
    intro k _
    simp only [Function.comp, Nat.succ_eq_add_one]
    congr 1
    omega
  · have hn : a = n := by omega
    subst hn
    simp only [ha, if_false, scheduleFrom_one]
    simp [scheduleFrom, List.range_succ]

theorem schedule_length (n : Nat) (eps : Iter) : (schedule n eps).length = n * eps.length := by
  induction eps with
  | nil => simp [schedule]
  | cons e rest ih =>
    rw [schedule_cons, List.length_append, ih]
    simp [Nat.mul_succ, Nat.add_comm]

theorem failedAttempts_run (env : Env) (n : Nat) (modes : List (Nat × Bool)) :
    ∀ (w : World) (a : Nat) (it : Iter), BetweenAttempts n w a it →
      modes.length ≤ (scheduleFrom n a it).length →
      ∃ w1 a1 it1, run env w (failedAttempts modes) = some w1 ∧
        w1.trace = w.trace ++ scheduleTrace n (scheduleFrom n a it) modes ∧
        BetweenAttempts n w1 a1 it1 ∧
        scheduleFrom n a1 it1 = (scheduleFrom n a it).drop modes.length ∧
        w1.net.connecting = w.net.connecting ∧ w1.net.mainTimer = w.net.mainTimer := by
  induction modes with
  | nil =>
    intro w a it h _
    exact ⟨w, a, it, rfl, by cases scheduleFrom n a it <;> simp [scheduleTrace], h, rfl, rfl, rfl⟩
  | cons m ms ih =>
    intro w a it h hlen
    cases it with
    | nil => simp [scheduleFrom] at hlen
    | cons e rest =>
      obtain ⟨w1, hrun, htr, hb, hc, hm⟩ := failedAttempt_step env w n a e rest m h
      have hs := scheduleFrom_step n a e rest h.2.2.2.1
      rw [hs] at hlen ⊢
      have hlen1 : ms.length ≤ (scheduleFrom n (if a < n then a + 1 else 1)
          (if a < n then e :: rest else rest)).length := by
        simpa using hlen
      obtain ⟨w2, a2, it2, hrun2, htr2, hb2, hd2, hc2, hm2⟩ := ih w1 _ _ hb hlen1
      refine ⟨w2, a2, it2, ?_, ?_, hb2, ?_, hc2.trans hc, hm2.trans hm⟩
      · simp only [failedAttempts, run_append, hrun]
        exact hrun2
      · rw [htr2, htr]
        simp [scheduleTrace]
      · rw [hd2]
        simp

theorem resolved_between (env : Env) (w : World) (eps : Iter)
    (hn : 1 ≤ w.program.settings.connectAttempts)
    (hres : w.net.resolveOp = true) (hconn : w.net.connected = false) :
    ∃ w0, step env w (Event.resolved (some eps)) = some w0 ∧ w0.trace = w.trace ∧
      BetweenAttempts w.program.settings.connectAttempts w0 1 eps ∧
      w0.net.connecting = w.net.connecting ∧ w0.net.mainTimer = w.net.mainTimer ∧
      w0.program = w.program := by
  have h0 : 0 < w.program.settings.connectAttempts := hn
  refine ⟨handleResolve (some eps) { w with net := { w.net with resolveOp := false } },
    by simp only [step, hres, if_true], ?_⟩
  simp [handleResolve, startConnectTimer, h0, BetweenAttempts, hconn]
  omega

/-! ### Outbound queue -/

theorem pick_true_append {α : Type} (xs ys : List α) (ks : List Bool) :
    pick (List.replicate xs.length true ++ ks) (xs ++ ys) = xs ++ pick ks ys := by
  induction xs with
  | nil => simp
  | cons x rest ih => simp [List.replicate_succ, pick, ih]

theorem pick_false_append {α : Type} (xs ys : List α) (ks : List Bool) :
    pick (List.replicate xs.length false ++ ks) (xs ++ ys) = pick ks ys := by
  induction xs with
  | nil => simp
  | cons x rest ih => simp [List.replicate_succ, pick, ih]

theorem pick_nil {α : Type} (ks : List Bool) : pick ks ([] : List α) = [] := by
  cases ks with
  | nil => rfl
  | cons k rest => cases k <;> rfl

theorem queue_invariant (evs : List QueueEvent) :
    ∀ (w w1 : World), QueueConsistent w → queueRun w evs = some w1 →
      ∃ keep : List Bool,
        keep.length = w.net.pendingMessages.length + (passedMessages evs).length ∧
        socketWrites w1.trace ++ w1.net.pendingMessages
          = socketWrites w.trace ++ pick keep (w.net.pendingMessages ++ passedMessages evs) ∧
        discardedMessages w evs
          = pick (keep.map not) (w.net.pendingMessages ++ passedMessages evs) ∧
        QueueConsistent w1 := by
  induction evs with
  | nil =>
    intro w w1 hc hrun
    simp only [queueRun, Option.some.injEq] at hrun
    subst hrun
    refine ⟨List.replicate w.net.pendingMessages.length true, by simp [passedMessages], ?_, ?_, hc⟩
    · have := pick_true_append w.net.pendingMessages ([] : List Str) []
      simp only [List.append_nil] at this
      simp [passedMessages, this, pick_nil]
    · have := pick_false_append w.net.pendingMessages ([] : List Str) []
      simp only [List.append_nil] at this
      simp [passedMessages, discardedMessages, this, pick_nil]
  | cons e rest ih =>
    intro w w1 hc hrun
    cases e with
    | send m =>
      simp only [queueRun, queueStep] at hrun
      rcases hc with ⟨hw, ho⟩ | ⟨hw, ho, hp⟩
      · -- a write is in flight: the message is queued
        have hq : (sendAsync m w).net.pendingMessages = w.net.pendingMessages ++ [m] := by
          simp [sendAsync, World.emit, hw]
        have ht : socketWrites (sendAsync m w).trace = socketWrites w.trace := by
          simp [sendAsync, World.emit, hw, socketWrites_append, socketWrites]
        have hc1 : QueueConsistent (sendAsync m w) := by
          left
          simp [sendAsync, World.emit, hw, ho]
        obtain ⟨keep, hk, h1, h2, h3⟩ := ih (sendAsync m w) w1 hc1 hrun
        refine ⟨keep, ?_, ?_, ?_, h3⟩
        · rw [hk, hq]
          simp [passedMessages]
          omega
        · rw [h1, ht, hq]
          simp [passedMessages]
        · simp only [discardedMessages, queueStep, List.nil_append]
          rw [h2, hq]
          simp [passedMessages]
      · -- at rest: the message is written at once
        have hq : (sendAsync m w).net.pendingMessages = [] := by
          simp [sendAsync, World.emit, hw, hp]
        have ht : socketWrites (sendAsync m w).trace = socketWrites w.trace ++ [m] := by
          simp [sendAsync, World.emit, hw, socketWrites_append, socketWrites]
        have hc1 : QueueConsistent (sendAsync m w) := by
          left
          simp [sendAsync, World.emit, hw, ho]
        obtain ⟨keep, hk, h1, h2, h3⟩ := ih (sendAsync m w) w1 hc1 hrun
        refine ⟨true :: keep, ?_, ?_, ?_, h3⟩
        · rw [List.length_cons, hk, hq, hp]
          simp [passedMessages]
        · rw [h1, ht, hq, hp]
          simp [passedMessages, pick]
        · simp only [discardedMessages, queueStep, List.nil_append]
          rw [h2, hq, hp]
          simp [passedMessages, pick]
    | complete error =>
      rcases hc with ⟨hw, ho⟩ | ⟨hw, ho, hp⟩
      · -- the write in flight completes
        obtain ⟨x, hx⟩ : ∃ x, w.net.writeOps = [x] := by
          match hops : w.net.writeOps, ho with
          | [x], _ => exact ⟨x, rfl⟩
        simp only [queueRun, queueStep, hx] at hrun
        cases error with
        | true =>
          have hc1 : QueueConsistent
              (handleWrite true { w with net := { w.net with writeOps := [] } }) := by
            right
            exact ⟨rfl, rfl, rfl⟩
          obtain ⟨keep, hk, h1, h2, h3⟩ := ih _ w1 hc1 hrun
          have hq : (handleWrite true { w with net := { w.net with writeOps := [] } }
              ).net.pendingMessages = [] := rfl
          have ht : (handleWrite true { w with net := { w.net with writeOps := [] } }
              ).trace = w.trace := rfl
          rw [hq, ht] at h1
          rw [hq] at h2 hk
          refine ⟨List.replicate w.net.pendingMessages.length false ++ keep, ?_, ?_, ?_, h3⟩
          · simp [hk, passedMessages]
          · rw [h1]
            simp [passedMessages, pick_false_append]
          · simp only [discardedMessages, queueStep, hx]
            rw [h2]
            simp [passedMessages, pick_true_append]
        | false =>
          cases hpend : w.net.pendingMessages with
          | nil =>
            have hstate : handleWrite false { w with net := { w.net with writeOps := [] } }
                = { w with net := { w.net with writeOps := [], writeInProgress := false } } := by
              simp [handleWrite, hpend]
            rw [hstate] at hrun
            have hc1 : QueueConsistent
                { w with net := { w.net with writeOps := [], writeInProgress := false } } := by
              right
              exact ⟨rfl, rfl, hpend⟩
            obtain ⟨keep, hk, h1, h2, h3⟩ := ih _ w1 hc1 hrun
            refine ⟨keep, ?_, ?_, ?_, h3⟩
            · simpa [passedMessages, hpend] using hk
            · simpa [passedMessages, hpend] using h1
            · simp only [discardedMessages, queueStep, hx, hstate, List.nil_append]
              simpa [passedMessages, hpend] using h2
          | cons p ps =>
            have hq : (handleWrite false { w with net := { w.net with writeOps := [] } }
                ).net.pendingMessages = ps := by
              simp [handleWrite, hpend, sendAsync, World.emit]
            have ht : socketWrites (handleWrite false
                { w with net := { w.net with writeOps := [] } }).trace
                = socketWrites w.trace ++ [p] := by
              simp [handleWrite, hpend, sendAsync, World.emit, socketWrites_append, socketWrites]
            have hc1 : QueueConsistent
                (handleWrite false { w with net := { w.net with writeOps := [] } }) := by
              left
              simp [handleWrite, hpend, sendAsync, World.emit]
            obtain ⟨keep, hk, h1, h2, h3⟩ := ih _ w1 hc1 hrun
            rw [hq, ht] at h1
            rw [hq] at h2 hk
            refine ⟨true :: keep, ?_, ?_, ?_, h3⟩
            · simp [hk, passedMessages]
              omega
            · rw [h1]
              simp [passedMessages, pick]
            · simp only [discardedMessages, queueStep, hx, List.nil_append]
              rw [h2]
              simp [passedMessages, pick]
      · -- no write is outstanding: the completion cannot happen
        simp [queueRun, queueStep, ho] at hrun

theorem discardedMessages_nil (evs : List QueueEvent) :
    ∀ w : World, (∀ e ∈ evs, e ≠ QueueEvent.complete true) → discardedMessages w evs = [] := by
  induction evs with
  | nil => intro w _; rfl
  | cons e rest ih =>
    intro w h
    have hrest : ∀ e ∈ rest, e ≠ QueueEvent.complete true :=
      fun e he => h e (List.mem_cons_of_mem _ he)
    have he : e ≠ QueueEvent.complete true := h e (List.mem_cons_self _ _)
    have h1 : (match e with
        | QueueEvent.complete true => w.net.pendingMessages
        | _ => []) = [] := by
      cases e with
      | send m => rfl
      | complete error =>
        cases error with
        | true => exact absurd rfl he
        | false => rfl
    show (match e with
        | QueueEvent.complete true => w.net.pendingMessages
        | _ => []) ++ (match queueStep w e with
        | some w1 => discardedMessages w1 rest
        | none => []) = []
    rw [h1]
    cases queueStep w e with
    | none => rfl
    | some w2 => simpa using ih w2 hrest

theorem pick_of_complement_nil {α : Type} (keep : List Bool) :
    ∀ xs : List α, keep.length = xs.length → pick (keep.map not) xs = [] → pick keep xs = xs := by
  induction keep with
  | nil =>
    intro xs hlen _
    cases xs with
    | nil => rfl
    | cons x rest => simp at hlen
  | cons k ks ih =>
    intro xs hlen h
    cases xs with
    | nil => simp at hlen
    | cons x rest =>
      cases k with
      | true =>
        simp only [List.map_cons, Bool.not_true, pick] at h
        simp only [pick]
        rw [ih rest (by simpa using hlen) h]
      | false => simp [pick] at h

/-! ### Upload -/


theorem FileSys.read_append (fs : FileSys) (path bytes : Str) :
    (fs.append path bytes).read path = (fs.read path).map (fun s => s ++ bytes) := by
  unfold FileSys.read FileSys.append
  simp only
  induction fs.files with
  | nil => rfl
  | cons q rest ih =>
    by_cases hq : q.1 = path
    · simp [List.find?, hq]
    · simp only [List.map_cons, hq, if_false, List.find?, decide_False]
      exact ih

theorem deliverChunks_append (env : Env) (cs : List Str) (c : Str) :
    ∀ w, deliverChunks env w (cs ++ [c])
      = (deliverChunks env w cs).bind (fun w1 => deliverChunks env w1 [c]) := by
  induction cs with
  | nil => intro w; rfl
  | cons d rest ih =>
    intro w
    simp only [List.cons_append, deliverChunks]
    split
    · cases step env w (Event.received d) with
      | none => rfl
      | some w1 => exact ih w1
    · rfl

theorem deliver_one (env : Env) (w0 w1 : World) (f0 : File) (c : Str)
    (hfile : w0.net.file = some f0) (hops : w0.net.readOps = [ReadKind.file])
    (hc : c ≠ []) (hstep : step env w0 (Event.received c) = some w1) :
    if cString (overwrite c f0.buffer) = cancelToken then
      w1.net.file = none ∧ w1.fs = w0.fs ∧ w1.audio = w0.audio ∧
      w1.net.readOps = [ReadKind.command]
    else if f0.size ≤ f0.handle.pos + c.length then
      w1.net.file = none ∧ w1.fs = w0.fs.append f0.path c ∧
      w1.audio.files = mapInsert w0.audio.files f0.id f0.name ∧
      w1.net.readOps = [ReadKind.command]
    else
      w1.net.file = some { f0 with buffer := overwrite c f0.buffer,
                                   handle := { f0.handle with pos := f0.handle.pos + c.length } } ∧
      w1.fs = w0.fs.append f0.path c ∧ w1.audio = w0.audio ∧
      w1.net.readOps = [ReadKind.file] := by
  have hlen : c.length ≠ 0 := by
    intro h
    exact hc (List.length_eq_zero.mp h)
  have htake : (overwrite c f0.buffer).take c.length = c := by
    simp [overwrite]
  by_cases hg : (w0.net.socketOpen && w0.net.connected) = true
  · have hs : w0.net.socketOpen = true := (Bool.and_eq_true _ _ ▸ hg).1
    simp only [step, hg, if_true, hops, Option.some.injEq] at hstep
    subst hstep
    unfold handleReadFile
    by_cases hcancel : cString (overwrite c f0.buffer) = cancelToken
    · simp [updFile, hfile, hlen, hcancel, hs]
    · by_cases hdone : f0.size ≤ f0.handle.pos + c.length
      · simp [updFile, hfile, hlen, hcancel, hs, hdone, htake]
      · simp [updFile, hfile, hlen, hcancel, hs, hdone, htake]
  · simp only [step, hg] at hstep
    cases hstep

theorem fileAfter_nil (f : File) : fileAfter f [] = f := by
  cases f
  simp [fileAfter, lastBuffer, totalLength]

theorem fileAfter_snoc (f : File) (cs : List Str) (c : Str) :
    fileAfter f (cs ++ [c])
      = { fileAfter f cs with
          buffer := overwrite c (fileAfter f cs).buffer,
          handle := { (fileAfter f cs).handle with
            pos := (fileAfter f cs).handle.pos + c.length } } := by
  simp [fileAfter, lastBuffer, totalLength, Nat.add_assoc]

theorem totalLength_snoc (cs : List Str) (c : Str) :
    totalLength (cs ++ [c]) = totalLength cs + c.length := by
  simp [totalLength]

/-! ### Framing -/

theorem cString_append (a b : Str) (h : nul ∉ a) : cString (a ++ b) = a ++ cString b := by
  induction a with
  | nil => rfl
  | cons c cs ih =>
    have hc : c ≠ nul := fun e => h (by simp [e])
    have hcs : nul ∉ cs := fun e => h (List.mem_cons_of_mem _ e)
    have := ih hcs
    simp only [cString] at this ⊢
    simp only [List.cons_append, List.takeWhile, hc, ne_eq, not_false_eq_true, decide_True]
    exact congrArg (List.cons c) this

/-- A chunk without a NUL character is framed as it was received. -/
theorem readBuffer_overwrite (chunk data : Str) (h : nul ∉ chunk) :
    readBuffer (overwrite chunk data) chunk.length = chunk := by
  simp [readBuffer, overwrite, resize, cString_append _ _ h]

theorem eraseLast_not_mem (sep : Char) (s : Str) (h : sep ∉ s) : eraseLast sep s = s := by
  cases s with
  | nil => rfl
  | cons c cs =>
    have hc : c ≠ sep := fun e => h (by simp [e])
    have hcs : sep ∉ cs := fun e => h (List.mem_cons_of_mem _ e)
    simp [eraseLast, hc, hcs]

theorem eraseLast_append_sep (sep : Char) (s frag : Str) (h : sep ∉ frag) :
    eraseLast sep (s ++ sep :: frag) = s ++ frag := by
  induction s with
  | nil => simp [eraseLast, h]
  | cons c cs ih => simp [eraseLast, ih]

theorem splitOn_not_mem (sep : Char) (s : Str) (h : sep ∉ s) : splitOn sep s = [s] := by
  induction s with
  | nil => rfl
  | cons c cs ih =>
    have hc : c ≠ sep := fun e => h (by simp [e])
    have hcs : sep ∉ cs := fun e => h (List.mem_cons_of_mem _ e)
    simp [splitOn, hc, ih hcs]

theorem splitOn_append_sep (sep : Char) (l rest : Str) (h : sep ∉ l) :
    splitOn sep (l ++ sep :: rest) = l :: splitOn sep rest := by
  induction l with
  | nil => simp [splitOn]
  | cons c cs ih =>
    have hc : c ≠ sep := fun e => h (by simp [e])
    have hcs : sep ∉ cs := fun e => h (List.mem_cons_of_mem _ e)
    simp [splitOn, hc, ih hcs]

/-- A text with `k` separators has `k + 1` fields. -/
theorem splitOn_length (sep : Char) (s : Str) : (splitOn sep s).length = s.count sep + 1 := by
  induction s with
  | nil => rfl
  | cons c cs ih =>
    by_cases hc : c = sep
    · subst hc
      simp [splitOn, ih]
    · have hne : (c == sep) = false := by simpa using hc
      rcases hsp : splitOn sep cs with _ | ⟨t, ts⟩
      · exact absurd hsp (splitOn_ne_nil sep cs)
      · rw [hsp] at ih
        simp only [splitOn, hc, ↓reduceIte, hsp, List.count_cons, hne]
        simpa using ih

theorem splitOn_joinLines (init : List Str) (x : Str) (h : ∀ l ∈ init, '\n' ∉ l) :
    splitOn '\n' (joinLines init ++ x) = init ++ splitOn '\n' x := by
  induction init with
  | nil => simp [joinLines]
  | cons l ls ih =>
    have hl : '\n' ∉ l := h l (by simp)
    have hls : ∀ l ∈ ls, '\n' ∉ l := fun a ha => h a (List.mem_cons_of_mem _ ha)
    have e : joinLines (l :: ls) ++ x = l ++ '\n' :: (joinLines ls ++ x) := by
      simp [joinLines]
    rw [e, splitOn_append_sep _ _ _ hl, ih hls]
    rfl

theorem joinLines_snoc (init : List Str) (last : Str) :
    joinLines (init ++ [last]) = joinLines init ++ last ++ ['\n'] := by
  simp [joinLines]

/-- The lines framed from complete lines followed by a fragment: the
fragment is joined to the last complete line. -/
theorem framedLines_joined (init : List Str) (last frag : Str)
    (hinit : ∀ l ∈ init, '\n' ∉ l) (hlast : '\n' ∉ last) (hfrag : '\n' ∉ frag) :
    framedLines (joinLines (init ++ [last]) ++ frag) = init ++ [last ++ frag] := by
  have e : joinLines (init ++ [last]) ++ frag = (joinLines init ++ last) ++ '\n' :: frag := by
    simp [joinLines_snoc]
  have hlf : '\n' ∉ last ++ frag := by simp [hlast, hfrag]
  have hs : splitOn '\n' (eraseLast '\n' (joinLines (init ++ [last]) ++ frag))
      = init ++ [last ++ frag] := by
    rw [e, eraseLast_append_sep _ _ _ hfrag, List.append_assoc, splitOn_joinLines _ _ hinit,
      splitOn_not_mem _ _ hlf]
  unfold framedLines
  rw [hs]
  simp

/-- A chunk without a newline is framed as one line. -/
theorem framedLines_not_mem (frag : Str) (h : '\n' ∉ frag) : framedLines frag = [frag] := by
  unfold framedLines
  rw [eraseLast_not_mem _ _ h, splitOn_not_mem _ _ h]
  simp

/-- The structure of `handleRead` on success: frame, dispatch every line in
order, finish. -/
theorem handleRead_lines (env : Env) (n : Nat) (w : World) :
    handleRead env false n w
      = finishRead (dispatchLines env (framedLines (readBuffer w.net.receivedData n))
          (setMessageTokens (splitOn '\n' (eraseLast '\n' (readBuffer w.net.receivedData n))) w)) := by
  have hne := splitOn_ne_nil '\n' (eraseLast '\n' (readBuffer w.net.receivedData n))
  simp only [handleRead, framedLines, readBuffer] at hne ⊢
  simp only [Bool.not_false, ↓reduceIte, hne]
  rfl

theorem nul_not_mem_joinLines (lines : List Str) (h : ∀ l ∈ lines, nul ∉ l) :
    nul ∉ joinLines lines := by
  induction lines with
  | nil => simp [joinLines]
  | cons l ls ih =>
    have hl : nul ∉ l := h l (by simp)
    have hls : ∀ l ∈ ls, nul ∉ l := fun a ha => h a (List.mem_cons_of_mem _ ha)
    have hn : nul ≠ '\n' := by decide
    have := ih hls
    simp only [joinLines, List.map_cons, List.flatten_cons, List.mem_append, List.mem_singleton,
      not_or] at this ⊢
    exact ⟨⟨hl, hn⟩, this⟩

/-- What `handleRead` does with a chunk of complete lines followed by a
fragment, when the chunk holds no NUL character. -/
theorem handleRead_joined (env : Env) (w : World) (init : List Str) (last frag : Str)
    (hinit : ∀ l ∈ init, '\n' ∉ l) (hlast : '\n' ∉ last) (hfrag : '\n' ∉ frag)
    (hnul : nul ∉ joinLines (init ++ [last]) ++ frag) :
    handleRead env false (joinLines (init ++ [last]) ++ frag).length
        (withReceived (joinLines (init ++ [last]) ++ frag) w)
      = finishRead (dispatchLines env (init ++ [last ++ frag])
          (setMessageTokens (init ++ [last ++ frag])
            (withReceived (joinLines (init ++ [last]) ++ frag) w))) := by
  have hb : readBuffer (withReceived (joinLines (init ++ [last]) ++ frag) w).net.receivedData
      (joinLines (init ++ [last]) ++ frag).length = joinLines (init ++ [last]) ++ frag :=
    readBuffer_overwrite _ w.net.receivedData hnul
  have hf := framedLines_joined init last frag hinit hlast hfrag
  have hs : splitOn '\n' (eraseLast '\n' (joinLines (init ++ [last]) ++ frag))
      = init ++ [last ++ frag] := by
    have := hf
    unfold framedLines at this
    rw [if_neg (splitOn_ne_nil _ _)] at this
    exact this
  rw [handleRead_lines, hb, hf, hs]

/-- What `parseBuffer` does with a line that is not empty: the fields are
stored, then the line is dropped or dispatched. -/
theorem parseBuffer_fields (env : Env) (w : World) (l : Str) (hne : l ≠ []) :
    parseBuffer env l w
      = if (splitOn '\t' l).any (fun i => i = []) then setTokens (splitOn '\t' l) w
        else
          match lexicalCastInt ((splitOn '\t' l).getD 0 []) with
          | none => setTokens (splitOn '\t' l) w
          | some command => dispatch env command (setTokens (splitOn '\t' l) w) := by
  unfold parseBuffer
  rw [if_neg hne]
  have h : ¬ splitOn '\t' l = [] := splitOn_ne_nil '\t' l
  show (if (if splitOn '\t' l = [] then [l] else splitOn '\t' l).any (fun i => i = []) then _
    else _) = _
  rw [if_neg h]

/-! ### Frames of the command handlers -/

@[simp] theorem setStreams_proj (w : World) (s : List (Int × Stream)) :
    (setStreams s w).net = w.net ∧ (setStreams s w).program = w.program ∧
    (setStreams s w).audio = { w.audio with streams := s } ∧
    (setStreams s w).game = w.game ∧ (setStreams s w).fs = w.fs ∧
    (setStreams s w).tick = w.tick ∧ (setStreams s w).trace = w.trace :=
  ⟨rfl, rfl, rfl, rfl, rfl, rfl, rfl⟩

@[simp] theorem sendAsync_proj2 (w : World) (m : Str) :
    (sendAsync m w).net.connecting = w.net.connecting ∧
    (sendAsync m w).net.attempts = w.net.attempts ∧
    (sendAsync m w).net.messageTokens = w.net.messageTokens ∧
    (sendAsync m w).net.receivedData = w.net.receivedData ∧
    (sendAsync m w).net.readStreamOpen = w.net.readStreamOpen ∧
    (sendAsync m w).net.connectTimer = w.net.connectTimer ∧
    (sendAsync m w).net.mainTimer = w.net.mainTimer ∧
    (sendAsync m w).net.timeoutTimer = w.net.timeoutTimer ∧
    (sendAsync m w).net.resolveOp = w.net.resolveOp ∧
    (sendAsync m w).net.connectOp = w.net.connectOp ∧
    (sendAsync m w).net.streamOpenOp = w.net.streamOpenOp ∧
    (sendAsync m w).net.streamReadOps = w.net.streamReadOps := by
  unfold sendAsync
  by_cases h : w.net.writeInProgress = true <;> simp [World.emit, h]

theorem same_refl (w : World) : Same w w := ⟨rfl, rfl, rfl, rfl, rfl, rfl⟩

theorem same_trans {a b c : World} (h1 : Same a b) (h2 : Same b c) : Same a c :=
  ⟨h2.1.trans h1.1, h2.2.1.trans h1.2.1, h2.2.2.1.trans h1.2.2.1,
   h2.2.2.2.1.trans h1.2.2.2.1, h2.2.2.2.2.1.trans h1.2.2.2.2.1,
   h2.2.2.2.2.2.trans h1.2.2.2.2.2⟩

theorem frame_refl (w : World) : Frame w w :=
  ⟨rfl, rfl, rfl, fun _ h => Or.inr h, fun h => Or.inr ⟨h, rfl⟩⟩

theorem frame_trans {a b c : World} (h1 : Frame a b) (h2 : Frame b c) : Frame a c := by
  refine ⟨h2.1.trans h1.1, h2.2.1.trans h1.2.1, h2.2.2.1.trans h1.2.2.1, ?_, ?_⟩
  · intro k hk
    rcases h2.2.2.2.1 k hk with h | h
    · exact Or.inl h
    · exact h1.2.2.2.1 k h
  · intro hc
    rcases h2.2.2.2.2 hc with h | ⟨hb, hp⟩
    · exact Or.inl h
    · rcases h1.2.2.2.2 hb with h | ⟨ha, hq⟩
      · exact Or.inl (by rw [hp]; exact h)
      · exact Or.inr ⟨ha, hp.trans hq⟩

theorem same_frame {w v : World} (h : Same w v) : Frame w v := by
  refine ⟨h.1, h.2.1, h.2.2.1, ?_, ?_⟩
  · intro k hk
    rw [h.2.2.2.1] at hk
    exact Or.inr hk
  · intro hc
    rw [h.2.2.2.2.1] at hc
    exact Or.inr ⟨hc, h.2.2.2.2.2⟩

theorem frame_keeps {w v : World} (h : Frame w v) : Keeps w v :=
  ⟨h.1, h.2.1, h.2.2.1, h.2.2.2.2⟩

theorem keeps_sound {w v : World} (h : Keeps w v) (hs : Sound w) : Sound v := by
  refine ⟨?_, ?_⟩
  · intro hc
    rw [h.1] at hc
    rw [h.2.1, h.2.2.1]
    exact hs.1 hc
  · intro hc
    rcases h.2.2.2 hc with hd | ⟨hw, hp⟩
    · exact hd
    · rw [hp]
      exact hs.2 hw

theorem sendAsync_same (m : Str) (w : World) : Same w (sendAsync m w) := by
  simp [Same]

theorem applyActs_same (acts : List Effect) (w : World) : Same w (applyActs acts w) := by
  induction acts generalizing w with
  | nil => exact same_refl w
  | cons e rest ih =>
    cases e <;>
      first
      | exact same_trans (sendAsync_same _ w) (ih _)
      | exact same_trans (show Same w (w.emit _) from ⟨rfl, rfl, rfl, rfl, rfl, rfl⟩) (ih _)

theorem performMessage_same (w : World) : Same w (performMessage w) := by
  unfold performMessage
  split <;> simp [Same]

theorem performName_same (w : World) : Same w (performName w) := by
  unfold performName
  split <;> simp [Same]

theorem performPlay_same (env : Env) (w : World) : Same w (performPlay env w) := by
  unfold performPlay
  split
  · exact same_refl w
  · split
    · exact same_trans (by simp [Same]) (applyActs_same _ _)
    · exact same_refl w

theorem sequenceLoop_same (env : Env) (handleID : Int) (tokens : List Str) (w : World) :
    Same w (sequenceLoop env handleID tokens w) := by
  induction tokens generalizing w with
  | nil => exact same_refl w
  | cons i rest ih =>
    unfold sequenceLoop
    split
    · exact ih w
    · split
      · exact same_trans (show Same w _ from ⟨rfl, rfl, rfl, rfl, rfl, rfl⟩) (applyActs_same _ _)
      · split
        · split
          · split
            · exact sendAsync_same _ w
            · exact same_refl w
          · exact same_refl w
        · split
          · exact ih w
          · split
            · split
              · exact same_trans (show Same w (setStreams _ w) from ⟨rfl, rfl, rfl, rfl, rfl, rfl⟩)
                  (ih _)
              · exact same_refl w
            · exact same_refl w

theorem performPlaySequenceTail_same (env : Env) (handleID : Int) (tokens : List Str)
    (w : World) : Same w (performPlaySequenceTail env handleID tokens w) := by
  unfold performPlaySequenceTail
  split
  · exact same_refl w
  · split
    · exact same_refl w
    · split
      · exact same_refl w
      · exact sequenceLoop_same env handleID tokens w

theorem performPlaySequence_same (env : Env) (w : World) :
    Same w (performPlaySequence env w) := by
  unfold performPlaySequence
  simp only
  split
  · exact same_refl w
  · split
    · split
      · exact same_refl w
      · exact performPlaySequenceTail_same env _ _ w
    · split
      · exact same_trans (show Same w (setStreams _ w) from ⟨rfl, rfl, rfl, rfl, rfl, rfl⟩)
          (performPlaySequenceTail_same env _ _ _)
      · exact same_refl w

theorem performPause_same (env : Env) (w : World) : Same w (performPause env w) := by
  unfold performPause
  repeat' split
  all_goals simp [Same]

theorem performResume_same (env : Env) (w : World) : Same w (performResume env w) := by
  unfold performResume
  repeat' split
  all_goals simp [Same]

theorem performStop_same (w : World) : Same w (performStop w) := by
  unfold performStop
  repeat' split
  all_goals simp [Same]

theorem performRestart_same (env : Env) (w : World) : Same w (performRestart env w) := by
  unfold performRestart
  repeat' split
  all_goals simp [Same]

theorem performGetPosition_same (env : Env) (w : World) :
    Same w (performGetPosition env w) := by
  unfold performGetPosition
  repeat' split
  all_goals simp [Same]

theorem performSetPosition_same (w : World) : Same w (performSetPosition w) := by
  unfold performSetPosition
  repeat' split
  all_goals simp [Same]

theorem performSetVolume_same (env : Env) (w : World) : Same w (performSetVolume env w) := by
  unfold performSetVolume
  repeat' split
  all_goals simp [Same]

theorem performSetFX_same (env : Env) (w : World) : Same w (performSetFX env w) := by
  unfold performSetFX
  repeat' split
  all_goals simp [Same]

theorem performRemoveFX_same (w : World) : Same w (performRemoveFX w) := by
  unfold performRemoveFX
  repeat' split
  all_goals simp [Same]

theorem performSet3DPosition_same (env : Env) (w : World) :
    Same w (performSet3DPosition env w) := by
  unfold performSet3DPosition
  repeat' split
  all_goals simp [Same]

theorem performRemove3DPosition_same (w : World) : Same w (performRemove3DPosition w) := by
  unfold performRemove3DPosition
  repeat' split
  all_goals simp [Same]

theorem performSetRadioStation_same (w : World) : Same w (performSetRadioStation w) := by
  unfold performSetRadioStation
  repeat' split
  all_goals simp [Same]

theorem performStopRadio_same (w : World) : Same w (performStopRadio w) := by
  unfold performStopRadio
  repeat' split
  all_goals simp [Same]

theorem performConnect_frame (w : World) : Frame w (performConnect w) := by
  unfold performConnect
  simp only
  repeat' split
  all_goals
    first
    | (simp [Frame, tok]; done)
    | (simp [Frame, tok]; tauto)

theorem performTransferStart_frame (env : Env) (t : List Str) (f : File) (remote : Bool)
    (w : World) (hdir : w.program.downloadPath ≠ []) :
    Frame w (performTransferStart env t f remote w) := by
  unfold performTransferStart
  split
  · simp [Frame, hdir]
    tauto
  · split
    · simp [Frame, hdir]
      tauto
    · simp only
      split
      · simp [Frame, hdir]
        tauto
      · simp [Frame, hdir]
        tauto

theorem performTransferLocal_frame (env : Env) (t : List Str) (f : File) (transferable : Bool)
    (w : World) (hdir : w.program.downloadPath ≠ []) :
    Frame w (performTransferLocal env t f transferable w) := by
  unfold performTransferLocal
  split
  · split
    · simp only
      split
      · simp [Frame, hdir]
        tauto
      · exact performTransferStart_frame env t f false w hdir
    · simp [Frame, hdir]
      tauto
  · split
    · simp [Frame, hdir]
      tauto
    · exact performTransferStart_frame env t f false w hdir

theorem setFile_frame (f : Option File) (w : World) (hdir : w.program.downloadPath ≠ []) :
    Frame w (setFile f w) := by
  simp [Frame, hdir]
  tauto

theorem performTransfer_frame (env : Env) (w : World) : Frame w (performTransfer env w) := by
  unfold performTransfer
  simp only [setFile_setFile]
  repeat' split
  all_goals
    first
    | exact frame_refl w
    | exact frame_trans (setFile_frame _ w (by assumption))
        (performTransferLocal_frame env _ _ _ _ (by assumption))
    | exact frame_trans (setFile_frame _ w (by assumption))
        (performTransferStart_frame env _ _ _ _ (by assumption))
    | (simp [Frame, *]; done)
    | (simp [Frame, *]; tauto)

theorem frame_ite {w a b : World} (c : Prop) [Decidable c] (ha : Frame w a)
    (hb : Frame w b) : Frame w (if c then a else b) := by
  split <;> assumption

theorem dispatch_frame (env : Env) (command : Int) (w : World) :
    Frame w (dispatch env command w) := by
  unfold dispatch
  exact frame_ite _ (performConnect_frame w)
    (frame_ite _ (same_frame (performMessage_same w))
    (frame_ite _ (same_frame (performName_same w))
    (frame_ite _ (performTransfer_frame env w)
    (frame_ite _ (same_frame (performPlay_same env w))
    (frame_ite _ (same_frame (performPlaySequence_same env w))
    (frame_ite _ (same_frame (performPause_same env w))
    (frame_ite _ (same_frame (performResume_same env w))
    (frame_ite _ (same_frame (performStop_same w))
    (frame_ite _ (same_frame (performRestart_same env w))
    (frame_ite _ (same_frame (performGetPosition_same env w))
    (frame_ite _ (same_frame (performSetPosition_same w))
    (frame_ite _ (same_frame (performSetVolume_same env w))
    (frame_ite _ (same_frame (performSetFX_same env w))
    (frame_ite _ (same_frame (performRemoveFX_same w))
    (frame_ite _ (same_frame (performSet3DPosition_same env w))
    (frame_ite _ (same_frame (performRemove3DPosition_same w))
    (frame_ite _ (same_frame (performSetRadioStation_same w))
    (frame_ite _ (same_frame (performStopRadio_same w)) (frame_refl w)))))))))))))))))))

theorem setTokens_same (t : List Str) (w : World) : Same w (setTokens t w) :=
  ⟨rfl, rfl, rfl, rfl, rfl, rfl⟩

theorem parseBuffer_frame (env : Env) (buffer : Str) (w : World) :
    Frame w (parseBuffer env buffer w) := by
  by_cases hne : buffer = []
  · subst hne
    have : parseBuffer env [] w = sendAsync ['\n'] w := by simp [parseBuffer]
    rw [this]
    exact (same_frame (sendAsync_same _ w))
  · rw [parseBuffer_fields env w buffer hne]
    split
    · exact (same_frame (setTokens_same _ w))
    · split
      · exact (same_frame (setTokens_same _ w))
      · exact frame_trans (same_frame (setTokens_same _ w)) (dispatch_frame env _ _)

theorem dispatchLines_frame (env : Env) (lines : List Str) (w : World) :
    Frame w (dispatchLines env lines w) := by
  induction lines generalizing w with
  | nil => exact frame_refl w
  | cons l ls ih => exact frame_trans (parseBuffer_frame env l w) (ih _)

/-! ### The invariant of the connection state -/

theorem keeps_refl (w : World) : Keeps w w := ⟨rfl, rfl, rfl, fun h => Or.inr ⟨h, rfl⟩⟩

theorem keeps_trans {a b c : World} (h1 : Keeps a b) (h2 : Keeps b c) : Keeps a c := by
  refine ⟨h2.1.trans h1.1, h2.2.1.trans h1.2.1, h2.2.2.1.trans h1.2.2.1, ?_⟩
  intro hc
  rcases h2.2.2.2 hc with h | ⟨hb, hp⟩
  · exact Or.inl h
  · rcases h1.2.2.2 hb with h | ⟨ha, hq⟩
    · exact Or.inl (by rw [hp]; exact h)
    · exact Or.inr ⟨ha, hp.trans hq⟩

/-- A step that keeps the flags and the directory and holds a transfer record
only if one was held before. -/
theorem keeps_of (w v : World) (h1 : v.net.connected = w.net.connected)
    (h2 : v.net.connecting = w.net.connecting) (h3 : v.net.socketOpen = w.net.socketOpen)
    (h4 : v.program.downloadPath = w.program.downloadPath)
    (h5 : v.net.file.isSome = true → w.net.file.isSome = true) : Keeps w v :=
  ⟨h1, h2, h3, fun h => Or.inr ⟨h5 h, h4⟩⟩

theorem handleOpenStream_keeps (env : Env) (error : Bool) (n : Nat) (w : World) :
    Keeps w (handleOpenStream env error n w) := by
  rcases hf : w.net.file with _ | f
  · cases error <;> cases hs : w.net.socketOpen <;> cases hr : w.net.readStreamOpen <;>
      (apply keeps_of <;> simp [handleOpenStream, hf, hs, hr, updFile])
  · cases error
    · rcases hread : w.fs.read f.path with _ | content
      · cases hc : w.fs.canWrite f.path <;> cases hs : w.net.socketOpen <;>
          cases hr : w.net.readStreamOpen <;>
          (apply keeps_of <;> simp [handleOpenStream, hf, hs, hr, updFile, hread, hc])
      · by_cases hn : n = content.length <;>
          cases hc : w.fs.canWrite f.path <;> cases hs : w.net.socketOpen <;>
          cases hr : w.net.readStreamOpen <;>
          (apply keeps_of <;> simp [handleOpenStream, hf, hs, hr, updFile, hread, hc, hn])
    · cases hs : w.net.socketOpen <;> cases hr : w.net.readStreamOpen <;>
        (apply keeps_of <;> simp [handleOpenStream, hf, hs, hr, updFile])

theorem handleReadStream_keeps (status : StreamStatus) (n : Nat) (w : World) :
    Keeps w (handleReadStream status n w) := by
  rcases hf : w.net.file with _ | f
  · cases status <;> cases hr : w.net.readStreamOpen <;>
      (apply keeps_of <;> simp [handleReadStream, hf, hr, updFile])
  · cases status <;> cases hr : w.net.readStreamOpen <;> by_cases hn : n = 0 <;>
      (apply keeps_of <;> simp [handleReadStream, hf, hr, updFile, hn])

theorem handleWrite_keeps (error : Bool) (w : World) : Keeps w (handleWrite error w) := by
  unfold handleWrite
  simp only
  repeat' split
  all_goals (apply keeps_of <;> simp)

theorem handleReadFile_keeps (error : Bool) (n : Nat) (w : World) :
    Keeps w (handleReadFile error n w) := by
  unfold handleReadFile
  simp only
  repeat' split
  all_goals (apply keeps_of <;> simp_all)

theorem finishRead_keeps (w : World) : Keeps w (finishRead w) := by
  unfold finishRead
  split
  · exact keeps_refl w
  · apply keeps_of <;> simp

theorem handleRead_keeps (env : Env) (n : Nat) (w : World) :
    Keeps w (handleRead env false n w) := by
  rw [handleRead_lines]
  refine keeps_trans (keeps_trans ?_ (frame_keeps (dispatchLines_frame env _ _))) (finishRead_keeps _)
  exact keeps_of _ _ rfl rfl rfl rfl id

theorem stopAsync_sound (w : World) (hs : Sound w) : Sound (stopAsync w) := by
  obtain ⟨s1, s2⟩ := hs
  cases ho : w.net.socketOpen <;> cases hc : w.net.connected <;> cases hr : w.net.resolveOp <;>
    simp_all [Sound, stopAsync, stopTimeoutTimer, stopConnectTimer]

theorem closeConnection_sound (w : World) (hs : Sound w) : Sound (closeConnection w) := by
  obtain ⟨s1, s2⟩ := hs
  cases ho : w.net.socketOpen <;> cases hc : w.net.connected <;> cases hr : w.net.resolveOp <;>
    simp_all [Sound, closeConnection, freeMemory, stopAsync, stopTimeoutTimer, stopConnectTimer]


theorem startConnectTimer_sound (it : Iter) (w : World) (hs : Sound w) :
    Sound (startConnectTimer it w) := by
  unfold startConnectTimer
  split <;> exact hs

theorem handleResolve_sound (r : Option Iter) (w : World) (hs : Sound w) :
    Sound (handleResolve r w) := by
  cases r with
  | none => exact hs
  | some it => exact startConnectTimer_sound it _ hs

theorem handleTimeoutTimer_sound (w : World) (hs : Sound w) : Sound (handleTimeoutTimer w) := by
  unfold handleTimeoutTimer
  split
  · exact stopAsync_sound w hs
  · exact hs

theorem handleConnectTimer_sound (it : Iter) (w : World) (hs : Sound w) :
    Sound (handleConnectTimer it w) := by
  cases it with
  | nil => exact stopAsync_sound w hs
  | cons e rest =>
    obtain ⟨s1, s2⟩ := hs
    cases hg : w.game.gameOpen <;>
      simp_all [Sound, handleConnectTimer, startTimeoutTimer]

theorem handleConnect_sound (env : Env) (error : Bool) (it : Iter) (w : World) (hs : Sound w)
    (hopen : error = false → w.net.socketOpen = true) :
    Sound (handleConnect env error it w) := by
  cases error
  · have ho := hopen rfl
    obtain ⟨s1, s2⟩ := hs
    simp_all [Sound, handleConnect]
  · have h1 : Sound (if w.net.socketOpen then stopAsync (logText (refusedLine (it.headD [])) w)
        else logText (timedOutLine (it.headD [])) w) := by
      split
      · exact stopAsync_sound _ hs
      · exact hs
    have h2 := startConnectTimer_sound it _ h1
    unfold handleConnect
    simp only [Bool.not_true, Bool.false_eq_true, ↓reduceIte]
    generalize startConnectTimer it (if w.net.socketOpen then
      stopAsync (logText (refusedLine (it.headD [])) w)
      else logText (timedOutLine (it.headD [])) w) = w1 at h2 ⊢
    split
    · exact ⟨h2.1, h2.2⟩
    · exact h2

theorem handleMainTimer_sound (w : World) (hs : Sound w) : Sound (handleMainTimer w) := by
  unfold handleMainTimer
  simp only
  have h1 : Sound (if (w.game.started && !w.net.connected && !w.net.connecting) = true then
      startAsync (stopAsync w) else w) := by
    split
    · have := stopAsync_sound w hs
      rename_i hc
      have hcn : (stopAsync w).net.connected = false := by
        have : w.net.connected = false := by simp_all
        cases ho : w.net.socketOpen <;> cases hr : w.net.resolveOp <;>
          simp_all [stopAsync, stopTimeoutTimer, stopConnectTimer]
      obtain ⟨s1, s2⟩ := this
      exact ⟨fun h => by simp [startAsync, hcn] at h, s2⟩
    · exact hs
  generalize (if (w.game.started && !w.net.connected && !w.net.connecting) = true then
      startAsync (stopAsync w) else w) = w1 at h1 ⊢
  have h2 : Sound (if w1.net.connected = true then
      if (w1.tick + 4294967296 - w1.net.lastCommunication) % 4294967296 >
          w1.program.settings.networkTimeout then closeConnection w1 else w1
      else w1) := by
    repeat' split
    all_goals first | exact closeConnection_sound _ h1 | exact h1
  exact h2

theorem step_sound (env : Env) (w v : World) (e : Event) (hs : Sound w)
    (h : step env w e = some v) : Sound v := by
  cases e with
  | mainTick =>
    simp only [step] at h
    split at h
    · cases h; exact handleMainTimer_sound _ hs
    · cases h
  | resolved r =>
    simp only [step] at h
    split at h
    · cases h; exact handleResolve_sound r _ hs
    · cases h
  | connectTimerFired =>
    simp only [step] at h
    split at h
    · cases h; exact handleConnectTimer_sound _ _ hs
    · cases h
  | connectDone error =>
    simp only [step] at h
    split at h
    · split at h
      · cases h
      · rename_i hc
        cases h
        refine handleConnect_sound env error _ _ hs ?_
        intro he
        subst he
        simpa using hc
    · cases h
  | timeoutFired =>
    simp only [step] at h
    split at h
    · cases h; exact handleTimeoutTimer_sound _ hs
    · cases h
  | received chunk =>
    simp only [step] at h
    split at h
    · split at h
      · cases h
        exact keeps_sound (handleRead_keeps env _ _) hs
      · cases h
        refine keeps_sound (handleReadFile_keeps false _ _) ?_
        refine keeps_sound ?_ hs
        unfold updFile
        split
        · apply keeps_of <;> simp_all
        · exact keeps_of _ _ rfl rfl rfl rfl id
      · cases h
    · cases h
  | readFailed =>
    simp only [step] at h
    split at h
    · cases h
      exact closeConnection_sound _ hs
    · cases h
      exact keeps_sound (handleReadFile_keeps true _ _) hs
    · cases h
  | writeDone error =>
    simp only [step] at h
    split at h
    · split at h
      · cases h
      · cases h
        exact keeps_sound (handleWrite_keeps error _) hs
    · cases h
  | streamOpened error n =>
    simp only [step] at h
    split at h
    · cases h
      exact keeps_sound (handleOpenStream_keeps env error n _) hs
    · cases h
  | streamRead status chunk =>
    simp only [step] at h
    split at h
    · cases h
      refine keeps_sound (handleReadStream_keeps status _ _) ?_
      refine keeps_sound ?_ hs
      unfold updFile
      split
      · apply keeps_of <;> simp_all
      · exact keeps_of _ _ rfl rfl rfl rfl id
    · cases h
  | clock tick => cases h; exact hs
  | gameFlags a b => cases h; exact hs
  | collaboratorSend m =>
    cases h
    exact keeps_sound (frame_keeps (same_frame (sendAsync_same m w))) hs
  | programStop => cases h; exact closeConnection_sound _ hs

theorem run_sound (env : Env) (evs : List Event) (w v : World) (hs : Sound w)
    (h : run env w evs = some v) : Sound v := by
  induction evs generalizing w with
  | nil => cases h; exact hs
  | cons e rest ih =>
    simp only [run] at h
    cases hstep : step env w e with
    | none => rw [hstep] at h; cases h
    | some w1 =>
      rw [hstep] at h
      exact ih w1 (step_sound env w w1 e hs hstep) h

theorem initialWorld_sound (program : Program) (fs : FileSys) (tick : Nat) :
    Sound (initialWorld program fs tick) :=
  ⟨fun h => (by cases h), fun h => (by cases h)⟩

/-- The invariant holds in every state the reactor reaches. -/
theorem reachable_sound (env : Env) (w : World) (h : Reachable env w) : Sound w := by
  obtain ⟨program, fs, tick, evs, hrun⟩ := h
  exact run_sound env evs _ w (initialWorld_sound program fs tick) hrun

/-- The invariant holds between the lines of a chunk. -/
theorem dispatchLines_sound (env : Env) (lines : List Str) (w : World) (hs : Sound w) :
    Sound (dispatchLines env lines w) :=
  keeps_sound (frame_keeps (dispatchLines_frame env lines w)) hs


/-! ### Transfers -/

theorem performTransferStart_disabled (env : Env) (t : List Str) (f : File) (remote : Bool)
    (w : World) (hdis : w.program.settings.transferFiles = false) :
    performTransferStart env t f remote w
      = setFile none (sendAsync (transferReply Client.Error)
          (logText ("Transfer of file \"".toList ++ t.getD 3 [] ++
            "\" rejected (file transfer requests disabled)".toList) w)) := by
  unfold performTransferStart
  simp only [hdis, Bool.not_false, ↓reduceIte]


theorem performPlay_fail (env : Env) (w : World)
    (h : ((lexicalCastInt (tok w 2)).isSome && (lexicalCastBool (tok w 3)).isSome &&
      (lexicalCastBool (tok w 4)).isSome && (lexicalCastBool (tok w 5)).isSome) = false) :
    performPlay env w = w := by
  unfold performPlay
  split
  · rfl
  · split
    · rename_i h1 h2 h3 h4
      simp [h1, h2, h3, h4] at h
    · rfl

theorem performPlaySequence_fail3 (env : Env) (w : World)
    (hlen : w.net.commandTokens.length = 3)
    (h : (lexicalCastInt (tok w 1)).isSome = false) :
    performPlaySequence env w = w := by
  unfold performPlaySequence
  simp only [hlen]
  cases h1 : lexicalCastInt (tok w 1) with
  | none => simp
  | some v => simp [h1] at h

theorem performPlaySequence_fail7 (env : Env) (w : World)
    (hlen : w.net.commandTokens.length = 7)
    (h : ((lexicalCastInt (tok w 1)).isSome && (lexicalCastInt (tok w 2)).isSome &&
        (lexicalCastBool (tok w 3)).isSome && (lexicalCastBool (tok w 4)).isSome &&
        (lexicalCastBool (tok w 5)).isSome) = false) :
    performPlaySequence env w = w := by
  unfold performPlaySequence
  simp only [hlen]
  split
  · rfl
  · split
    · rename_i hc
      simp at hc
    · split
      · rename_i h1 h2 h3 h4 h5
        simp [h1, h2, h3, h4, h5] at h
      · rfl

theorem performPause_fail (env : Env) (w : World)
    (h : (lexicalCastInt (tok w 1)).isSome = false) : performPause env w = w := by
  unfold performPause
  split
  · rfl
  · split
    · rfl
    · rename_i h1
      simp [h1] at h

theorem performResume_fail (env : Env) (w : World)
    (h : (lexicalCastInt (tok w 1)).isSome = false) : performResume env w = w := by
  unfold performResume
  split
  · rfl
  · split
    · rfl
    · rename_i h1
      simp [h1] at h

theorem performStop_fail (w : World)
    (h : (lexicalCastInt (tok w 1)).isSome = false) : performStop w = w := by
  unfold performStop
  split
  · rfl
  · split
    · rfl
    · rename_i h1
      simp [h1] at h

theorem performRestart_fail (env : Env) (w : World)
    (h : (lexicalCastInt (tok w 1)).isSome = false) : performRestart env w = w := by
  unfold performRestart
  split
  · rfl
  · split
    · rfl
    · rename_i h1
      simp [h1] at h

theorem performRemove3DPosition_fail (w : World)
    (h : (lexicalCastInt (tok w 1)).isSome = false) : performRemove3DPosition w = w := by
  unfold performRemove3DPosition
  split
  · rfl
  · split
    · rfl
    · rename_i h1
      simp [h1] at h

theorem performSetRadioStation_fail (w : World)
    (h : (lexicalCastInt (tok w 1)).isSome = false) : performSetRadioStation w = w := by
  unfold performSetRadioStation
  split
  · rfl
  · split
    · rfl
    · rename_i h1
      simp [h1] at h

theorem performGetPosition_fail (env : Env) (w : World)
    (h : ((lexicalCastInt (tok w 1)).isSome && (lexicalCastInt (tok w 2)).isSome) = false) :
    performGetPosition env w = w := by
  unfold performGetPosition
  split
  · rfl
  · split
    · rename_i h1 h2
      simp [h1, h2] at h
    · rfl

theorem performSetPosition_fail (w : World)
    (h : ((lexicalCastInt (tok w 1)).isSome && (lexicalCastInt (tok w 2)).isSome) = false) :
    performSetPosition w = w := by
  unfold performSetPosition
  split
  · rfl
  · split
    · rename_i h1 h2
      simp [h1, h2] at h
    · rfl

theorem performSetFX_fail (env : Env) (w : World)
    (h : ((lexicalCastInt (tok w 1)).isSome && (lexicalCastInt (tok w 2)).isSome) = false) :
    performSetFX env w = w := by
  unfold performSetFX
  split
  · rfl
  · split
    · rename_i h1 h2
      simp [h1, h2] at h
    · rfl

theorem performRemoveFX_fail (w : World)
    (h : ((lexicalCastInt (tok w 1)).isSome && (lexicalCastInt (tok w 2)).isSome) = false) :
    performRemoveFX w = w := by
  unfold performRemoveFX
  split
  · rfl
  · split
    · rename_i h1 h2
      simp [h1, h2] at h
    · rfl

theorem performSetVolume_fail (env : Env) (w : World)
    (h : ((lexicalCastInt (tok w 1)).isSome && (env.lexicalCastFloat (tok w 2)).isSome)
      = false) :
    performSetVolume env w = w := by
  unfold performSetVolume
  split
  · rfl
  · split
    · rename_i h1 h2
      simp [h1, h2] at h
    · rfl

theorem performSet3DPosition_fail (env : Env) (w : World)
    (h : ((lexicalCastInt (tok w 1)).isSome && (env.lexicalCastFloat (tok w 2)).isSome &&
      (env.lexicalCastFloat (tok w 3)).isSome && (env.lexicalCastFloat (tok w 4)).isSome &&
      (env.lexicalCastFloat (tok w 5)).isSome) = false) :
    (performSet3DPosition env w).trace = w.trace ∧
    performSet3DPosition env w = setStreams (performSet3DPosition env w).audio.streams w := by
  unfold performSet3DPosition
  split
  · exact ⟨rfl, rfl⟩
  · split
    · exact ⟨rfl, rfl⟩
    · rename_i handleID h1
      split
      · split
        · rename_i h2 h3 h4 h5
          simp [h1, h2, h3, h4, h5] at h
        · exact ⟨rfl, rfl⟩
      · exact ⟨rfl, rfl⟩

theorem performTransfer_fail (env : Env) (w : World)
    (hlen : w.net.commandTokens.length = 6)
    (h : ((lexicalCastBool (tok w 1)).isSome && (lexicalCastInt (tok w 2)).isSome &&
      (lexicalCastSizeT (tok w 4)).isSome) = false) :
    performTransfer env w
      = if w.program.downloadPath = [] then
          sendAsync (transferReply Client.Error)
            (logText ("Transfer of file \"".toList ++ tok w 3 ++
              "\" rejected (no download path specified)".toList) w)
        else setFile none (sendAsync (transferReply Client.Error)
          (setFile (some (File.new env)) w)) := by
  unfold performTransfer
  simp only [hlen, ↓reduceIte]
  split
  · rfl
  · split
    · rename_i h1 h2 h3
      simp only [tok] at h
      rw [h1, h2, h3] at h
      simp at h
    · rfl


/-! ### Stream table -/

theorem mapFind_mapSet {α : Type} (m : List (Int × α)) (k : Int) (s v : α)
    (h : mapFind m k = some s) : mapFind (mapSet m k v) k = some v := by
  induction m with
  | nil => simp [mapFind] at h
  | cons p rest ih =>
    obtain ⟨k0, v0⟩ := p
    by_cases hk : k0 = k
    · subst hk
      show mapFind ((if k0 = k0 then (k0, v) else (k0, v0)) :: mapSet rest k0 v) k0 = some v
      rw [if_pos rfl]
      simp [mapFind]
    · simp only [mapFind, hk, ↓reduceIte] at h
      have := ih h
      show mapFind ((if k0 = k then (k0, v) else (k0, v0)) :: mapSet rest k v) k = some v
      rw [if_neg hk]
      simp only [mapFind, hk, ↓reduceIte]
      exact this

/-! ### The start of a local transfer -/

theorem performTransferStart_upload (env : Env) (t : List Str) (f : File) (w : World)
    (hen : w.program.settings.transferFiles = true) (hw : w.fs.canWrite f.path = true) :
    sentMessages (performTransferStart env t f false w).trace
      = sentMessages w.trace ++ [transferReply Client.Local] ∧
    (performTransferStart env t f false w).net.file
      = some { f with handle := { isOpen := true, pos := 0 } } ∧
    (performTransferStart env t f false w).audio = w.audio ∧
    (performTransferStart env t f false w).fs = w.fs.truncate f.path ∧
    (performTransferStart env t f false w).net.readOps = w.net.readOps ++ [ReadKind.file] := by
  unfold performTransferStart
  simp only [hen, Bool.not_true, Bool.false_eq_true, ↓reduceIte, emit_proj, hw]
  simp [sentMessages_append, sentMessages]

theorem performTransferStart_sent (env : Env) (t : List Str) (f : File) (w : World) :
    sentMessages (performTransferStart env t f false w).trace
      = sentMessages w.trace ++ [startReply w f.path] := by
  unfold performTransferStart startReply
  cases hen : w.program.settings.transferFiles
  · simp [sentMessages_append, sentMessages]
  · cases hw : w.fs.canWrite f.path
    · simp only [Bool.not_true, Bool.false_eq_true, ↓reduceIte, emit_proj, hw, Bool.not_false,
        Bool.and_false]
      simp [sentMessages_append, sentMessages]
    · simp only [Bool.not_true, Bool.false_eq_true, ↓reduceIte, emit_proj, hw, Bool.and_self]
      simp [sentMessages_append, sentMessages]

/-! ### Tick counter and time stamp under the command handlers -/

theorem still_refl (w : World) : Still w w := ⟨rfl, rfl, rfl⟩

theorem still_trans {a b c : World} (h1 : Still a b) (h2 : Still b c) : Still a c :=
  ⟨h2.1.trans h1.1, h2.2.1.trans h1.2.1, h2.2.2.trans h1.2.2⟩

theorem sendAsync_still (m : Str) (w : World) : Still w (sendAsync m w) := by
  simp [Still]

theorem applyActs_still (acts : List Effect) (w : World) : Still w (applyActs acts w) := by
  induction acts generalizing w with
  | nil => exact still_refl w
  | cons e rest ih =>
    cases e <;>
      first
      | exact still_trans (sendAsync_still _ w) (ih _)
      | exact still_trans (show Still w (w.emit _) from ⟨rfl, rfl, rfl⟩) (ih _)

theorem performMessage_still (w : World) : Still w (performMessage w) := by
  unfold performMessage
  split <;> simp [Still]

theorem performName_still (w : World) : Still w (performName w) := by
  unfold performName
  split <;> simp [Still]

theorem performPlay_still (env : Env) (w : World) : Still w (performPlay env w) := by
  unfold performPlay
  split
  · exact still_refl w
  · split
    · exact still_trans (by simp [Still]) (applyActs_still _ _)
    · exact still_refl w

theorem sequenceLoop_still (env : Env) (handleID : Int) (tokens : List Str) (w : World) :
    Still w (sequenceLoop env handleID tokens w) := by
  induction tokens generalizing w with
  | nil => exact still_refl w
  | cons i rest ih =>
    unfold sequenceLoop
    split
    · exact ih w
    · split
      · exact still_trans (show Still w _ from ⟨rfl, rfl, rfl⟩) (applyActs_still _ _)
      · split
        · split
          · split
            · exact sendAsync_still _ w
            · exact still_refl w
          · exact still_refl w
        · split
          · exact ih w
          · split
            · split
              · exact still_trans (show Still w (setStreams _ w) from ⟨rfl, rfl, rfl⟩)
                  (ih _)
              · exact still_refl w
            · exact still_refl w

theorem performPlaySequenceTail_still (env : Env) (handleID : Int) (tokens : List Str)
    (w : World) : Still w (performPlaySequenceTail env handleID tokens w) := by
  unfold performPlaySequenceTail
  split
  · exact still_refl w
  · split
    · exact still_refl w
    · split
      · exact still_refl w
      · exact sequenceLoop_still env handleID tokens w

theorem performPlaySequence_still (env : Env) (w : World) :
    Still w (performPlaySequence env w) := by
  unfold performPlaySequence
  simp only
  split
  · exact still_refl w
  · split
    · split
      · exact still_refl w
      · exact performPlaySequenceTail_still env _ _ w
    · split
      · exact still_trans (show Still w (setStreams _ w) from ⟨rfl, rfl, rfl⟩)
          (performPlaySequenceTail_still env _ _ _)
      · exact still_refl w

theorem performPause_still (env : Env) (w : World) : Still w (performPause env w) := by
  unfold performPause
  repeat' split
  all_goals simp [Still]

theorem performResume_still (env : Env) (w : World) : Still w (performResume env w) := by
  unfold performResume
  repeat' split
  all_goals simp [Still]

theorem performStop_still (w : World) : Still w (performStop w) := by
  unfold performStop
  repeat' split
  all_goals simp [Still]

theorem performRestart_still (env : Env) (w : World) : Still w (performRestart env w) := by
  unfold performRestart
  repeat' split
  all_goals simp [Still]

theorem performGetPosition_still (env : Env) (w : World) :
    Still w (performGetPosition env w) := by
  unfold performGetPosition
  repeat' split
  all_goals simp [Still]

theorem performSetPosition_still (w : World) : Still w (performSetPosition w) := by
  unfold performSetPosition
  repeat' split
  all_goals simp [Still]

theorem performSetVolume_still (env : Env) (w : World) : Still w (performSetVolume env w) := by
  unfold performSetVolume
  repeat' split
  all_goals simp [Still]

theorem performSetFX_still (env : Env) (w : World) : Still w (performSetFX env w) := by
  unfold performSetFX
  repeat' split
  all_goals simp [Still]

theorem performRemoveFX_still (w : World) : Still w (performRemoveFX w) := by
  unfold performRemoveFX
  repeat' split
  all_goals simp [Still]

theorem performSet3DPosition_still (env : Env) (w : World) :
    Still w (performSet3DPosition env w) := by
  unfold performSet3DPosition
  repeat' split
  all_goals simp [Still]

theorem performRemove3DPosition_still (w : World) : Still w (performRemove3DPosition w) := by
  unfold performRemove3DPosition
  repeat' split
  all_goals simp [Still]

theorem performSetRadioStation_still (w : World) : Still w (performSetRadioStation w) := by
  unfold performSetRadioStation
  repeat' split
  all_goals simp [Still]

theorem performStopRadio_still (w : World) : Still w (performStopRadio w) := by
  unfold performStopRadio
  repeat' split
  all_goals simp [Still]

theorem performConnect_still (w : World) : Still w (performConnect w) := by
  unfold performConnect
  simp only
  repeat' split
  all_goals simp [Still, tok]

theorem performTransferStart_still (env : Env) (t : List Str) (f : File) (remote : Bool)
    (w : World) : Still w (performTransferStart env t f remote w) := by
  unfold performTransferStart
  split
  · simp [Still]
  · split
    · simp [Still]
    · simp only
      split
      · simp [Still]
      · simp [Still]

theorem performTransferLocal_still (env : Env) (t : List Str) (f : File) (transferable : Bool)
    (w : World) : Still w (performTransferLocal env t f transferable w) := by
  unfold performTransferLocal
  split
  · split
    · simp only
      split
      · simp [Still]
      · exact performTransferStart_still env t f false w
    · simp [Still]
  · split
    · simp [Still]
    · exact performTransferStart_still env t f false w

theorem performTransfer_still (env : Env) (w : World) : Still w (performTransfer env w) := by
  unfold performTransfer
  simp only [setFile_setFile]
  repeat' split
  all_goals
    first
    | exact still_refl w
    | exact still_trans (show Still w (setFile _ w) from ⟨rfl, rfl, rfl⟩)
        (performTransferLocal_still env _ _ _ _)
    | exact still_trans (show Still w (setFile _ w) from ⟨rfl, rfl, rfl⟩)
        (performTransferStart_still env _ _ _ _)
    | simp [Still]

theorem still_ite {w a b : World} (c : Prop) [Decidable c] (ha : Still w a)
    (hb : Still w b) : Still w (if c then a else b) := by
  split <;> assumption

theorem dispatch_still (env : Env) (command : Int) (w : World) :
    Still w (dispatch env command w) := by
  unfold dispatch
  exact still_ite _ (performConnect_still w)
    (still_ite _ (performMessage_still w)
    (still_ite _ (performName_still w)
    (still_ite _ (performTransfer_still env w)
    (still_ite _ (performPlay_still env w)
    (still_ite _ (performPlaySequence_still env w)
    (still_ite _ (performPause_still env w)
    (still_ite _ (performResume_still env w)
    (still_ite _ (performStop_still w)
    (still_ite _ (performRestart_still env w)
    (still_ite _ (performGetPosition_still env w)
    (still_ite _ (performSetPosition_still w)
    (still_ite _ (performSetVolume_still env w)
    (still_ite _ (performSetFX_still env w)
    (still_ite _ (performRemoveFX_still w)
    (still_ite _ (performSet3DPosition_still env w)
    (still_ite _ (performRemove3DPosition_still w)
    (still_ite _ (performSetRadioStation_still w)
    (still_ite _ (performStopRadio_still w) (still_refl w)))))))))))))))))))

theorem parseBuffer_still (env : Env) (buffer : Str) (w : World) :
    Still w (parseBuffer env buffer w) := by
  by_cases hne : buffer = []
  · subst hne
    have : parseBuffer env [] w = sendAsync ['\n'] w := by simp [parseBuffer]
    rw [this]
    exact sendAsync_still _ w
  · rw [parseBuffer_fields env w buffer hne]
    split
    · exact ⟨rfl, rfl, rfl⟩
    · split
      · exact ⟨rfl, rfl, rfl⟩
      · exact still_trans (show Still w (setTokens _ w) from ⟨rfl, rfl, rfl⟩)
          (dispatch_still env _ _)

theorem dispatchLines_still (env : Env) (lines : List Str) (w : World) :
    Still w (dispatchLines env lines w) := by
  induction lines generalizing w with
  | nil => exact still_refl w
  | cons l ls ih => exact still_trans (parseBuffer_still env l w) (ih _)

/-! ### The liveness check -/

theorem stopAsync_not_connected (w : World) (h : w.net.connected = false) :
    (stopAsync w).net.connected = false := by
  cases ho : w.net.socketOpen <;> cases hr : w.net.resolveOp <;>
    simp [stopAsync, stopTimeoutTimer, stopConnectTimer, ho, hr, h]

theorem handleMainTimer_connected (w : World) (h : w.net.connected = true) :
    handleMainTimer w
      = startMainTimer (if timeElapsed w > w.program.settings.networkTimeout then
          closeConnection w else w) := by
  unfold handleMainTimer timeElapsed
  simp only [h, Bool.not_true, Bool.and_false, Bool.false_and, Bool.false_eq_true, ↓reduceIte]

theorem handleMainTimer_not_connected (w : World) (h : w.net.connected = false) :
    handleMainTimer w
      = startMainTimer (if w.game.started && !w.net.connecting then startAsync (stopAsync w)
          else w) := by
  have hs : (startAsync (stopAsync w)).net.connected = false := stopAsync_not_connected w h
  unfold handleMainTimer
  simp only [h, Bool.not_false, Bool.and_true]
  split
  · simp only [hs, Bool.false_eq_true, ↓reduceIte]
  · simp only [h, Bool.false_eq_true, ↓reduceIte]

theorem handleWrite_proj (error : Bool) (w : World) :
    (handleWrite error w).net.lastCommunication = w.net.lastCommunication ∧
    (handleWrite error w).tick = w.tick ∧
    (handleWrite error w).program = w.program ∧
    (handleWrite error w).net.mainTimer = w.net.mainTimer ∧
    (handleWrite error w).net.connected = w.net.connected ∧
    (handleWrite error w).net.socketOpen = w.net.socketOpen ∧
    (handleWrite error w).net.authenticated = w.net.authenticated := by
  unfold handleWrite
  simp only
  repeat' split
  all_goals simp

theorem closeConnection_disconnects (w : World) (h : w.net.socketOpen = true) :
    (closeConnection w).net.connected = false := by
  cases hc : w.net.connected <;> cases hr : w.net.resolveOp <;>
    simp [closeConnection, freeMemory, stopAsync, stopTimeoutTimer, stopConnectTimer, h, hc, hr]

theorem handleReadFile_stamp (error : Bool) (n : Nat) (w : World)
    (h : w.net.socketOpen = true) : (handleReadFile error n w).net.lastCommunication = w.tick := by
  rcases hf : w.net.file with _ | f
  · cases error <;> simp [handleReadFile, hf, h]
  · cases error
    · by_cases hn : n = 0
      · simp [handleReadFile, hf, h, hn]
      · by_cases hc : cString f.buffer = cancelToken
        · simp [handleReadFile, hf, h, hn, hc]
        · by_cases hd : f.handle.pos + n ≥ f.size
          · simp [handleReadFile, hf, h, hn, hc, hd]
          · simp [handleReadFile, hf, h, hn, hc, hd]
    · simp [handleReadFile, hf, h]

theorem handleConnect_stamp (env : Env) (it : Iter) (w : World) :
    (handleConnect env false it w).net.lastCommunication = w.tick := by
  simp [handleConnect]

theorem handleRead_stamp (env : Env) (n : Nat) (w : World) :
    (handleRead env false n w).net.lastCommunication = w.tick ∨
    ((∃ f, (handleRead env false n w).net.file = some f ∧ f.url = []) ∧
      (handleRead env false n w).net.lastCommunication = w.net.lastCommunication) := by
  rw [handleRead_lines]
  have hst := dispatchLines_still env
    (framedLines (readBuffer w.net.receivedData n))
    (setMessageTokens (splitOn '\n' (eraseLast '\n' (readBuffer w.net.receivedData n))) w)
  generalize dispatchLines env _ _ = d at hst ⊢
  obtain ⟨h1, h2, -⟩ := hst
  have h1' : d.tick = w.tick := h1
  have h2' : d.net.lastCommunication = w.net.lastCommunication := h2
  unfold finishRead
  split
  · rename_i hstop
    right
    refine ⟨?_, h2'⟩
    cases hf : d.net.file with
    | none => simp [hf] at hstop
    | some f => exact ⟨f, rfl, by simpa [hf] using hstop⟩
  · left
    exact h1'

/-! ### The authentication flag -/

theorem updFile_flags (g : File → File) (w : World) :
    (updFile g w).net.connected = w.net.connected ∧
    (updFile g w).net.authenticated = w.net.authenticated := by
  unfold updFile
  split
  · exact ⟨rfl, rfl⟩
  · exact ⟨rfl, rfl⟩

theorem handleReadFile_auth (error : Bool) (n : Nat) (w : World) :
    (handleReadFile error n w).net.authenticated = w.net.authenticated := by
  unfold handleReadFile
  simp only
  repeat' split
  all_goals simp

theorem handleOpenStream_auth (env : Env) (error : Bool) (n : Nat) (w : World) :
    (handleOpenStream env error n w).net.authenticated = w.net.authenticated := by
  rcases hf : w.net.file with _ | f
  · cases error <;> cases hs : w.net.socketOpen <;> cases hr : w.net.readStreamOpen <;>
      simp [handleOpenStream, hf, hs, hr, updFile]
  · cases error
    · rcases hread : w.fs.read f.path with _ | content
      · cases hc : w.fs.canWrite f.path <;> cases hs : w.net.socketOpen <;>
          cases hr : w.net.readStreamOpen <;>
          simp [handleOpenStream, hf, hs, hr, updFile, hread, hc]
      · by_cases hn : n = content.length <;>
          cases hc : w.fs.canWrite f.path <;> cases hs : w.net.socketOpen <;>
          cases hr : w.net.readStreamOpen <;>
          simp [handleOpenStream, hf, hs, hr, updFile, hread, hc, hn]
    · cases hs : w.net.socketOpen <;> cases hr : w.net.readStreamOpen <;>
        simp [handleOpenStream, hf, hs, hr, updFile]

theorem handleReadStream_auth (status : StreamStatus) (n : Nat) (w : World) :
    (handleReadStream status n w).net.authenticated = w.net.authenticated := by
  rcases hf : w.net.file with _ | f
  · cases status <;> cases hr : w.net.readStreamOpen <;>
      simp [handleReadStream, hf, hr, updFile]
  · cases status <;> cases hr : w.net.readStreamOpen <;> by_cases hn : n = 0 <;>
      simp [handleReadStream, hf, hr, updFile, hn]

theorem stopAsync_authentic (w : World) (hs : Sound w) (ha : Authentic w) :
    Authentic (stopAsync w) := by
  obtain ⟨s1, -⟩ := hs
  unfold Authentic at ha ⊢
  cases ho : w.net.socketOpen <;> cases hc : w.net.connected <;> cases hr : w.net.resolveOp <;>
    simp_all [stopAsync, stopTimeoutTimer, stopConnectTimer]

theorem closeConnection_authentic (w : World) (hs : Sound w) (ha : Authentic w) :
    Authentic (closeConnection w) := by
  obtain ⟨s1, -⟩ := hs
  unfold Authentic at ha ⊢
  cases ho : w.net.socketOpen <;> cases hc : w.net.connected <;> cases hr : w.net.resolveOp <;>
    simp_all [closeConnection, freeMemory, stopAsync, stopTimeoutTimer, stopConnectTimer]

theorem startConnectTimer_authentic (it : Iter) (w : World) (ha : Authentic w) :
    Authentic (startConnectTimer it w) := by
  unfold startConnectTimer
  split
  · exact ha
  · exact ha

theorem handleMainTimer_authentic (w : World) (hs : Sound w) (ha : Authentic w) :
    Authentic (handleMainTimer w) := by
  cases hc : w.net.connected
  · rw [handleMainTimer_not_connected w hc]
    split
    · exact stopAsync_authentic w hs ha
    · exact ha
  · rw [handleMainTimer_connected w hc]
    split
    · exact closeConnection_authentic w hs ha
    · exact ha

theorem handleConnect_authentic (env : Env) (error : Bool) (it : Iter) (w : World)
    (hs : Sound w) (ha : Authentic w) : Authentic (handleConnect env error it w) := by
  cases error
  · intro _
    simp [handleConnect]
  · have h1 : Authentic (if w.net.socketOpen then
        stopAsync (logText (refusedLine (it.headD [])) w)
        else logText (timedOutLine (it.headD [])) w) := by
      split
      · exact stopAsync_authentic _ hs ha
      · exact ha
    have h2 : Authentic (startConnectTimer it (if w.net.socketOpen then
        stopAsync (logText (refusedLine (it.headD [])) w)
        else logText (timedOutLine (it.headD [])) w)) :=
      startConnectTimer_authentic it _ h1
    unfold handleConnect
    simp only [Bool.not_true, Bool.false_eq_true, ↓reduceIte]
    generalize startConnectTimer it (if w.net.socketOpen then
      stopAsync (logText (refusedLine (it.headD [])) w)
      else logText (timedOutLine (it.headD [])) w) = w1 at h2 ⊢
    split
    · exact h2
    · exact h2

theorem handleConnectTimer_authentic (it : Iter) (w : World) (hs : Sound w)
    (ha : Authentic w) : Authentic (handleConnectTimer it w) := by
  cases it with
  | nil => exact stopAsync_authentic w hs ha
  | cons e rest =>
    unfold handleConnectTimer
    simp only
    split
    · exact ha
    · exact ha

theorem step_authentic (env : Env) (w v : World) (e : Event) (hs : Sound w)
    (ha : Authentic w) (h : step env w e = some v) : Authentic v := by
  cases e with
  | mainTick =>
    simp only [step] at h
    split at h
    · cases h; exact handleMainTimer_authentic _ hs ha
    · cases h
  | resolved r =>
    simp only [step] at h
    split at h
    · cases h
      cases r with
      | none => exact ha
      | some it =>
        unfold handleResolve startConnectTimer
        simp only
        split <;> exact ha
    · cases h
  | connectTimerFired =>
    simp only [step] at h
    split at h
    · cases h; exact handleConnectTimer_authentic _ _ hs ha
    · cases h
  | connectDone error =>
    simp only [step] at h
    split at h
    · split at h
      · cases h
      · cases h
        exact handleConnect_authentic env error _ _ hs ha
    · cases h
  | timeoutFired =>
    simp only [step] at h
    split at h
    · cases h
      unfold handleTimeoutTimer
      split
      · exact stopAsync_authentic _ hs ha
      · exact ha
    · cases h
  | received chunk =>
    simp only [step] at h
    split at h
    · rename_i hg
      have hc : w.net.connected = true := by
        simp only [Bool.and_eq_true] at hg
        exact hg.2
      split at h
      · cases h
        intro _
        exact (handleRead_keeps env _ _).1.trans hc
      · cases h
        intro _
        exact ((handleReadFile_keeps false _ _).1.trans (updFile_flags _ _).1).trans hc
      · cases h
    · cases h
  | readFailed =>
    simp only [step] at h
    split at h
    · cases h
      exact closeConnection_authentic _ hs ha
    · cases h
      intro hauth
      rw [handleReadFile_auth] at hauth
      exact (handleReadFile_keeps true _ _).1.trans (ha hauth)
    · cases h
  | writeDone error =>
    simp only [step] at h
    split at h
    · split at h
      · cases h
      · cases h
        intro hauth
        rw [(handleWrite_proj error _).2.2.2.2.2.2] at hauth
        exact (handleWrite_proj error _).2.2.2.2.1.trans (ha hauth)
    · cases h
  | streamOpened error n =>
    simp only [step] at h
    split at h
    · cases h
      intro hauth
      rw [handleOpenStream_auth] at hauth
      exact (handleOpenStream_keeps env error n _).1.trans (ha hauth)
    · cases h
  | streamRead status chunk =>
    simp only [step] at h
    split at h
    · cases h
      intro hauth
      rw [handleReadStream_auth] at hauth
      rw [(updFile_flags _ _).2] at hauth
      exact ((handleReadStream_keeps status _ _).1.trans (updFile_flags _ _).1).trans (ha hauth)
    · cases h
  | clock tick => cases h; exact ha
  | gameFlags a b => cases h; exact ha
  | collaboratorSend m =>
    cases h
    intro hauth
    rw [(sendAsync_proj w m).2.2.2.2.2.2.2.2.2.2.1] at hauth
    exact (sendAsync_proj w m).2.2.2.2.2.2.2.2.2.1.trans (ha hauth)
  | programStop => cases h; exact closeConnection_authentic _ hs ha

theorem run_authentic (env : Env) (evs : List Event) (w v : World) (hs : Sound w)
    (ha : Authentic w) (h : run env w evs = some v) : Authentic v := by
  induction evs generalizing w with
  | nil => cases h; exact ha
  | cons e rest ih =>
    simp only [run] at h
    cases hstep : step env w e with
    | none => rw [hstep] at h; cases h
    | some w1 =>
      rw [hstep] at h
      exact ih w1 (step_sound env w w1 e hs hstep) (step_authentic env w w1 e hs ha hstep) h

/-! ## C1: the scenario line -/

/-- C1 (counterexample): the line `4 1 7 song.mp3 120 A1B2C3D4` has the opcode
of `Server::Play`; with a download directory configured, transfers disabled
and no file present, `parseBuffer` passes no message to `sendAsync` for it,
so the outbound messages are not the single `"1\t3\n"`. -/
theorem scenario_line_emits_nothing :
    sentMessages (parseBuffer sampleEnv scenarioLine scenarioWorld).trace = [] ∧
    ¬ (sentMessages (parseBuffer sampleEnv scenarioLine scenarioWorld).trace
        = ["1\t3\n".toList]) := by
  decide

/-- C1 (amended): with a download directory configured, transfers disabled and
no file `song.mp3` at the destination, the line with the opcode of
`Server::Transfer` (`3 1 7 song.mp3 120 A1B2C3D4`) emits exactly the one
message `"1\t3\n"`, leaves no active transfer and registers nothing; the line
as written in the scenario (opcode `4`, `Server::Play`) only stores its tokens:
no message, no collaborator call, no other state change. -/
theorem scenario_transfer_disabled (env : Env) (w : World)
    (hdir : w.program.downloadPath ≠ [])
    (hdis : w.program.settings.transferFiles = false)
    (hext : w.program.acceptedFileExtensions.any (fun i => iends_with "song.mp3".toList i) = true)
    (hnofile : w.fs.read (w.program.downloadPath ++ '\\' :: "song.mp3".toList) = none) :
    sentMessages (parseBuffer env scenarioLineTransfer w).trace
        = sentMessages w.trace ++ ["1\t3\n".toList]
      ∧ (parseBuffer env scenarioLineTransfer w).net.file = none
      ∧ (parseBuffer env scenarioLineTransfer w).audio = w.audio
      ∧ parseBuffer env scenarioLine w = setTokens (splitOn '\t' scenarioLine) w := by
  have e1 : parseBuffer env scenarioLineTransfer w
      = dispatch env 3 (setTokens (splitOn '\t' scenarioLineTransfer) w) :=
    parseBuffer_dispatch env w _ 3 (by decide) (by decide)
  have e2 : parseBuffer env scenarioLine w
      = dispatch env 4 (setTokens (splitOn '\t' scenarioLine) w) :=
    parseBuffer_dispatch env w _ 4 (by decide) (by decide)
  have hplay : performPlay env (setTokens (splitOn '\t' scenarioLine) w)
      = setTokens (splitOn '\t' scenarioLine) w :=
    performPlay_bad_pause env _ (by simp only [tok, setTokens_tokens]; decide)
  have htr := performTransfer_local env (setTokens (splitOn '\t' scenarioLineTransfer) w)
    true 7 120
    (by simp only [setTokens_tokens]; decide) hdir
    (by simp only [setTokens_tokens]; decide) (by simp only [setTokens_tokens]; decide)
    (by simp only [setTokens_tokens]; decide) (by simp only [setTokens_tokens]; decide) hext
  have hout := performTransferLocal_refused env
    (setTokens (splitOn '\t' scenarioLineTransfer) w).net.commandTokens
    (transferRecord env 7 120
      ((setTokens (splitOn '\t' scenarioLineTransfer) w).net.commandTokens.getD 3 [])
      (setTokens (splitOn '\t' scenarioLineTransfer) w).program.downloadPath)
    true
    (setFile (some (transferRecord env 7 120
        ((setTokens (splitOn '\t' scenarioLineTransfer) w).net.commandTokens.getD 3 [])
        (setTokens (splitOn '\t' scenarioLineTransfer) w).program.downloadPath))
      (setTokens (splitOn '\t' scenarioLineTransfer) w)) hnofile hdis
  rw [e1, e2, dispatch_transfer, dispatch_play, hplay, htr]
  have hrep : transferReply Client.Error = "1\t3\n".toList := by decide
  rw [← hrep]
  exact ⟨hout.1, hout.2.1, hout.2.2.1, rfl⟩

/-- C1 (witness): the amended statement at the sample session with transfers
disabled. -/
theorem scenario_transfer_disabled_witness :
    sentMessages (parseBuffer sampleEnv scenarioLineTransfer scenarioWorld).trace
        = sentMessages scenarioWorld.trace ++ ["1\t3\n".toList]
      ∧ (parseBuffer sampleEnv scenarioLineTransfer scenarioWorld).net.file = none
      ∧ (parseBuffer sampleEnv scenarioLineTransfer scenarioWorld).audio = scenarioWorld.audio
      ∧ parseBuffer sampleEnv scenarioLine scenarioWorld
          = setTokens (splitOn '\t' scenarioLine) scenarioWorld :=
  scenario_transfer_disabled sampleEnv scenarioWorld (by decide) (by decide) (by decide)
    (by decide)

/-! ## C2: wrong field count -/

/-- C2 (counterexample): the one-field line `3` names the handled opcode
`Server::Transfer`, its field count differs from the six a transfer needs, and
`parseBuffer` calls `logText` of the Program Context for it. -/
theorem bare_transfer_line_logs :
    lexicalCastInt ((splitOn '\t' "3".toList).getD 0 []) = some Server.Transfer ∧
    (splitOn '\t' "3".toList).length ∉ requiredFieldCounts Server.Transfer ∧
    (parseBuffer sampleEnv "3".toList scenarioWorld).trace
      = [Effect.logText "All files processed".toList] := by
  decide

/-- C2 (amended): for every input line whose first field is a handled server
opcode and whose number of tab-separated fields is not a count the opcode's
handler acts on, `parseBuffer` only stores the tokens: no collaborator call,
no outbound message, no change of connection, transfer or audio state. The one
exception is the one-field `Server::Transfer` line, for which the handler
calls `logText("All files processed")` and does nothing else. -/
theorem wrong_field_count_dropped (env : Env) (w : World) (buffer : Str) (command : Int)
    (hcmd : lexicalCastInt ((splitOn '\t' buffer).getD 0 []) = some command)
    (hhandled : command ∈ handledOpcodes)
    (hcount : (splitOn '\t' buffer).length ∉ requiredFieldCounts command) :
    parseBuffer env buffer w =
      if command = Server.Transfer ∧ (splitOn '\t' buffer).length = 1 then
        logText "All files processed".toList (setTokens (splitOn '\t' buffer) w)
      else setTokens (splitOn '\t' buffer) w := by
  have hne : buffer ≠ [] := by
    intro h
    subst h
    simp [splitOn, lexicalCastInt, parseDigits] at hcmd
  have hsp : splitOn '\t' buffer ≠ [] := splitOn_ne_nil _ _
  by_cases hempty : (splitOn '\t' buffer).any (fun i => i = []) = true
  · have hp : parseBuffer env buffer w = setTokens (splitOn '\t' buffer) w := by
      simp only [parseBuffer, hne, hsp, if_false, hempty, if_true]
    rw [hp, if_neg]
    rintro ⟨-, h1⟩
    match hs : splitOn '\t' buffer, h1 with
    | [t], _ =>
      rw [hs] at hempty hcmd
      simp at hempty
      subst hempty
      simp [lexicalCastInt, parseDigits] at hcmd
  · rw [parseBuffer_dispatch env w buffer command (Bool.eq_false_iff.mpr hempty) hcmd]
    generalize hn : (splitOn '\t' buffer).length = n at hcount
    have hlen : (setTokens (splitOn '\t' buffer) w).net.commandTokens.length = n := by
      simpa using hn
    generalize setTokens (splitOn '\t' buffer) w = w1 at hlen ⊢
    simp only [handledOpcodes, List.mem_cons, List.mem_singleton, List.not_mem_nil, or_false]
      at hhandled
    rcases hhandled with h | h | h | h | h | h | h | h | h | h | h | h | h | h | h | h | h | h | h
    all_goals subst h
    all_goals simp [requiredFieldCounts, Server.Connect, Server.Message, Server.Name,
      Server.Transfer, Server.Play, Server.PlaySequence, Server.Pause, Server.Resume,
      Server.Stop, Server.Restart, Server.GetPosition, Server.SetPosition, Server.SetVolume,
      Server.SetFX, Server.RemoveFX, Server.Set3DPosition, Server.Remove3DPosition,
      Server.SetRadioStation, Server.StopRadio] at hcount
    all_goals simp [dispatch, Server.Connect, Server.Message, Server.Name,
      Server.Transfer, Server.Play, Server.PlaySequence, Server.Pause, Server.Resume,
      Server.Stop, Server.Restart, Server.GetPosition, Server.SetPosition, Server.SetVolume,
      Server.SetFX, Server.RemoveFX, Server.Set3DPosition, Server.Remove3DPosition,
      Server.SetRadioStation, Server.StopRadio]
    all_goals simp [performConnect, performMessage, performName, performTransfer, performPlay,
      performPlaySequence, performPause, performResume, performStop, performRestart,
      performGetPosition, performSetPosition, performSetVolume, performSetFX, performRemoveFX,
      performSet3DPosition, performRemove3DPosition, performSetRadioStation, performStopRadio,
      hlen, hcount]

/-- C2 (witness): the three-field line `6 1 2` (`Server::Pause` needs two
fields) only stores its tokens. -/
theorem wrong_field_count_dropped_witness :
    parseBuffer sampleEnv "6\t1\t2".toList scenarioWorld
      = setTokens (splitOn '\t' "6\t1\t2".toList) scenarioWorld :=
  (wrong_field_count_dropped sampleEnv scenarioWorld "6\t1\t2".toList 6 (by decide) (by decide)
    (by decide)).trans (if_neg (by decide))

/-! ## C3: illegal strings in the file name -/

/-- C3 (code at the failing input): the file name `..\evil.mp3` contains the
configured illegal string `..`, yet the Transfer command is accepted: the only
reply is `Transfer/Local` (`"1\t0\n"`), a transfer is active afterwards and
the destination `.\audiopacks\pack\..\evil.mp3` was opened for writing. -/
theorem illegal_name_transfer_started :
    "..".toList ∈ defaultIllegalCharacters ∧
    icontains "..\\evil.mp3".toList "..".toList = true ∧
    sentMessages (parseBuffer sampleEnv traversalLine uploadReadyWorld).trace
      = ["1\t0\n".toList] ∧
    (parseBuffer sampleEnv traversalLine uploadReadyWorld).net.file.map (fun f => f.path)
      = some ".\\audiopacks\\pack\\..\\evil.mp3".toList ∧
    Effect.openForWriting ".\\audiopacks\\pack\\..\\evil.mp3".toList
      ∈ (parseBuffer sampleEnv traversalLine uploadReadyWorld).trace := by
  decide

/-! ## C4: the outbound queue -/

/-- C4: take any interleaving of `sendAsync` calls and write completions,
started with the queue at rest, and let `passed` be the messages passed to
`sendAsync` in call order. There is a marking `keep` of the positions of
`passed` such that the messages handed to the socket, followed by those still
pending, are exactly the kept messages in call order (each position at most
once), while the messages that were in the pending queue when a write
completed with an error are exactly the messages at the other positions, so
none of them is ever handed to the socket. At most one write is outstanding at
any time, so a message is handed over only once every message before it has
completed. With no failed completion nothing is dropped: handed followed by
pending is `passed`. -/
theorem outbound_queue_fifo (w0 w1 : World) (evs : List QueueEvent)
    (hw : w0.net.writeInProgress = false) (ho : w0.net.writeOps = [])
    (hp : w0.net.pendingMessages = [])
    (hrun : queueRun w0 evs = some w1) :
    (∃ keep : List Bool, keep.length = (passedMessages evs).length ∧
      socketWrites w1.trace ++ w1.net.pendingMessages
        = socketWrites w0.trace ++ pick keep (passedMessages evs) ∧
      discardedMessages w0 evs = pick (keep.map not) (passedMessages evs)) ∧
    w1.net.writeOps.length ≤ 1 ∧
    ((∀ e ∈ evs, e ≠ QueueEvent.complete true) →
      socketWrites w1.trace ++ w1.net.pendingMessages
        = socketWrites w0.trace ++ passedMessages evs) := by
  obtain ⟨keep, hk, h1, h2, h3⟩ :=
    queue_invariant evs w0 w1 (Or.inr ⟨hw, ho, hp⟩) hrun
  rw [hp] at hk h1 h2
  simp only [List.length_nil, Nat.zero_add, List.nil_append] at hk h1 h2
  refine ⟨⟨keep, hk, h1, h2⟩, ?_, ?_⟩
  · rcases h3 with ⟨-, hlen⟩ | ⟨-, hnil, -⟩
    · exact Nat.le_of_eq hlen
    · simp [hnil]
  · intro hok
    rw [h1, pick_of_complement_nil keep _ hk]
    rw [← h2]
    exact discardedMessages_nil evs w0 hok

/-- C4 (witness): two sends, a successful completion, a third send, a failed
completion and a fourth send, started in a session at rest. -/
theorem outbound_queue_fifo_witness :
    (∃ keep : List Bool, keep.length = (passedMessages queueSample).length ∧
      socketWrites queueSampleEnd.trace ++ queueSampleEnd.net.pendingMessages
        = socketWrites uploadReadyWorld.trace ++ pick keep (passedMessages queueSample) ∧
      discardedMessages uploadReadyWorld queueSample
        = pick (keep.map not) (passedMessages queueSample)) ∧
    queueSampleEnd.net.writeOps.length ≤ 1 ∧
    ((∀ e ∈ queueSample, e ≠ QueueEvent.complete true) →
      socketWrites queueSampleEnd.trace ++ queueSampleEnd.net.pendingMessages
        = socketWrites uploadReadyWorld.trace ++ passedMessages queueSample) :=
  outbound_queue_fifo uploadReadyWorld queueSampleEnd queueSample (by decide) (by decide)
    (by decide) (by decide)

/-! ## C5: write errors -/

set_option maxRecDepth 4096 in
/-- C6 (counterexample): `song.mp3` exists at the destination with content
`abc`, whose CRC-32 is 891568578, in hexadecimal 352441C2. The six-field
Transfer line for it whose sixth field `352441c2` spells that number in lower
case is not answered with Transfer/Check: `performTransfer` sends
Transfer/Local (`"1\t0\n"`), registers nothing, keeps the transfer active,
arms a file read and truncates the file at the destination. -/
theorem lower_case_checksum_uploads :
    existingFileWorld.fs.read ".\\audiopacks\\pack\\song.mp3".toList = some "abc".toList ∧
    crc32 "abc".toList = 891568578 ∧
    splitOn '\t' lowerCaseLine
      = ["3".toList, "1".toList, "7".toList, "song.mp3".toList, "3".toList,
          "352441c2".toList] ∧
    hexValue "352441c2".toList = some (crc32 "abc".toList) ∧
    sentMessages (performTransfer sampleEnv
        (setTokens (splitOn '\t' lowerCaseLine) existingFileWorld)).trace
      = ["1\t0\n".toList] ∧
    (performTransfer sampleEnv
        (setTokens (splitOn '\t' lowerCaseLine) existingFileWorld)).audio.files = [] ∧
    (performTransfer sampleEnv
        (setTokens (splitOn '\t' lowerCaseLine) existingFileWorld)).net.file.isSome = true ∧
    (performTransfer sampleEnv
        (setTokens (splitOn '\t' lowerCaseLine) existingFileWorld)).net.readOps
      = [ReadKind.command, ReadKind.file] ∧
    (performTransfer sampleEnv
        (setTokens (splitOn '\t' lowerCaseLine) existingFileWorld)).fs.read
          ".\\audiopacks\\pack\\song.mp3".toList = some [] := by
  refine ⟨by decide, by decide, by decide, by decide, by decide, by decide, by decide,
    by decide, by decide⟩

/-- C6 (amended): for a six-field Transfer command with a download directory
configured, well-typed fields, a name that is not a URL and has an accepted
extension, when the file exists at the destination with content `content` and
the sixth field is exactly the `%X` rendering of its CRC-32 (upper-case
hexadecimal digits, no leading zeros), `performTransfer` passes exactly one
message to `sendAsync`, `Transfer/Check` (`"1\t2\n"`), calls
`files.insert(id, name)`, leaves no active transfer, arms no read (the
outstanding reads are unchanged) and writes nothing to the file system. -/
theorem existing_file_checksum_match (env : Env) (w : World) (transferable : Bool) (id : Int)
    (size : Nat) (content : Str)
    (hlen : w.net.commandTokens.length = 6)
    (hdir : w.program.downloadPath ≠ [])
    (hb : lexicalCastBool (w.net.commandTokens.getD 1 []) = some transferable)
    (hi : lexicalCastInt (w.net.commandTokens.getD 2 []) = some id)
    (hs : lexicalCastSizeT (w.net.commandTokens.getD 4 []) = some size)
    (hurl : istarts_with (w.net.commandTokens.getD 3 []) "http://".toList = false)
    (hext : w.program.acceptedFileExtensions.any
      (fun i => iends_with (w.net.commandTokens.getD 3 []) i) = true)
    (hfile : w.fs.read (w.program.downloadPath ++ '\\' :: w.net.commandTokens.getD 3 [])
      = some content)
    (hsum : w.net.commandTokens.getD 5 [] = showHexUpper (crc32 content)) :
    sentMessages (performTransfer env w).trace = sentMessages w.trace ++ ["1\t2\n".toList]
      ∧ (performTransfer env w).audio.files
          = mapInsert w.audio.files id (w.net.commandTokens.getD 3 [])
      ∧ (performTransfer env w).net.file = none
      ∧ (performTransfer env w).net.readOps = w.net.readOps
      ∧ (performTransfer env w).fs = w.fs := by
  rw [performTransfer_local env w transferable id size hlen hdir hb hi hs hurl hext]
  have hrep : transferReply Client.Check = "1\t2\n".toList := by decide
  rw [← hrep]
  unfold performTransferLocal
  have hp : (setFile (some (transferRecord env id size (w.net.commandTokens.getD 3 [])
      w.program.downloadPath)) w).fs.read (transferRecord env id size
        (w.net.commandTokens.getD 3 []) w.program.downloadPath).path = some content := hfile
  rw [hp]
  cases transferable <;> simp only [hsum, ↓reduceIte, Bool.false_eq_true] <;>
    simp [sentMessages_append, sentMessages, transferRecord]

set_option maxRecDepth 4096 in
/-- C6 (witness): `song.mp3` exists with content `abc`, whose CRC-32 is
`352441C2`, and the sixth field of the command is that text. -/
theorem existing_file_checksum_match_witness :
    sentMessages (performTransfer sampleEnv
        (setTokens (splitOn '\t' matchingLine) existingFileWorld)).trace
      = sentMessages (setTokens (splitOn '\t' matchingLine) existingFileWorld).trace
          ++ ["1\t2\n".toList]
      ∧ (performTransfer sampleEnv
          (setTokens (splitOn '\t' matchingLine) existingFileWorld)).audio.files
          = mapInsert (setTokens (splitOn '\t' matchingLine) existingFileWorld).audio.files 7
              ((setTokens (splitOn '\t' matchingLine) existingFileWorld).net.commandTokens.getD 3 [])
      ∧ (performTransfer sampleEnv
          (setTokens (splitOn '\t' matchingLine) existingFileWorld)).net.file = none
      ∧ (performTransfer sampleEnv
          (setTokens (splitOn '\t' matchingLine) existingFileWorld)).net.readOps
          = (setTokens (splitOn '\t' matchingLine) existingFileWorld).net.readOps
      ∧ (performTransfer sampleEnv
          (setTokens (splitOn '\t' matchingLine) existingFileWorld)).fs
          = (setTokens (splitOn '\t' matchingLine) existingFileWorld).fs :=
  existing_file_checksum_match sampleEnv (setTokens (splitOn '\t' matchingLine) existingFileWorld)
    true 7 3 "abc".toList (by decide) (by decide) (by decide) (by decide) (by decide)
    (by decide) (by decide) (by decide) (by decide)

/-! ## C7: the bytes of a local upload -/

/-- C7 (counterexample): the sample upload declares five bytes; a first chunk
of eight bytes is written whole, so eight bytes are in the destination file
when the transfer completes and the file is registered. -/
theorem overlong_chunk_written_whole :
    uploadingWorld.net.file = some uploadingFile ∧ uploadingFile.size = 5 ∧
    (step sampleEnv uploadingWorld (Event.received overlongChunk)).map
      (fun w => (w.fs.read uploadingFile.path).map List.length) = some (some 8) ∧
    (step sampleEnv uploadingWorld (Event.received overlongChunk)).map
      (fun w => w.net.file) = some none ∧
    (step sampleEnv uploadingWorld (Event.received overlongChunk)).map
      (fun w => w.audio.files) = some [((7 : Int), "song.mp3".toList)] := by
  decide

/-- C7 (amended): for a local upload declared with size `N` whose destination
was just opened empty, let non-empty chunks `cs` be delivered to
`handleReadFile`, one per file read. While the transfer is still active
afterwards, all chunks were written whole, their total is below `N` (or no
chunk has arrived yet), no file was registered and the read armed is a file
read. When the transfer has ended, it ended with the last chunk `c`, the chunks
`cs0` before it being none or totalling fewer than `N` bytes, and the read
armed next is a command read; if the buffer then reads as the cancel token, `c`
was not written and nothing was registered; otherwise all chunks were written
whole, their total is at least `N` (more than `N` when `c` is longer than what
was missing), and `(id, name)` was inserted in the audio file table. -/
theorem upload_chunks (env : Env) (w : World) (f : File) (cs : List Str) (w1 : World)
    (hfile : w.net.file = some f) (hpos : f.handle.pos = 0)
    (hops : w.net.readOps = [ReadKind.file])
    (hdest : w.fs.read f.path = some [])
    (hne : ∀ c ∈ cs, c ≠ [])
    (hrun : deliverChunks env w cs = some w1) :
    (∀ f1, w1.net.file = some f1 →
        f1 = fileAfter f cs ∧ (cs = [] ∨ totalLength cs < f.size) ∧
        w1.fs.read f.path = some cs.flatten ∧ w1.net.readOps = [ReadKind.file] ∧
        w1.audio.files = w.audio.files) ∧
    (w1.net.file = none →
        ∃ cs0 c, cs = cs0 ++ [c] ∧ (cs0 = [] ∨ totalLength cs0 < f.size) ∧
          w1.net.readOps = [ReadKind.command] ∧
          if cString (lastBuffer f.buffer cs) = cancelToken then
            w1.fs.read f.path = some cs0.flatten ∧ w1.audio.files = w.audio.files
          else
            f.size ≤ totalLength cs ∧ w1.fs.read f.path = some cs.flatten ∧
            w1.audio.files = mapInsert w.audio.files f.id f.name) := by
  induction cs using List.reverseRecOn generalizing w1 with
  | nil =>
    simp only [deliverChunks, Option.some.injEq] at hrun
    subst hrun
    constructor
    · intro f1 h1
      rw [hfile] at h1
      cases h1
      exact ⟨(fileAfter_nil f).symm, Or.inl rfl, by simpa using hdest, hops, rfl⟩
    · intro h
      rw [hfile] at h
      cases h
  | append_singleton cs0 c ih =>
    rw [deliverChunks_append] at hrun
    cases h0 : deliverChunks env w cs0 with
    | none => simp [h0] at hrun
    | some w0 =>
      rw [h0, Option.some_bind] at hrun
      simp only [deliverChunks] at hrun
      have hne0 : ∀ d ∈ cs0, d ≠ [] := fun d hd => hne d (List.mem_append_left _ hd)
      have hc : c ≠ [] := hne c (by simp)
      obtain ⟨ihA, -⟩ := ih w0 hne0 h0
      split at hrun
      next hcond =>
        cases hf0 : w0.net.file with
        | none => simp [hf0] at hcond
        | some f0 =>
          obtain ⟨e1, e2, e3, e4, e5⟩ := ihA f0 hf0
          cases hst : step env w0 (Event.received c) with
          | none => simp [hst] at hrun
          | some w2 =>
            simp only [hst, Option.some.injEq] at hrun
            subst hrun
            have hone := deliver_one env w0 w2 f0 c hf0 e4 hc hst
            have hbuf : lastBuffer f.buffer (cs0 ++ [c]) = overwrite c f0.buffer := by
              rw [e1]
              simp [lastBuffer, fileAfter]
            have hid : f0.id = f.id ∧ f0.name = f.name ∧ f0.path = f.path ∧ f0.size = f.size ∧
                f0.handle.pos = totalLength cs0 := by
              rw [e1]
              simp [fileAfter, hpos]
            obtain ⟨i1, i2, i3, i4, i5⟩ := hid
            rw [hbuf]
            by_cases hcancel : cString (overwrite c f0.buffer) = cancelToken
            · simp only [hcancel, if_true] at hone ⊢
              obtain ⟨o1, o2, o3, o4⟩ := hone
              constructor
              · intro f1 h1
                rw [o1] at h1
                cases h1
              · intro _
                exact ⟨cs0, c, rfl, e2, o4, by rw [o2]; exact e3, by rw [o3]; exact e5⟩
            · simp only [hcancel, if_false] at hone ⊢
              by_cases hdone : f0.size ≤ f0.handle.pos + c.length
              · simp only [hdone, if_true] at hone
                obtain ⟨o1, o2, o3, o4⟩ := hone
                constructor
                · intro f1 h1
                  rw [o1] at h1
                  cases h1
                · intro _
                  refine ⟨cs0, c, rfl, e2, o4, ?_, ?_, ?_⟩
                  · rw [totalLength_snoc, ← i4, ← i5]
                    exact hdone
                  · rw [o2, i3, FileSys.read_append, e3]
                    simp
                  · rw [o3, e5, i1, i2]
              · simp only [hdone, if_false] at hone
                obtain ⟨o1, o2, o3, o4⟩ := hone
                constructor
                · intro f1 h1
                  rw [o1] at h1
                  cases h1
                  refine ⟨?_, Or.inr ?_, ?_, o4, ?_⟩
                  · rw [fileAfter_snoc, ← e1]
                  · rw [totalLength_snoc, ← i4, ← i5]
                    omega
                  · rw [o2, i3, FileSys.read_append, e3]
                    simp
                  · rw [o3, e5]
                · intro h
                  rw [o1] at h
                  cases h
      next hcond => cases hrun

/-- C7 (witness): the sample upload of five bytes receives a chunk of two and
a chunk of three bytes. -/
theorem upload_chunks_witness :
    (∀ f1, exactChunksEnd.net.file = some f1 →
        f1 = fileAfter uploadingFile exactChunks ∧
        (exactChunks = [] ∨ totalLength exactChunks < uploadingFile.size) ∧
        exactChunksEnd.fs.read uploadingFile.path = some exactChunks.flatten ∧
        exactChunksEnd.net.readOps = [ReadKind.file] ∧
        exactChunksEnd.audio.files = uploadingWorld.audio.files) ∧
    (exactChunksEnd.net.file = none →
        ∃ cs0 c, exactChunks = cs0 ++ [c] ∧ (cs0 = [] ∨ totalLength cs0 < uploadingFile.size) ∧
          exactChunksEnd.net.readOps = [ReadKind.command] ∧
          if cString (lastBuffer uploadingFile.buffer exactChunks) = cancelToken then
            exactChunksEnd.fs.read uploadingFile.path = some cs0.flatten ∧
            exactChunksEnd.audio.files = uploadingWorld.audio.files
          else
            uploadingFile.size ≤ totalLength exactChunks ∧
            exactChunksEnd.fs.read uploadingFile.path = some exactChunks.flatten ∧
            exactChunksEnd.audio.files
              = mapInsert uploadingWorld.audio.files uploadingFile.id uploadingFile.name) :=
  upload_chunks sampleEnv uploadingWorld uploadingFile exactChunks exactChunksEnd
    (by decide) (by decide) (by decide) (by decide) (by decide) (by decide)

/-! ## C8: a failed read during an upload -/

/-- C8: while a transfer is active (in particular a local upload with fewer
bytes written than declared), a socket read that completes with an error, or
without error and with zero bytes, makes `handleReadFile` pass exactly one
message to `sendAsync`, `Transfer/Error` (`"1\t3\n"`), clear the active
transfer and leave the audio file table as it was. -/
theorem upload_read_error (w : World) (f : File) (n : Nat)
    (hfile : w.net.file = some f) :
    (sentMessages (handleReadFile true n w).trace = sentMessages w.trace ++ ["1\t3\n".toList]
      ∧ (handleReadFile true n w).net.file = none
      ∧ (handleReadFile true n w).audio.files = w.audio.files)
    ∧ (sentMessages (handleReadFile false 0 w).trace = sentMessages w.trace ++ ["1\t3\n".toList]
      ∧ (handleReadFile false 0 w).net.file = none
      ∧ (handleReadFile false 0 w).audio.files = w.audio.files) := by
  have hrep : transferReply Client.Error = "1\t3\n".toList := by decide
  rw [← hrep]
  unfold handleReadFile
  simp only [hfile]
  constructor <;> (
    simp
    split <;> simp [sentMessages_append, sentMessages])

/-- C8 (witness): the sample upload of five bytes, none written yet. -/
theorem upload_read_error_witness :
    uploadingFile.handle.pos < uploadingFile.size ∧
    (sentMessages (handleReadFile true 0 uploadingWorld).trace
        = sentMessages uploadingWorld.trace ++ ["1\t3\n".toList]
      ∧ (handleReadFile true 0 uploadingWorld).net.file = none
      ∧ (handleReadFile true 0 uploadingWorld).audio.files = uploadingWorld.audio.files)
    ∧ (sentMessages (handleReadFile false 0 uploadingWorld).trace
        = sentMessages uploadingWorld.trace ++ ["1\t3\n".toList]
      ∧ (handleReadFile false 0 uploadingWorld).net.file = none
      ∧ (handleReadFile false 0 uploadingWorld).audio.files = uploadingWorld.audio.files) :=
  ⟨by decide, upload_read_error uploadingWorld uploadingFile 0 (by decide)⟩

/-! ## C9: connect attempts per endpoint -/

/-- C9: with `connectAttempts = n ≥ 1` and nothing connected, after a
successful resolve to the endpoints `eps` let every connect attempt fail
(refused, or aborted by the connect timeout), each attempt possibly preceded by
firings of the connect timer while the game window is closed. Then the run is
possible and what it adds to the trace is, attempt by attempt, the schedule
`n` attempts against the first endpoint, then `n` against the second, and so
on: for each attempt the log line carrying endpoint and attempt counter, the
`async_connect` to that endpoint and the log line of the failure. The counter
is between `1` and `n` at every attempt. -/
theorem connect_attempts_round_robin (env : Env) (w : World) (eps : Iter)
    (modes : List (Nat × Bool))
    (hn : 1 ≤ w.program.settings.connectAttempts)
    (hres : w.net.resolveOp = true) (hconn : w.net.connected = false)
    (hlen : modes.length ≤ w.program.settings.connectAttempts * eps.length) :
    (∃ w1, run env w (Event.resolved (some eps) :: failedAttempts modes) = some w1 ∧
      w1.trace = w.trace ++ scheduleTrace w.program.settings.connectAttempts
        (schedule w.program.settings.connectAttempts eps) modes) ∧
    ∀ p ∈ schedule w.program.settings.connectAttempts eps,
      1 ≤ p.2 ∧ p.2 ≤ w.program.settings.connectAttempts := by
  constructor
  · obtain ⟨w0, hstep, htr0, hb, -, -, -⟩ := resolved_between env w eps hn hres hconn
    have hlen0 : modes.length
        ≤ (scheduleFrom w.program.settings.connectAttempts 1 eps).length := by
      rw [scheduleFrom_one, schedule_length]
      exact hlen
    obtain ⟨w1, a1, it1, hrun, htr, -, -, -, -⟩ :=
      failedAttempts_run env _ modes w0 1 eps hb hlen0
    refine ⟨w1, ?_, ?_⟩
    · simp only [run, hstep]
      exact hrun
    · rw [htr, htr0, scheduleFrom_one]
  · intro p hp
    simp only [schedule, List.mem_flatMap, List.mem_map, List.mem_range] at hp
    obtain ⟨e, -, k, hk, rfl⟩ := hp
    exact ⟨Nat.le_add_left 1 k, hk⟩

/-- C9 (witness): one attempt per endpoint, two endpoints; the first attempt
comes after three idle firings and times out, the second is refused. -/
theorem connect_attempts_round_robin_witness :
    (∃ w1, run sampleEnv (resolvingWorld singleAttemptProgram)
        (Event.resolved (some sampleEndpoints) :: failedAttempts sampleModes) = some w1 ∧
      w1.trace = (resolvingWorld singleAttemptProgram).trace ++
        scheduleTrace (resolvingWorld singleAttemptProgram).program.settings.connectAttempts
          (schedule (resolvingWorld singleAttemptProgram).program.settings.connectAttempts
            sampleEndpoints) sampleModes) ∧
    ∀ p ∈ schedule (resolvingWorld singleAttemptProgram).program.settings.connectAttempts
        sampleEndpoints,
      1 ≤ p.2 ∧ p.2 ≤ (resolvingWorld singleAttemptProgram).program.settings.connectAttempts :=
  connect_attempts_round_robin sampleEnv (resolvingWorld singleAttemptProgram) sampleEndpoints
    sampleModes (by decide) (by decide) (by decide) (by decide)

/-! ## C10: after the last endpoint -/

/-- C10 (counterexample): with one attempt per endpoint and two endpoints, once
both attempts have failed and the connect timer has fired again, `connecting`
is still true, the main timer is no longer armed and no main-timer tick can be
delivered. -/
theorem exhausted_endpoints_machine_stopped :
    (run sampleEnv (resolvingWorld singleAttemptProgram)
        (Event.resolved (some sampleEndpoints) :: failedAttempts sampleModes
          ++ [Event.connectTimerFired])).map
      (fun w => (w.net.connected, w.net.connecting, w.net.mainTimer,
        step sampleEnv w Event.mainTick)) = some (false, true, false, none) := by
  decide

/-- C10 (amended): after connect attempts have failed against every resolved
endpoint (`n` attempts each), the connect timer fires with the end iterator and
the machine stops: `connected` is false, `connecting` keeps the value true it
had since the resolve was started, no resolve is outstanding, the connect timer
is not armed, the main timer has been cancelled so that no main-timer tick is
delivered any more, and nothing beyond the attempts was added to the trace (no
new resolve). -/
theorem exhausted_endpoints_stop (env : Env) (w : World) (eps : Iter)
    (modes : List (Nat × Bool))
    (hn : 1 ≤ w.program.settings.connectAttempts)
    (hres : w.net.resolveOp = true)
    (hconn : w.net.connected = false) (hcing : w.net.connecting = true)
    (hfull : modes.length = w.program.settings.connectAttempts * eps.length) :
    ∃ w1, run env w (Event.resolved (some eps) :: failedAttempts modes
        ++ [Event.connectTimerFired]) = some w1 ∧
      w1.net.connected = false ∧ w1.net.connecting = true ∧ w1.net.mainTimer = false ∧
      w1.net.resolveOp = false ∧ w1.net.connectTimer = none ∧
      step env w1 Event.mainTick = none ∧
      w1.trace = w.trace ++ scheduleTrace w.program.settings.connectAttempts
        (schedule w.program.settings.connectAttempts eps) modes := by
  obtain ⟨w0, hstep, htr0, hb, hc0, -, -⟩ := resolved_between env w eps hn hres hconn
  have hlen0 : modes.length
      ≤ (scheduleFrom w.program.settings.connectAttempts 1 eps).length := by
    rw [scheduleFrom_one, schedule_length]
    exact Nat.le_of_eq hfull
  obtain ⟨w1, a1, it1, hrun, htr, hb1, hd, hc1, -⟩ :=
    failedAttempts_run env _ modes w0 1 eps hb hlen0
  have hnil : it1 = [] := by
    have hz : (scheduleFrom w.program.settings.connectAttempts a1 it1).length = 0 := by
      rw [hd, scheduleFrom_one, List.length_drop, schedule_length, hfull]
      exact Nat.sub_self _
    cases it1 with
    | nil => rfl
    | cons e rest =>
      rw [scheduleFrom_step _ a1 e rest hb1.2.2.2.1] at hz
      simp at hz
  subst hnil
  obtain ⟨g1, g2, g3, g4, g5, g6, g8⟩ := hb1
  have hfinal : step env w1 Event.connectTimerFired
      = some (handleConnectTimer [] { w1 with net := { w1.net with connectTimer := none } }) := by
    simp only [step, g1]
  refine ⟨handleConnectTimer [] { w1 with net := { w1.net with connectTimer := none } },
    ?_, ?_⟩
  · rw [List.cons_append, run, hstep]
    simp only [run_append, hrun, run]
    show (match step env w1 Event.connectTimerFired with
      | some w1 => some w1
      | none => none) = _
    rw [hfinal]
  · have hcc : w1.net.connecting = true := by rw [hc1, hc0, hcing]
    by_cases hs : w1.net.socketOpen = true <;>
      simp [handleConnectTimer, stopAsync, stopMainTimer, stopTimeoutTimer, stopConnectTimer,
        step, hs, g5, g6, hcc, htr, htr0, scheduleFrom_one]

/-- C10 (witness): one attempt per endpoint, two endpoints, both failing. -/
theorem exhausted_endpoints_stop_witness :
    ∃ w1, run sampleEnv (resolvingWorld singleAttemptProgram)
        (Event.resolved (some sampleEndpoints) :: failedAttempts sampleModes
          ++ [Event.connectTimerFired]) = some w1 ∧
      w1.net.connected = false ∧ w1.net.connecting = true ∧ w1.net.mainTimer = false ∧
      w1.net.resolveOp = false ∧ w1.net.connectTimer = none ∧
      step sampleEnv w1 Event.mainTick = none ∧
      w1.trace = (resolvingWorld singleAttemptProgram).trace ++
        scheduleTrace (resolvingWorld singleAttemptProgram).program.settings.connectAttempts
          (schedule (resolvingWorld singleAttemptProgram).program.settings.connectAttempts
            sampleEndpoints) sampleModes :=
  exhausted_endpoints_stop sampleEnv (resolvingWorld singleAttemptProgram) sampleEndpoints
    sampleModes (by decide) (by decide) (by decide) (by decide) (by decide)

/-! ## C11: the empty line -/

/-- C11: for the empty line `parseBuffer` does what `sendAsync("\n")` does and
nothing else: the one message `"\n"` is handed to the outbound queue, the
stored command tokens, the transfer, the connection flags, the audio tables,
the file system and the program state are unchanged and the only new effects
are those of `sendAsync`. A received chunk made of the single byte `"\n"` is
framed as exactly one line, the empty one, so `handleRead` makes exactly one
call of `parseBuffer`, with the empty line. -/
theorem empty_line_acknowledged (env : Env) (w : World) :
    parseBuffer env [] w = sendAsync ['\n'] w ∧
    sentMessages (parseBuffer env [] w).trace = sentMessages w.trace ++ [['\n']] ∧
    (∀ e ∈ (parseBuffer env [] w).trace,
      e ∈ w.trace ∨ e = Effect.send ['\n'] ∨ e = Effect.asyncWrite ['\n']) ∧
    (parseBuffer env [] w).net.commandTokens = w.net.commandTokens ∧
    (parseBuffer env [] w).net.file = w.net.file ∧
    (parseBuffer env [] w).net.connected = w.net.connected ∧
    (parseBuffer env [] w).net.authenticated = w.net.authenticated ∧
    (parseBuffer env [] w).audio = w.audio ∧
    (parseBuffer env [] w).program = w.program ∧
    (parseBuffer env [] w).fs = w.fs ∧
    (parseBuffer env [] w).game = w.game ∧
    framedLines (readBuffer (withReceived ['\n'] w).net.receivedData 1) = [[]] ∧
    handleRead env false 1 (withReceived ['\n'] w)
      = finishRead (parseBuffer env [] (setMessageTokens [[]] (withReceived ['\n'] w))) := by
  have hp : parseBuffer env [] w = sendAsync ['\n'] w := by simp [parseBuffer]
  have hb : readBuffer (withReceived ['\n'] w).net.receivedData 1 = ['\n'] :=
    readBuffer_overwrite ['\n'] w.net.receivedData (by decide)
  have hf : framedLines ['\n'] = [[]] := by decide
  have hs : splitOn '\n' (eraseLast '\n' ['\n']) = [[]] := by decide
  refine ⟨hp, ?_, ?_, ?_, ?_, ?_, ?_, ?_, ?_, ?_, ?_, ?_, ?_⟩
  · rw [hp]; exact (sendAsync_proj w ['\n']).2.2.2.2.2.2.2.2.2.2.2.2
  · rw [hp]
    intro e he
    unfold sendAsync at he
    by_cases h : w.net.writeInProgress = true <;>
      simp [World.emit, h] at he <;> tauto
  · rw [hp]; exact (sendAsync_proj w ['\n']).2.2.2.2.2.2.1
  · rw [hp]; exact (sendAsync_proj w ['\n']).2.2.2.2.2.1
  · rw [hp]; exact (sendAsync_proj w ['\n']).2.2.2.2.2.2.2.2.2.1
  · rw [hp]; exact (sendAsync_proj w ['\n']).2.2.2.2.2.2.2.2.2.2.1
  · rw [hp]; exact (sendAsync_proj w ['\n']).2.1
  · rw [hp]; exact (sendAsync_proj w ['\n']).1
  · rw [hp]; exact (sendAsync_proj w ['\n']).2.2.2.1
  · rw [hp]; exact (sendAsync_proj w ['\n']).2.2.1
  · rw [hb, hf]
  · rw [handleRead_lines, hb, hf, hs]
    rfl

/-! ## C12: the idle timeout -/

/-- C12: in a state the reactor has reached, with the main timer armed, the
session connected and more than `networkTimeout` milliseconds on the 32-bit
tick counter since `lastCommunication`, the main-timer tick closes the
connection: `connected` and `authenticated` are false and the socket is
closed, `freeMemory` has run (its BASS stop call follows the log line
`Disconnected from server`, the file and stream tables are empty), no
transfer is active, the outbound queue is empty with no write marked in
progress and the download directory is cleared. Whenever the main timer fires
again with the game session started, whatever the tick count and the window
flag, a new resolve is started. -/
theorem idle_timeout_disconnects (env : Env) (w : World) (hreach : Reachable env w)
    (hmain : w.net.mainTimer = true) (hconn : w.net.connected = true)
    (helapsed : (w.tick + 4294967296 - w.net.lastCommunication) % 4294967296
      > w.program.settings.networkTimeout) :
    ∃ w1, step env w Event.mainTick = some w1 ∧
      w1.net.connected = false ∧ w1.net.authenticated = false ∧ w1.net.socketOpen = false ∧
      w1.audio = { files := [], streams := [], stopped := true } ∧
      w1.trace = w.trace ++ [Effect.logText "Disconnected from server".toList,
          Effect.bass BassCall.stop] ++
        (if w.net.resolveOp then
          [Effect.logText "Error resolving server address: Operation aborted".toList]
         else []) ∧
      w1.net.file = none ∧ w1.net.pendingMessages = [] ∧ w1.net.writeInProgress = false ∧
      w1.program.downloadPath = [] ∧
      ∀ (gameOpen : Bool) (tick : Nat), ∃ w2,
        step env { w1 with game := { gameOpen := gameOpen, started := true }, tick := tick }
          Event.mainTick = some w2 ∧
        w2.net.resolveOp = true ∧ w2.net.connecting = true ∧ w2.net.connected = false ∧
        w2.trace = w1.trace ++ [Effect.asyncResolve w.program.address w.program.port] := by
  obtain ⟨hopen, hcing⟩ := (reachable_sound env w hreach).1 hconn
  cases hr : w.net.resolveOp
  · refine ⟨handleMainTimer { w with net := { w.net with mainTimer := false } },
      by simp only [step, hmain, ↓reduceIte], ?_⟩
    simp [handleMainTimer, closeConnection, stopAsync, freeMemory, startMainTimer, startAsync,
      stopTimeoutTimer, stopConnectTimer, step, hconn, hopen, hcing, hr, helapsed]
  · refine ⟨handleMainTimer { w with net := { w.net with mainTimer := false } },
      by simp only [step, hmain, ↓reduceIte], ?_⟩
    simp [handleMainTimer, closeConnection, stopAsync, freeMemory, startMainTimer, startAsync,
      stopTimeoutTimer, stopConnectTimer, step, hconn, hopen, hcing, hr, helapsed]


/-- C12 (witness): the session reached by `connectEvents`, thirty seconds
after the connect. -/
theorem idle_timeout_disconnects_witness :
    ∃ w1, step sampleEnv idleSession Event.mainTick = some w1 ∧
      w1.net.connected = false ∧ w1.net.authenticated = false ∧ w1.net.socketOpen = false :=
  (idle_timeout_disconnects sampleEnv idleSession
    ⟨defaultProgram, emptyFs, 0, connectEvents, rfl⟩ (by decide) (by decide) (by decide)).imp
    (fun _ h => ⟨h.1, h.2.1, h.2.2.1, h.2.2.2.1⟩)

/-! ## C13: a Transfer command while a transfer is active -/

/-- C13 (counterexample): in the session with the upload of `song.mp3` (id 7)
active, the further valid Transfer line for `other.mp3` (id 8) is not
rejected: the record held afterwards is the one of `other.mp3`, a second
`Transfer/Local` reply is sent and a second file read is armed. The same
happens when both lines arrive in one chunk. -/
theorem second_transfer_replaces :
    uploadingWorld.net.file = some uploadingFile ∧
    (parseBuffer sampleEnv secondLine uploadingWorld).net.file ≠ uploadingWorld.net.file ∧
    (parseBuffer sampleEnv secondLine uploadingWorld).net.file.map
        (fun f => (f.id, f.name, f.size)) = some ((8 : Int), "other.mp3".toList, 9) ∧
    sentMessages (parseBuffer sampleEnv secondLine uploadingWorld).trace
      = ["1\t0\n".toList, "1\t0\n".toList] ∧
    (parseBuffer sampleEnv secondLine uploadingWorld).net.readOps
      = [ReadKind.file, ReadKind.file] ∧
    (step sampleEnv uploadReadyWorld (Event.received twoTransfers)).map
        (fun w => (w.net.file.map (fun f => f.id), sentMessages w.trace))
      = some (some (8 : Int), ["1\t0\n".toList, "1\t0\n".toList]) := by
  decide

/-- C13 (amended): a further six-field Transfer command received while a
transfer is active is not rejected. With a download directory configured
`performTransfer` first replaces the record by a fresh one, so the command is
handled exactly as if no transfer had been active and the earlier record is
lost; at most one record is held at any time. -/
theorem active_transfer_discarded (env : Env) (w : World)
    (hlen : w.net.commandTokens.length = 6) (hdir : w.program.downloadPath ≠ []) :
    performTransfer env w = performTransfer env (setFile none w) := by
  unfold performTransfer
  simp only [setFile_proj, hlen, hdir, ↓reduceIte, setFile_setFile]

/-- C13 (witness): the amended statement at the session with an upload
active and the tokens of the second Transfer line. -/
theorem active_transfer_discarded_witness :
    performTransfer sampleEnv (setTokens (splitOn '\t' secondLine) uploadingWorld)
      = performTransfer sampleEnv
          (setFile none (setTokens (splitOn '\t' secondLine) uploadingWorld)) :=
  active_transfer_discarded sampleEnv (setTokens (splitOn '\t' secondLine) uploadingWorld)
    (by decide) (by decide)

/-! ## C14: command lines while a local upload is active -/

/-- C15: a six-field Transfer command dispatched while no download directory
is configured, or whose file name (the fourth field, for a URL its part after
the last `/`) ends with none of the accepted extensions, is answered with the
one message `"1\t3\n"` (Transfer/Error) and nothing else is sent; the audio
tables are unchanged, so no file is registered, and no transfer is active
afterwards. `Sound` is the invariant of the connection state, which holds in
every state the reactor reaches and between the lines of a chunk
(`reachable_sound`, `dispatchLines_sound`): without a download directory no
transfer record is held. -/
theorem transfer_validation_gate (env : Env) (w : World) (hs : Sound w)
    (hlen : w.net.commandTokens.length = 6)
    (hbad : w.program.downloadPath = [] ∨
      w.program.acceptedFileExtensions.any (fun i => iends_with (transferName (tok w 3)) i)
        = false) :
    sentMessages (performTransfer env w).trace = sentMessages w.trace ++ ["1\t3\n".toList] ∧
    (performTransfer env w).audio = w.audio ∧
    (performTransfer env w).net.file = none := by
  have hrep : transferReply Client.Error = "1\t3\n".toList := by decide
  rw [← hrep]
  by_cases hdir : w.program.downloadPath = []
  · have hnone : w.net.file = none := by
      cases hf : w.net.file with
      | none => rfl
      | some f => exact absurd hdir (hs.2 (by simp [hf]))
    unfold performTransfer
    simp only [hlen, hdir, ↓reduceIte]
    simp [hnone, sentMessages_append, sentMessages]
  · have hext := hbad.resolve_left hdir
    unfold performTransfer
    simp only [hlen, hdir, ↓reduceIte, setFile_setFile]
    simp only [transferName, tok] at hext
    cases hb : lexicalCastBool (w.net.commandTokens.getD 1 []) <;>
      cases hi : lexicalCastInt (w.net.commandTokens.getD 2 []) <;>
      cases hz : lexicalCastSizeT (w.net.commandTokens.getD 4 []) <;>
      simp only []
    all_goals
      first
      | (simp [sentMessages_append, sentMessages]; done)
      | skip
    by_cases hrem : istarts_with (w.net.commandTokens.getD 3 []) "http://".toList = true
    · simp only [hrem, ↓reduceIte] at hext ⊢
      simp only [setFile_proj, hext, Bool.not_false, ↓reduceIte]
      simp [sentMessages_append, sentMessages]
    · simp only [hrem, ↓reduceIte] at hext ⊢
      simp only [setFile_proj, hext, Bool.not_false, ↓reduceIte]
      simp [sentMessages_append, sentMessages]

/-- C15 (witness): a Transfer line for `song.exe` at the sample session. -/
theorem transfer_validation_gate_witness :
    sentMessages (performTransfer sampleEnv
        (setTokens (splitOn '\t' "3\t1\t7\tsong.exe\t5\tA1B2C3D4".toList) uploadReadyWorld)).trace
      = sentMessages
          (setTokens (splitOn '\t' "3\t1\t7\tsong.exe\t5\tA1B2C3D4".toList)
            uploadReadyWorld).trace ++ ["1\t3\n".toList] ∧
    (performTransfer sampleEnv
        (setTokens (splitOn '\t' "3\t1\t7\tsong.exe\t5\tA1B2C3D4".toList) uploadReadyWorld)).audio
      = (setTokens (splitOn '\t' "3\t1\t7\tsong.exe\t5\tA1B2C3D4".toList)
          uploadReadyWorld).audio ∧
    (performTransfer sampleEnv
        (setTokens (splitOn '\t' "3\t1\t7\tsong.exe\t5\tA1B2C3D4".toList)
          uploadReadyWorld)).net.file = none :=
  transfer_validation_gate sampleEnv
    (setTokens (splitOn '\t' "3\t1\t7\tsong.exe\t5\tA1B2C3D4".toList) uploadReadyWorld)
    (by unfold Sound; decide) (by decide) (by decide)

/-! ## C16: transfers disabled -/

set_option maxRecDepth 4096 in
/-- C16 (counterexample): with transfers disabled and `song.mp3` present with
the declared checksum, the well-formed Transfer line `matchingLine` is
answered with `"1\t2\n"` (Transfer/Check), not with Transfer/Error, and the
file is registered under id 7. -/
theorem disabled_transfer_existing_file :
    disabledExistingWorld.program.settings.transferFiles = false ∧
    sentMessages (parseBuffer sampleEnv matchingLine disabledExistingWorld).trace
      = ["1\t2\n".toList] ∧
    (parseBuffer sampleEnv matchingLine disabledExistingWorld).audio.files
      = [((7 : Int), "song.mp3".toList)] ∧
    (parseBuffer sampleEnv matchingLine disabledExistingWorld).net.file = none := by
  decide

/-- C16 (amended): a six-field Transfer command with well-typed fields
dispatched while transfers are disabled leaves no transfer active and gets
exactly one reply. The reply is Transfer/Error (`"1\t3\n"`) and the audio
tables are unchanged, unless the command passes the test of the local file
(download directory configured, no URL, accepted extension, file present and,
when transferable, checksum field equal to the CRC-32 text): that test comes
before the test of the setting, and then the reply is Transfer/Check
(`"1\t2\n"`) and the file is registered under its id. `Sound` is the
invariant of the connection state (`reachable_sound`, `dispatchLines_sound`). -/
theorem transfer_disabled_reply (env : Env) (w : World) (transferable : Bool) (id : Int)
    (size : Nat) (hs : Sound w)
    (hlen : w.net.commandTokens.length = 6)
    (hb : lexicalCastBool (tok w 1) = some transferable)
    (hi : lexicalCastInt (tok w 2) = some id)
    (hz : lexicalCastSizeT (tok w 4) = some size)
    (hdis : w.program.settings.transferFiles = false) :
    (performTransfer env w).net.file = none ∧
    (passesLocalCheck w transferable = true →
      sentMessages (performTransfer env w).trace = sentMessages w.trace ++ ["1\t2\n".toList] ∧
      (performTransfer env w).audio
        = { w.audio with files := mapInsert w.audio.files id (tok w 3) }) ∧
    (passesLocalCheck w transferable = false →
      sentMessages (performTransfer env w).trace = sentMessages w.trace ++ ["1\t3\n".toList] ∧
      (performTransfer env w).audio = w.audio) := by
  have hrepE : transferReply Client.Error = "1\t3\n".toList := by decide
  have hrepC : transferReply Client.Check = "1\t2\n".toList := by decide
  rw [← hrepE, ← hrepC]
  simp only [tok] at hb hi hz
  by_cases hdir : w.program.downloadPath = []
  · have hnone : w.net.file = none := by
      cases hf : w.net.file with
      | none => rfl
      | some f => exact absurd hdir (hs.2 (by simp [hf]))
    have hp : passesLocalCheck w transferable = false := by
      simp [passesLocalCheck, hdir]
    unfold performTransfer
    simp only [hlen, hdir, ↓reduceIte, hp]
    simp [hnone, sentMessages_append, sentMessages]
  · unfold performTransfer
    simp only [hlen, hdir, ↓reduceIte, setFile_setFile, hb, hi, hz]
    have hd : ∀ f, (setFile f w).program.settings.transferFiles = false := fun _ => hdis
    by_cases hrem : istarts_with (w.net.commandTokens.getD 3 []) "http://".toList = true
    · have hp : passesLocalCheck w transferable = false := by
        simp only [passesLocalCheck, tok, hrem]
        simp
      simp only [hrem, ↓reduceIte, hp, setFile_proj]
      split
      · simp [sentMessages_append, sentMessages]
      · simp only [List.take_zero, List.any_nil, Bool.false_eq_true, ↓reduceIte, Bool.not_true]
        rw [performTransferStart_disabled env _ _ _ _ (hd _)]
        simp [sentMessages_append, sentMessages]
    · simp only [hrem, ↓reduceIte, setFile_proj, List.take_zero, List.any_nil,
        Bool.false_eq_true, Bool.not_false]
      cases hext : w.program.acceptedFileExtensions.any
          (fun i => iends_with (w.net.commandTokens.getD 3 []) i)
      · have hp : passesLocalCheck w transferable = false := by
          simp only [passesLocalCheck, tok, hext]
          simp
        simp only [hp, Bool.not_false, ↓reduceIte]
        simp [sentMessages_append, sentMessages]
      · simp only [Bool.not_true, Bool.false_eq_true, ↓reduceIte]
        unfold performTransferLocal
        simp only [setFile_proj]
        have hrem2 : istarts_with (w.net.commandTokens.getD 3 []) "http://".toList = false := by
          simpa using hrem
        cases hread : w.fs.read (w.program.downloadPath ++ '\\' :: w.net.commandTokens.getD 3 [])
        · have hp : passesLocalCheck w transferable = false := by
            simp only [passesLocalCheck, tok, hread]
            simp
          simp only [hp]
          cases transferable
          · simp [sentMessages_append, sentMessages]
          · simp only [Bool.not_true, Bool.false_eq_true, ↓reduceIte]
            rw [performTransferStart_disabled env _ _ _ _ (hd _)]
            simp [sentMessages_append, sentMessages]
        · rename_i content
          cases transferable
          · have hp : passesLocalCheck w false = true := by
              simp only [passesLocalCheck, tok, hread, hrem2, hext]
              simpa using hdir
            simp only [hp, Bool.false_eq_true, ↓reduceIte]
            simp [sentMessages_append, sentMessages, tok]
          · by_cases hcs : w.net.commandTokens.getD 5 [] = showHexUpper (crc32 content)
            · have hp : passesLocalCheck w true = true := by
                simp only [passesLocalCheck, tok, hread, hrem2, hext, hcs]
                simpa using hdir
              simp only [hp, hcs, ↓reduceIte]
              simp [sentMessages_append, sentMessages, tok]
            · have hp : passesLocalCheck w true = false := by
                simp only [passesLocalCheck, tok, hread, hrem2, hext, hcs]
                simp
              simp only [hp, hcs, ↓reduceIte]
              rw [performTransferStart_disabled env _ _ _ _ (hd _)]
              simp [sentMessages_append, sentMessages]

set_option maxRecDepth 4096 in
/-- C16 (witness): the amended statement at the session with transfers
disabled, `song.mp3` present and the tokens of `matchingLine`. -/
theorem transfer_disabled_reply_witness :
    (performTransfer sampleEnv
      (setTokens (splitOn '\t' matchingLine) disabledExistingWorld)).net.file = none ∧
    sentMessages (performTransfer sampleEnv
        (setTokens (splitOn '\t' matchingLine) disabledExistingWorld)).trace
      = sentMessages (setTokens (splitOn '\t' matchingLine) disabledExistingWorld).trace
          ++ ["1\t2\n".toList] :=
  ⟨(transfer_disabled_reply sampleEnv
      (setTokens (splitOn '\t' matchingLine) disabledExistingWorld) true 7 3
      (by unfold Sound; decide) (by decide) (by decide) (by decide) (by decide) (by decide)).1,
   ((transfer_disabled_reply sampleEnv
      (setTokens (splitOn '\t' matchingLine) disabledExistingWorld) true 7 3
      (by unfold Sound; decide) (by decide) (by decide) (by decide) (by decide) (by decide)).2.1
      (by decide)).1⟩

/-! ## C17: a chunk that does not end with a newline -/

/-- C17 (counterexample): for the chunk `1 a`, newline, `1 b` the framer
passes one line to `parseBuffer`, the complete line and the fragment joined
(`1`, `a1`, `b` once split at the tabs): the complete line is not passed
unchanged and the fragment is not dropped. For the chunk `1 b` with no newline
the fragment is passed to `parseBuffer` alone and the Message handler logs
it. -/
theorem trailing_fragment_merged :
    framedLines (readBuffer (withReceived fragmentChunk uploadReadyWorld).net.receivedData
        fragmentChunk.length) = ["1\ta1\tb".toList] ∧
    (step sampleEnv uploadReadyWorld (Event.received fragmentChunk)).map
        (fun w => w.net.commandTokens) = some ["1".toList, "a1".toList, "b".toList] ∧
    framedLines (readBuffer (withReceived fragmentOnly uploadReadyWorld).net.receivedData
        fragmentOnly.length) = [fragmentOnly] ∧
    (step sampleEnv uploadReadyWorld (Event.received fragmentOnly)).map
        (fun w => w.trace.head?) = some (some (Effect.logText "Message from server: b".toList)) := by
  decide

/-- C17 (amended): for a chunk without NUL character made of complete lines
followed by a fragment without newline, `handleRead` erases the last newline
of the chunk, so the fragment is joined to the last complete line and
dispatched with it; the complete lines before the last one are passed to
`parseBuffer` unchanged and in order. A chunk with no newline at all is passed
to `parseBuffer` as one line. Nothing is dropped. -/
theorem trailing_fragment_joined (env : Env) (w : World) (init : List Str) (last frag : Str)
    (hinit : ∀ l ∈ init, '\n' ∉ l) (hlast : '\n' ∉ last) (hfrag : '\n' ∉ frag)
    (hnul : nul ∉ joinLines (init ++ [last]) ++ frag) :
    handleRead env false (joinLines (init ++ [last]) ++ frag).length
        (withReceived (joinLines (init ++ [last]) ++ frag) w)
      = finishRead (dispatchLines env (init ++ [last ++ frag])
          (setMessageTokens (init ++ [last ++ frag])
            (withReceived (joinLines (init ++ [last]) ++ frag) w))) ∧
    handleRead env false frag.length (withReceived frag w)
      = finishRead (parseBuffer env frag (setMessageTokens [frag] (withReceived frag w))) := by
  refine ⟨handleRead_joined env w init last frag hinit hlast hfrag hnul, ?_⟩
  have hn : nul ∉ frag := fun h => hnul (List.mem_append_right _ h)
  have hb : readBuffer (withReceived frag w).net.receivedData frag.length = frag :=
    readBuffer_overwrite _ w.net.receivedData hn
  rw [handleRead_lines, hb, framedLines_not_mem _ hfrag, eraseLast_not_mem _ _ hfrag,
    splitOn_not_mem _ _ hfrag]
  rfl

/-- C17 (witness): the amended statement at the chunk `1 a`, newline, `1 b`. -/
theorem trailing_fragment_joined_witness :
    handleRead sampleEnv false (joinLines ([] ++ ["1\ta".toList]) ++ "1\tb".toList).length
        (withReceived (joinLines ([] ++ ["1\ta".toList]) ++ "1\tb".toList) uploadReadyWorld)
      = finishRead (dispatchLines sampleEnv ([] ++ ["1\ta".toList ++ "1\tb".toList])
          (setMessageTokens ([] ++ ["1\ta".toList ++ "1\tb".toList])
            (withReceived (joinLines ([] ++ ["1\ta".toList]) ++ "1\tb".toList)
              uploadReadyWorld))) ∧
    handleRead sampleEnv false "1\tb".toList.length (withReceived "1\tb".toList uploadReadyWorld)
      = finishRead (parseBuffer sampleEnv "1\tb".toList
          (setMessageTokens ["1\tb".toList] (withReceived "1\tb".toList uploadReadyWorld))) :=
  trailing_fragment_joined sampleEnv uploadReadyWorld [] "1\ta".toList "1\tb".toList
    (by decide) (by decide) (by decide) (by decide)

/-! ## C18: a chunk of complete lines -/

/-- C18 (counterexample): the chunk made of the one newline-terminated line
`nulLine`, which holds no newline but a NUL character, is not passed to
`parseBuffer` as that line: `receivedData` is read as a C string, which ends
at the NUL, and resized to the byte count, so the line passed is `1 a`
followed by three NUL characters. -/
theorem nul_line_truncated :
    '\n' ∉ nulLine ∧
    framedLines (readBuffer (withReceived (joinLines [nulLine]) uploadReadyWorld).net.receivedData
        (joinLines [nulLine]).length) = ["1\ta".toList ++ [nul, nul, nul]] ∧
    framedLines (readBuffer (withReceived (joinLines [nulLine]) uploadReadyWorld).net.receivedData
        (joinLines [nulLine]).length) ≠ [nulLine] ∧
    (step sampleEnv uploadReadyWorld (Event.received (joinLines [nulLine]))).map
        (fun w => w.net.commandTokens) = some ["1".toList, 'a' :: [nul, nul, nul]] := by
  decide

/-- C18 (amended): for a chunk that is the concatenation of one or more
newline-terminated lines, none of which holds a newline or a NUL character,
`handleRead` calls `parseBuffer` once per line, in order, and nothing else
before it finishes the read; `parseBuffer` stores for each line that is not
empty the fields between the tabs, empty fields included, as the command
tokens the handler works on, and a line with `k` tabs has `k + 1` fields. -/
theorem complete_lines_dispatched (env : Env) (w : World) (lines : List Str)
    (hne : lines ≠ []) (hnl : ∀ l ∈ lines, '\n' ∉ l) (hnul : ∀ l ∈ lines, nul ∉ l) :
    handleRead env false (joinLines lines).length (withReceived (joinLines lines) w)
      = finishRead (dispatchLines env lines
          (setMessageTokens lines (withReceived (joinLines lines) w))) ∧
    dispatchLines env lines = (fun w => lines.foldl (fun w l => parseBuffer env l w) w) ∧
    (∀ l ∈ lines, l ≠ [] → ∀ v : World,
      parseBuffer env l v
        = if (splitOn '\t' l).any (fun i => i = []) then setTokens (splitOn '\t' l) v
          else
            match lexicalCastInt ((splitOn '\t' l).getD 0 []) with
            | none => setTokens (splitOn '\t' l) v
            | some command => dispatch env command (setTokens (splitOn '\t' l) v)) ∧
    (∀ l ∈ lines, (splitOn '\t' l).length = l.count '\t' + 1) := by
  refine ⟨?_, rfl, fun l _ hl v => parseBuffer_fields env v l hl,
    fun l _ => splitOn_length '\t' l⟩
  have e : lines.dropLast ++ [lines.getLast hne] = lines := List.dropLast_append_getLast hne
  have h1 : ∀ l ∈ lines.dropLast, '\n' ∉ l := fun l hl => hnl l (List.mem_of_mem_dropLast hl)
  have h2 : '\n' ∉ lines.getLast hne := hnl _ (List.getLast_mem hne)
  have h3 : nul ∉ joinLines (lines.dropLast ++ [lines.getLast hne]) ++ [] := by
    rw [e, List.append_nil]
    exact nul_not_mem_joinLines lines hnul
  have := handleRead_joined env w lines.dropLast (lines.getLast hne) [] h1 h2 (by simp) h3
  simpa only [List.append_nil, e] using this

/-- C18 (witness): the amended statement at a chunk of two lines. -/
theorem complete_lines_dispatched_witness :
    handleRead sampleEnv false (joinLines ["1\ta".toList, "6\t\t2".toList]).length
        (withReceived (joinLines ["1\ta".toList, "6\t\t2".toList]) uploadReadyWorld)
      = finishRead (dispatchLines sampleEnv ["1\ta".toList, "6\t\t2".toList]
          (setMessageTokens ["1\ta".toList, "6\t\t2".toList]
            (withReceived (joinLines ["1\ta".toList, "6\t\t2".toList]) uploadReadyWorld))) ∧
    (splitOn '\t' "6\t\t2".toList).length = "6\t\t2".toList.count '\t' + 1 :=
  ⟨(complete_lines_dispatched sampleEnv uploadReadyWorld ["1\ta".toList, "6\t\t2".toList]
      (by decide) (by decide) (by decide)).1,
   (complete_lines_dispatched sampleEnv uploadReadyWorld ["1\ta".toList, "6\t\t2".toList]
      (by decide) (by decide) (by decide)).2.2.2 _ (by decide)⟩

/-! ## C19: an empty field -/

/-- C19: a line that is not empty and has at least one empty field between
its tabs (a leading tab, a trailing tab or two tabs in a row) is dropped
whatever its first field is: `parseBuffer` stores the fields as the command
tokens and returns, so no handler runs, the trace gains no effect (no message,
no log line, no collaborator call) and no other part of the state changes. -/
theorem empty_field_dropped (env : Env) (w : World) (buffer : Str)
    (hne : buffer ≠ []) (hempty : [] ∈ splitOn '\t' buffer) :
    parseBuffer env buffer w = setTokens (splitOn '\t' buffer) w ∧
    (parseBuffer env buffer w).trace = w.trace ∧
    (parseBuffer env buffer w).audio = w.audio ∧
    (parseBuffer env buffer w).program = w.program ∧
    (parseBuffer env buffer w).fs = w.fs ∧
    (parseBuffer env buffer w).game = w.game ∧
    (parseBuffer env buffer w).net = { w.net with commandTokens := splitOn '\t' buffer } := by
  have h : parseBuffer env buffer w = setTokens (splitOn '\t' buffer) w := by
    rw [parseBuffer_fields env w buffer hne]
    have : (splitOn '\t' buffer).any (fun i => decide (i = [])) = true := by
      simpa using hempty
    rw [if_pos this]
  rw [h]
  exact ⟨rfl, rfl, rfl, rfl, rfl, rfl, rfl⟩

/-- C19 (witness): the line `6`, tab, with an empty second field, at the
sample session. -/
theorem empty_field_dropped_witness :
    parseBuffer sampleEnv "6\t".toList uploadReadyWorld
        = setTokens (splitOn '\t' "6\t".toList) uploadReadyWorld ∧
    (parseBuffer sampleEnv "6\t".toList uploadReadyWorld).trace = uploadReadyWorld.trace :=
  ⟨(empty_field_dropped sampleEnv uploadReadyWorld "6\t".toList (by decide) (by decide)).1,
   (empty_field_dropped sampleEnv uploadReadyWorld "6\t".toList (by decide) (by decide)).2.1⟩

/-! ## C20: a typed field that fails to parse -/

/-- C20 (counterexample): the Transfer line `badFlagLine` has the six fields
a transfer needs and a transferable flag that is no boolean; the handler is
not silent, it hands the message `"1\t3\n"` (Transfer/Error) to the outbound
queue. -/
theorem bad_flag_transfer_replies :
    (splitOn '\t' badFlagLine).length ∈ requiredFieldCounts Server.Transfer ∧
    lexicalCastBool ((splitOn '\t' badFlagLine).getD 1 []) = none ∧
    typedFieldsParse sampleEnv Server.Transfer (splitOn '\t' badFlagLine) = false ∧
    sentMessages (parseBuffer sampleEnv badFlagLine uploadReadyWorld).trace
      = ["1\t3\n".toList] ∧
    sentMessages (parseBuffer sampleEnv badFlagLine uploadReadyWorld).trace ≠ [] := by
  decide

/-- C20 (amended): for a handled opcode, the field count its handler requires
and a field that fails to parse as the integer, number or boolean the handler
converts it to, the handler makes no Audio Engine and no Game State call. For
every opcode but Transfer the trace is unchanged, so no message is sent and
no log line written, and the state is unchanged, except that Set3DPosition
with an unparsable coordinate may edit the stream table (it clears the stored
position). The Transfer handler is not silent: it replies Transfer/Error
(`"1\t3\n"`), after the log line of the missing download directory when none
is configured, and otherwise drops the record it had just created. -/
theorem parse_failure_outcome (env : Env) (w : World) (command : Int)
    (hop : command ∈ handledOpcodes)
    (hcount : w.net.commandTokens.length ∈ requiredFieldCounts command)
    (hfail : typedFieldsParse env command w.net.commandTokens = false) :
    (command = Server.Transfer →
      dispatch env command w
        = (if w.program.downloadPath = [] then
            sendAsync (transferReply Client.Error)
              (logText ("Transfer of file \"".toList ++ tok w 3 ++
                "\" rejected (no download path specified)".toList) w)
          else setFile none (sendAsync (transferReply Client.Error)
            (setFile (some (File.new env)) w))) ∧
      sentMessages (dispatch env command w).trace = sentMessages w.trace ++ ["1\t3\n".toList] ∧
      (dispatch env command w).audio = w.audio ∧ (dispatch env command w).game = w.game) ∧
    (command ≠ Server.Transfer →
      (dispatch env command w).trace = w.trace ∧
      dispatch env command w = setStreams (dispatch env command w).audio.streams w ∧
      (command ≠ Server.Set3DPosition → dispatch env command w = w)) := by
  have same : ∀ (c : Int) (P : Prop), c ≠ Server.Transfer → dispatch env c w = w →
      (c = Server.Transfer → P) ∧ (c ≠ Server.Transfer →
      (dispatch env c w).trace = w.trace ∧
      dispatch env c w = setStreams (dispatch env c w).audio.streams w ∧
      (c ≠ Server.Set3DPosition → dispatch env c w = w)) :=
    fun c _ hc h => ⟨fun e => absurd e hc, fun _ => ⟨by rw [h], by rw [h]; rfl, fun _ => h⟩⟩
  simp only [handledOpcodes, List.mem_cons, List.mem_singleton, List.not_mem_nil, or_false] at hop
  rcases hop with rfl | rfl | rfl | rfl | rfl | rfl | rfl | rfl | rfl | rfl | rfl | rfl | rfl |
    rfl | rfl | rfl | rfl | rfl | rfl
  · exact Bool.noConfusion (show true = false from hfail)
  · exact Bool.noConfusion (show true = false from hfail)
  · exact Bool.noConfusion (show true = false from hfail)
  · have hlen : w.net.commandTokens.length = 6 := List.mem_singleton.mp hcount
    have h := performTransfer_fail env w hlen hfail
    have hd : dispatch env Server.Transfer w = performTransfer env w := dispatch_transfer env w
    refine ⟨fun _ => ?_, fun hne => absurd rfl hne⟩
    rw [hd, h]
    have hrep : transferReply Client.Error = "1\t3\n".toList := by decide
    rw [← hrep]
    refine ⟨rfl, ?_, ?_, ?_⟩ <;> split <;> simp [sentMessages_append, sentMessages]
  · exact same _ _ (by decide) ((dispatch_play env w).trans (performPlay_fail env w hfail))
  · have hd : dispatch env Server.PlaySequence w = performPlaySequence env w := rfl
    have hlen : w.net.commandTokens.length = 3 ∨ w.net.commandTokens.length = 7 := by
      simpa [requiredFieldCounts, Server.PlaySequence, Server.Connect] using hcount
    rcases hlen with hlen | hlen
    · refine same _ _ (by decide) (hd.trans (performPlaySequence_fail3 env w hlen ?_))
      simpa [typedFieldsParse, Server.PlaySequence, Server.Transfer, Server.Play, hlen, tok]
        using hfail
    · refine same _ _ (by decide) (hd.trans (performPlaySequence_fail7 env w hlen ?_))
      have hf := hfail
      simp only [typedFieldsParse, Server.PlaySequence, Server.Transfer, Server.Play, hlen] at hf
      exact hf
  · exact same _ _ (by decide) (Eq.trans rfl (performPause_fail env w hfail))
  · exact same _ _ (by decide) (Eq.trans rfl (performResume_fail env w hfail))
  · exact same _ _ (by decide) (Eq.trans rfl (performStop_fail w hfail))
  · exact same _ _ (by decide) (Eq.trans rfl (performRestart_fail env w hfail))
  · exact same _ _ (by decide) (Eq.trans rfl (performGetPosition_fail env w hfail))
  · exact same _ _ (by decide) (Eq.trans rfl (performSetPosition_fail w hfail))
  · exact same _ _ (by decide) (Eq.trans rfl (performSetVolume_fail env w hfail))
  · exact same _ _ (by decide) (Eq.trans rfl (performSetFX_fail env w hfail))
  · exact same _ _ (by decide) (Eq.trans rfl (performRemoveFX_fail w hfail))
  · have hd : dispatch env Server.Set3DPosition w = performSet3DPosition env w := rfl
    have h := performSet3DPosition_fail env w hfail
    refine ⟨fun e => absurd e (by decide), fun _ => ?_⟩
    rw [hd]
    exact ⟨h.1, h.2, fun hne => absurd rfl hne⟩
  · exact same _ _ (by decide) (Eq.trans rfl (performRemove3DPosition_fail w hfail))
  · exact same _ _ (by decide) (Eq.trans rfl (performSetRadioStation_fail w hfail))
  · exact Bool.noConfusion (show true = false from hfail)

/-- C20 (witness): the Play line of the scenario, whose pause flag is no
boolean, at the sample session. -/
theorem parse_failure_outcome_witness :
    dispatch sampleEnv Server.Play (setTokens (splitOn '\t' scenarioLine) uploadReadyWorld)
      = setTokens (splitOn '\t' scenarioLine) uploadReadyWorld :=
  ((parse_failure_outcome sampleEnv (setTokens (splitOn '\t' scenarioLine) uploadReadyWorld)
    Server.Play (by decide) (by decide) (by decide)).2 (by decide)).2.2 (by decide)

/-! ## C21: authenticated implies connected -/

/-- C21: in every state the reactor reaches from the state after construction,
through any sequence of events (timer ticks, resolve and connect results,
connect time-outs, completed and failed reads, write completions, stream
events, program stop), `authenticated = true` implies `connected = true`.
The reactor is the one of `step`: a read delivers data only while the socket
is open and its connect has completed; reads outstanding when the socket is
closed end with an error. -/
theorem authenticated_implies_connected (env : Env) (w : World) (hreach : Reachable env w)
    (hauth : w.net.authenticated = true) : w.net.connected = true := by
  obtain ⟨program, fs, tick, evs, hrun⟩ := hreach
  exact run_authentic env evs _ w (initialWorld_sound program fs tick)
    (fun h => (by cases h)) hrun hauth

/-- C21 (witness): the session in which the Connect command of the server has
been received is reachable and authenticated. -/
theorem authenticated_implies_connected_witness :
    authenticatedSession.net.authenticated = true ∧
    authenticatedSession.net.connected = true :=
  ⟨by decide, authenticated_implies_connected sampleEnv authenticatedSession
    ⟨defaultProgram, emptyFs, 0, authenticatedEvents, rfl⟩ (by decide)⟩

/-! ## C22: what refreshes the time stamp of the liveness check -/

/-- C22 (counterexample): the session is opened at tick 0, the write of the
Authenticate message completes successfully at tick 15000, which leaves
`lastCommunication` at 0, and the main timer fires at tick 25000: the
connection is closed although the last successful write lies 10000 ms back,
within the `networkTimeout` of 20000 ms. -/
theorem recent_write_session_closed :
    (run sampleEnv (initialWorld defaultProgram emptyFs 0) (writeThenIdle.take 7)).map
        (fun w => (w.net.connected, w.net.lastCommunication, w.tick, w.net.writeOps))
      = some (true, 0, 15000, []) ∧
    25000 - 15000 ≤ defaultProgram.settings.networkTimeout ∧
    (run sampleEnv (initialWorld defaultProgram emptyFs 0) writeThenIdle).map
        (fun w => w.net.connected) = some false := by
  decide

/-- C22 (amended): `lastCommunication` is not refreshed by the completion of a
write: `handleWrite` leaves it unchanged, so a connected session with more
than `networkTimeout` elapsed since `lastCommunication` is closed by the next
main-timer tick even directly after a successful write. The time stamp is set
to the tick count when the connect succeeds, at the end of every successful
command read unless a local upload is active then (in which case it is left
alone), and at the end of every file read handler while the socket is open. -/
theorem liveness_counts_reads_only (env : Env) (w : World)
    (hconn : w.net.connected = true) (hopen : w.net.socketOpen = true)
    (hmain : w.net.mainTimer = true) (hops : w.net.writeOps ≠ [])
    (helapsed : timeElapsed w > w.program.settings.networkTimeout) :
    (∃ w1 w2, step env w (Event.writeDone false) = some w1 ∧
      w1.net.lastCommunication = w.net.lastCommunication ∧
      step env w1 Event.mainTick = some w2 ∧ w2.net.connected = false) ∧
    (∀ (v : World) (error : Bool),
      (handleWrite error v).net.lastCommunication = v.net.lastCommunication) ∧
    (∀ (v : World) (n : Nat),
      (handleRead env false n v).net.lastCommunication = v.tick ∨
      ((∃ f, (handleRead env false n v).net.file = some f ∧ f.url = []) ∧
        (handleRead env false n v).net.lastCommunication = v.net.lastCommunication)) ∧
    (∀ (v : World) (error : Bool) (n : Nat), v.net.socketOpen = true →
      (handleReadFile error n v).net.lastCommunication = v.tick) ∧
    (∀ (v : World) (it : Iter), (handleConnect env false it v).net.lastCommunication = v.tick) := by
  have key : ∀ w1 : World, w1.net.lastCommunication = w.net.lastCommunication →
      w1.tick = w.tick → w1.program = w.program → w1.net.mainTimer = true →
      w1.net.connected = true → w1.net.socketOpen = true →
      ∃ w2, step env w1 Event.mainTick = some w2 ∧ w2.net.connected = false := by
    intro w1 h1 h2 h3 h4 h5 h6
    refine ⟨handleMainTimer { w1 with net := { w1.net with mainTimer := false } },
      by simp only [step, h4, ↓reduceIte], ?_⟩
    have hc : ({ w1 with net := { w1.net with mainTimer := false } } : World).net.connected
        = true := h5
    have he : timeElapsed { w1 with net := { w1.net with mainTimer := false } }
        = timeElapsed w := by
      unfold timeElapsed
      show (w1.tick + 4294967296 - w1.net.lastCommunication) % 4294967296 = _
      rw [h1, h2]
    have hp : ({ w1 with net := { w1.net with mainTimer := false } } : World).program
        = w.program := h3
    rw [handleMainTimer_connected _ hc, he, hp, if_pos helapsed]
    exact closeConnection_disconnects _ h6
  refine ⟨?_, fun v error => (handleWrite_proj error v).1, fun v n => handleRead_stamp env n v,
    fun v error n h => handleReadFile_stamp error n v h, fun v it => handleConnect_stamp env it v⟩
  rcases hw : w.net.writeOps with _ | ⟨m, rest⟩
  · exact absurd hw hops
  · obtain ⟨p1, p2, p3, p4, p5, p6, -⟩ :=
      handleWrite_proj false { w with net := { w.net with writeOps := rest } }
    obtain ⟨w2, hs2, hc2⟩ := key _ p1 p2 p3 (p4.trans hmain) (p5.trans hconn) (p6.trans hopen)
    refine ⟨handleWrite false { w with net := { w.net with writeOps := rest } }, w2, ?_, p1,
      hs2, hc2⟩
    simp only [step, hw, hopen, Bool.not_false, Bool.not_true, Bool.and_false,
      Bool.false_eq_true, ↓reduceIte]

/-- C22 (witness): the idle session, whose Authenticate message is still being
written thirty seconds after the connect. -/
theorem liveness_counts_reads_only_witness :
    ∃ w1 w2, step sampleEnv idleSession (Event.writeDone false) = some w1 ∧
      w1.net.lastCommunication = idleSession.net.lastCommunication ∧
      step sampleEnv w1 Event.mainTick = some w2 ∧ w2.net.connected = false :=
  (liveness_counts_reads_only sampleEnv idleSession (by decide) (by decide) (by decide)
    (by decide) (by decide)).1

/-! ## C23: the outcome of a local Transfer command -/

set_option maxRecDepth 4096 in
/-- C23 (counterexample): `song.mp3` exists at the destination with content
`c`, whose CRC-32 is 112844655, in hexadecimal 6B9DF6F. The six-field Transfer
line for it with the transferable flag set and the sixth field `06B9DF6F`,
which spells that number with eight digits, falls in the row "file exists,
transferable, checksum matches", yet the outcome is not Transfer/Check:
`performTransfer` sends Transfer/Local (`"1\t0\n"`), registers nothing, keeps
the transfer active and truncates the file at the destination. -/
theorem padded_checksum_row_uploads :
    shortFileWorld.fs.read ".\\audiopacks\\pack\\song.mp3".toList = some "c".toList ∧
    crc32 "c".toList = 112844655 ∧
    splitOn '\t' paddedLine
      = ["3".toList, "1".toList, "7".toList, "song.mp3".toList, "1".toList,
          "06B9DF6F".toList] ∧
    lexicalCastBool "1".toList = some true ∧
    hexValue "06B9DF6F".toList = some (crc32 "c".toList) ∧
    sentMessages (performTransfer sampleEnv
        (setTokens (splitOn '\t' paddedLine) shortFileWorld)).trace = ["1\t0\n".toList] ∧
    (performTransfer sampleEnv
        (setTokens (splitOn '\t' paddedLine) shortFileWorld)).audio.files = [] ∧
    (performTransfer sampleEnv
        (setTokens (splitOn '\t' paddedLine) shortFileWorld)).net.file.isSome = true ∧
    (performTransfer sampleEnv
        (setTokens (splitOn '\t' paddedLine) shortFileWorld)).fs.read
          ".\\audiopacks\\pack\\song.mp3".toList = some [] := by
  refine ⟨by decide, by decide, by decide, by decide, by decide, by decide, by decide,
    by decide, by decide⟩

/-- C23 (amended): for a six-field Transfer command that passes the validation
gate (download directory configured, well-typed fields, accepted extension) and
whose name is no URL, the outcome is decided by the file at the destination,
the transferable flag and the text of the sixth field. If the file exists and
the flag is false, whatever the sixth field, or the flag is true and the sixth
field is exactly the `%X` rendering of the file's CRC-32 (upper-case
hexadecimal digits, no leading zeros), exactly `"1\t2\n"` (Transfer/Check) is
sent, the file is registered under its id and no transfer is active. If the
file is missing and the flag is false, exactly `"1\t3\n"` (Transfer/Error) is
sent, nothing is registered and no transfer is active. Otherwise (flag true,
file missing or sixth field any other text, another spelling of the same
number included), with transfers enabled and the destination writable, exactly
`"1\t0\n"` (Transfer/Local) is sent, the destination is truncated, the
transfer is active with write position 0 and a file read is armed. -/
theorem transfer_outcome_table (env : Env) (w : World) (transferable : Bool) (id : Int)
    (size : Nat)
    (hlen : w.net.commandTokens.length = 6)
    (hdir : w.program.downloadPath ≠ [])
    (hb : lexicalCastBool (w.net.commandTokens.getD 1 []) = some transferable)
    (hi : lexicalCastInt (w.net.commandTokens.getD 2 []) = some id)
    (hs : lexicalCastSizeT (w.net.commandTokens.getD 4 []) = some size)
    (hurl : istarts_with (w.net.commandTokens.getD 3 []) "http://".toList = false)
    (hext : w.program.acceptedFileExtensions.any
      (fun i => iends_with (w.net.commandTokens.getD 3 []) i) = true) :
    (∀ content, w.fs.read (w.program.downloadPath ++ '\\' :: w.net.commandTokens.getD 3 [])
        = some content →
      transferable = false ∨ w.net.commandTokens.getD 5 [] = showHexUpper (crc32 content) →
      sentMessages (performTransfer env w).trace = sentMessages w.trace ++ ["1\t2\n".toList] ∧
      (performTransfer env w).audio.files
        = mapInsert w.audio.files id (w.net.commandTokens.getD 3 []) ∧
      (performTransfer env w).net.file = none) ∧
    (w.fs.read (w.program.downloadPath ++ '\\' :: w.net.commandTokens.getD 3 []) = none →
      transferable = false →
      sentMessages (performTransfer env w).trace = sentMessages w.trace ++ ["1\t3\n".toList] ∧
      (performTransfer env w).audio = w.audio ∧
      (performTransfer env w).net.file = none) ∧
    (transferable = true →
      (w.fs.read (w.program.downloadPath ++ '\\' :: w.net.commandTokens.getD 3 []) = none ∨
        ∃ content, w.fs.read (w.program.downloadPath ++ '\\' :: w.net.commandTokens.getD 3 [])
          = some content ∧ w.net.commandTokens.getD 5 [] ≠ showHexUpper (crc32 content)) →
      w.program.settings.transferFiles = true →
      w.fs.canWrite (w.program.downloadPath ++ '\\' :: w.net.commandTokens.getD 3 []) = true →
      sentMessages (performTransfer env w).trace = sentMessages w.trace ++ ["1\t0\n".toList] ∧
      (performTransfer env w).net.file
        = some { transferRecord env id size (w.net.commandTokens.getD 3 [])
                   w.program.downloadPath with handle := { isOpen := true, pos := 0 } } ∧
      (performTransfer env w).audio = w.audio ∧
      (performTransfer env w).fs
        = w.fs.truncate (w.program.downloadPath ++ '\\' :: w.net.commandTokens.getD 3 []) ∧
      (performTransfer env w).net.readOps = w.net.readOps ++ [ReadKind.file]) := by
  have hC : transferReply Client.Check = "1\t2\n".toList := by decide
  have hE : transferReply Client.Error = "1\t3\n".toList := by decide
  have hL : transferReply Client.Local = "1\t0\n".toList := by decide
  rw [← hC, ← hE, ← hL]
  rw [performTransfer_local env w transferable id size hlen hdir hb hi hs hurl hext]
  have hp : ∀ r, w.fs.read (w.program.downloadPath ++ '\\' :: w.net.commandTokens.getD 3 []) = r →
      (setFile (some (transferRecord env id size (w.net.commandTokens.getD 3 [])
      w.program.downloadPath)) w).fs.read (transferRecord env id size
        (w.net.commandTokens.getD 3 []) w.program.downloadPath).path = r := fun _ h => h
  refine ⟨?_, ?_, ?_⟩
  · intro content hfile hcase
    unfold performTransferLocal
    rw [hp _ hfile]
    rcases hcase with htr | hsum
    · subst htr
      simp [sentMessages_append, sentMessages, transferRecord]
    · cases transferable <;> simp only [hsum, ↓reduceIte, Bool.false_eq_true] <;>
        simp [sentMessages_append, sentMessages, transferRecord]
  · intro hfile htr
    subst htr
    unfold performTransferLocal
    rw [hp _ hfile]
    simp [sentMessages_append, sentMessages]
  · intro htr hcase hen hw
    subst htr
    have hstart := performTransferStart_upload env w.net.commandTokens
      (transferRecord env id size (w.net.commandTokens.getD 3 []) w.program.downloadPath)
      (setFile (some (transferRecord env id size (w.net.commandTokens.getD 3 [])
        w.program.downloadPath)) w) hen hw
    unfold performTransferLocal
    rcases hcase with hfile | ⟨content, hfile, hsum⟩
    · rw [hp _ hfile]
      simp only [Bool.not_true, Bool.false_eq_true, ↓reduceIte]
      exact hstart
    · rw [hp _ hfile]
      simp only [hsum, ↓reduceIte]
      exact hstart

/-- C23 (witness): the upload line at the sample session, where the file is
missing and the flag is set. -/
theorem transfer_outcome_table_witness :
    sentMessages (performTransfer sampleEnv
        (setTokens (splitOn '\t' uploadLine) uploadReadyWorld)).trace
      = sentMessages (setTokens (splitOn '\t' uploadLine) uploadReadyWorld).trace
          ++ ["1\t0\n".toList] :=
  ((transfer_outcome_table sampleEnv (setTokens (splitOn '\t' uploadLine) uploadReadyWorld)
    true 7 5 (by decide) (by decide) (by decide) (by decide) (by decide) (by decide)
    (by decide)).2.2 rfl (Or.inl (by decide)) (by decide) (by decide)).1

/-! ## C24: the opcodes of the dispatcher -/

/-- C24 (divergence): `Server::GetRadioStation` is the eighteenth enumerator,
value 17, and `network.h` declares `performGetRadioStation`, but the `switch`
of `parseBuffer` has no case for it: for opcode 17 the dispatcher runs no
handler and returns the state unchanged, and a 17 line only has its fields
stored. Each of the other nineteen opcodes is dispatched to its handler. -/
theorem get_radio_station_has_no_case (env : Env) (w : World) :
    Server.GetRadioStation = 17 ∧ Server.GetRadioStation ∉ handledOpcodes ∧
    dispatch env Server.GetRadioStation w = w ∧
    (parseBuffer sampleEnv "17\t1".toList uploadReadyWorld).trace = [] ∧
    (parseBuffer sampleEnv "17\t1".toList uploadReadyWorld).net.commandTokens
      = ["17".toList, "1".toList] ∧
    (parseBuffer sampleEnv "17".toList uploadReadyWorld).trace = [] ∧
    dispatch env Server.Connect w = performConnect w ∧
    dispatch env Server.Message w = performMessage w ∧
    dispatch env Server.Name w = performName w ∧
    dispatch env Server.Transfer w = performTransfer env w ∧
    dispatch env Server.Play w = performPlay env w ∧
    dispatch env Server.PlaySequence w = performPlaySequence env w ∧
    dispatch env Server.Pause w = performPause env w ∧
    dispatch env Server.Resume w = performResume env w ∧
    dispatch env Server.Stop w = performStop w ∧
    dispatch env Server.Restart w = performRestart env w ∧
    dispatch env Server.GetPosition w = performGetPosition env w ∧
    dispatch env Server.SetPosition w = performSetPosition w ∧
    dispatch env Server.SetVolume w = performSetVolume env w ∧
    dispatch env Server.SetFX w = performSetFX env w ∧
    dispatch env Server.RemoveFX w = performRemoveFX w ∧
    dispatch env Server.Set3DPosition w = performSet3DPosition env w ∧
    dispatch env Server.Remove3DPosition w = performRemove3DPosition w ∧
    dispatch env Server.SetRadioStation w = performSetRadioStation w ∧
    dispatch env Server.StopRadio w = performStopRadio w :=
  ⟨rfl, by decide, rfl, by decide, by decide, by decide, rfl, rfl, rfl, rfl, rfl, rfl, rfl, rfl,
    rfl, rfl, rfl, rfl, rfl, rfl, rfl, rfl, rfl, rfl, rfl⟩

/-! ## C25: asynchronous reads outstanding on the client socket -/

/-- C25 (failing run): a remote download that ends in `handleOpenStream` leaves
two command reads outstanding on the client socket. After the Transfer line
for `http://host/song.mp3` one command read is outstanding, the one
`handleRead` re-armed, and the stream open is pending. When the stream opens
with the content length of the file on disk (size check passed), and likewise
when the destination cannot be opened for writing, `handleOpenStream` arms a
further command read right after queueing its reply: the session is still
connected, no transfer is active and the outstanding reads are two command
reads. A chunk with two Transfer
lines leaves two file reads outstanding. -/
theorem remote_download_arms_second_read :
    (run sampleEnv (initialWorld defaultProgram songOnDisk 0)
        (authenticatedEvents ++ [Event.received (remoteLine ++ ['\n'])])).map
        (fun v => (v.net.streamOpenOp, v.net.readOps))
      = some (true, [ReadKind.command]) ∧
    (run sampleEnv (initialWorld defaultProgram songOnDisk 0) remoteDownloadEvents).map
        (fun v => (v.net.connected, v.net.socketOpen, v.net.file.isSome, v.net.readOps,
          v.trace.drop (v.trace.length - 2)))
      = some (true, true, false, [ReadKind.command, ReadKind.command],
          [Effect.send (transferReply Client.Check), Effect.asyncRead ReadKind.command]) ∧
    (run sampleEnv (initialWorld defaultProgram songReadOnly 0) remoteDownloadEvents).map
        (fun v => (v.net.connected, v.net.socketOpen, v.net.file.isSome, v.net.readOps,
          v.trace.drop (v.trace.length - 2)))
      = some (true, true, false, [ReadKind.command, ReadKind.command],
          [Effect.send (transferReply Client.Error), Effect.asyncRead ReadKind.command]) ∧
    (run sampleEnv (initialWorld defaultProgram emptyFs 0) twoTransferEvents).map
        (fun v => (v.net.connected, v.net.socketOpen, v.net.readOps))
      = some (true, true, [ReadKind.file, ReadKind.file]) := by
  refine ⟨by decide, by decide, by decide, by decide⟩

/-! ## C26: a Set3DPosition command with a bad coordinate -/

/-- C26 (counterexample): stream 7 has a stored 3D position; the six-field
Set3DPosition line for handle 7 whose x field is `x` leaves the stream without
a position: the stored one is removed. -/
theorem bad_coordinate_clears_position :
    (mapFind positionedWorld.audio.streams 7).map (fun s => s.position)
      = some (some samplePosition) ∧
    sampleEnv.lexicalCastFloat "x".toList = none ∧
    (mapFind (parseBuffer sampleEnv badCoordinateLine positionedWorld).audio.streams 7).map
        (fun s => s.position) = some none := by
  decide

/-- C26 (amended): for an existing stream and a six-field Set3DPosition
command for its handle in which x, y, z or the distance does not parse as a
number, the handler makes no BASS call and sends nothing, but the stream's
stored 3D position is removed: `performSet3DPosition` assigns a fresh position
before it converts the fields and resets it when a conversion fails. The rest
of the stream record and every other stream are unchanged. -/
theorem bad_coordinate_position_reset (env : Env) (w : World) (handleID : Int) (s : Stream)
    (hlen : w.net.commandTokens.length = 6)
    (hid : lexicalCastInt (tok w 1) = some handleID)
    (hfind : mapFind w.audio.streams handleID = some s)
    (hfail : ((env.lexicalCastFloat (tok w 2)).isSome && (env.lexicalCastFloat (tok w 3)).isSome &&
      (env.lexicalCastFloat (tok w 4)).isSome && (env.lexicalCastFloat (tok w 5)).isSome)
      = false) :
    performSet3DPosition env w
      = setStreams (mapSet w.audio.streams handleID { s with position := none }) w ∧
    (performSet3DPosition env w).trace = w.trace ∧
    mapFind (performSet3DPosition env w).audio.streams handleID
      = some { s with position := none } := by
  have h : performSet3DPosition env w
      = setStreams (mapSet w.audio.streams handleID { s with position := none }) w := by
    unfold performSet3DPosition
    simp only [hlen, ne_eq, not_true_eq_false, ↓reduceIte, hid, hfind]
    split
    · rename_i h2 h3 h4 h5
      simp [h2, h3, h4, h5] at hfail
    · rfl
  rw [h]
  exact ⟨rfl, rfl, mapFind_mapSet _ _ s _ hfind⟩

/-- C26 (witness): the amended statement at the session with a positioned
stream and the tokens of `badCoordinateLine`. -/
theorem bad_coordinate_position_reset_witness :
    mapFind (performSet3DPosition sampleEnv
        (setTokens (splitOn '\t' badCoordinateLine) positionedWorld)).audio.streams 7
      = some { ({ Stream.new with position := some samplePosition } : Stream) with
               position := none } :=
  (bad_coordinate_position_reset sampleEnv
    (setTokens (splitOn '\t' badCoordinateLine) positionedWorld) 7
    { Stream.new with position := some samplePosition }
    (by decide) (by decide) (by decide) (by decide)).2.2

/-! ## C27: the checksum is compared as text -/

/-- C27: for a transferable file that exists at the destination, the
short-circuit with Transfer/Check (`"1\t2\n"`) is taken if and only if the
sixth field is exactly the text `showHexUpper (crc32 content)`, the `%X`
rendering of the CRC-32: upper-case hexadecimal digits, no padding. With that
text the file is registered and no transfer stays active; with any other text
`performTransfer` goes on to the start of the transfer, which with transfers
enabled and the destination writable replies Transfer/Local (`"1\t0\n"`) and
opens the upload. -/
theorem checksum_compared_as_text (env : Env) (w : World) (id : Int) (size : Nat)
    (content : Str)
    (hlen : w.net.commandTokens.length = 6)
    (hdir : w.program.downloadPath ≠ [])
    (hb : lexicalCastBool (w.net.commandTokens.getD 1 []) = some true)
    (hi : lexicalCastInt (w.net.commandTokens.getD 2 []) = some id)
    (hs : lexicalCastSizeT (w.net.commandTokens.getD 4 []) = some size)
    (hurl : istarts_with (w.net.commandTokens.getD 3 []) "http://".toList = false)
    (hext : w.program.acceptedFileExtensions.any
      (fun i => iends_with (w.net.commandTokens.getD 3 []) i) = true)
    (hfile : w.fs.read (w.program.downloadPath ++ '\\' :: w.net.commandTokens.getD 3 [])
      = some content) :
    (sentMessages (performTransfer env w).trace = sentMessages w.trace ++ ["1\t2\n".toList]
      ↔ w.net.commandTokens.getD 5 [] = showHexUpper (crc32 content)) ∧
    (w.net.commandTokens.getD 5 [] = showHexUpper (crc32 content) →
      (performTransfer env w).audio.files
        = mapInsert w.audio.files id (w.net.commandTokens.getD 3 []) ∧
      (performTransfer env w).net.file = none) ∧
    (w.net.commandTokens.getD 5 [] ≠ showHexUpper (crc32 content) →
      performTransfer env w
        = performTransferStart env w.net.commandTokens
            (transferRecord env id size (w.net.commandTokens.getD 3 []) w.program.downloadPath)
            false
            (setFile (some (transferRecord env id size (w.net.commandTokens.getD 3 [])
              w.program.downloadPath)) w)) ∧
    (w.net.commandTokens.getD 5 [] ≠ showHexUpper (crc32 content) →
      w.program.settings.transferFiles = true →
      w.fs.canWrite (w.program.downloadPath ++ '\\' :: w.net.commandTokens.getD 3 []) = true →
      sentMessages (performTransfer env w).trace = sentMessages w.trace ++ ["1\t0\n".toList] ∧
      (performTransfer env w).net.file
        = some { transferRecord env id size (w.net.commandTokens.getD 3 [])
                   w.program.downloadPath with handle := { isOpen := true, pos := 0 } }) := by
  have hC : transferReply Client.Check = "1\t2\n".toList := by decide
  have hL : transferReply Client.Local = "1\t0\n".toList := by decide
  have hloc := performTransfer_local env w true id size hlen hdir hb hi hs hurl hext
  have hp : (setFile (some (transferRecord env id size (w.net.commandTokens.getD 3 [])
      w.program.downloadPath)) w).fs.read (transferRecord env id size
        (w.net.commandTokens.getD 3 []) w.program.downloadPath).path = some content := hfile
  have hmatch : w.net.commandTokens.getD 5 [] = showHexUpper (crc32 content) →
      sentMessages (performTransfer env w).trace
        = sentMessages w.trace ++ [transferReply Client.Check] ∧
      (performTransfer env w).audio.files
        = mapInsert w.audio.files id (w.net.commandTokens.getD 3 []) ∧
      (performTransfer env w).net.file = none := by
    intro hsum
    rw [hloc]
    unfold performTransferLocal
    rw [hp]
    simp only [hsum, ↓reduceIte]
    simp [sentMessages_append, sentMessages, transferRecord]
  have hmis : w.net.commandTokens.getD 5 [] ≠ showHexUpper (crc32 content) →
      performTransfer env w
        = performTransferStart env w.net.commandTokens
            (transferRecord env id size (w.net.commandTokens.getD 3 []) w.program.downloadPath)
            false
            (setFile (some (transferRecord env id size (w.net.commandTokens.getD 3 [])
              w.program.downloadPath)) w) := by
    intro hsum
    rw [hloc]
    unfold performTransferLocal
    rw [hp]
    simp only [hsum, ↓reduceIte]
  rw [← hC, ← hL]
  refine ⟨⟨?_, fun h => (hmatch h).1⟩, fun h => (hmatch h).2, hmis, ?_⟩
  · intro hsent
    by_contra hne
    rw [hmis hne, performTransferStart_sent] at hsent
    have hx := List.append_cancel_left hsent
    simp only [List.cons.injEq, and_true] at hx
    unfold startReply at hx
    split at hx
    · exact absurd hx (by decide)
    · exact absurd hx (by decide)
  · intro hne hen hw
    rw [hmis hne]
    have hstart := performTransferStart_upload env w.net.commandTokens
      (transferRecord env id size (w.net.commandTokens.getD 3 []) w.program.downloadPath)
      (setFile (some (transferRecord env id size (w.net.commandTokens.getD 3 [])
        w.program.downloadPath)) w) hen hw
    exact ⟨hstart.1, hstart.2.1⟩

set_option maxRecDepth 4096 in
/-- C27 (witness): `song.mp3` with content `abc` has the checksum text
`352441C2`; the line that spells it `352441c2` starts an upload. The file with
content `c` has the checksum text `6B9DF6F`; the line that spells it
`06B9DF6F` starts an upload. -/
theorem checksum_compared_as_text_witness :
    showHexUpper (crc32 "abc".toList) = "352441C2".toList ∧
    sentMessages (performTransfer sampleEnv
        (setTokens (splitOn '\t' lowerCaseLine) existingFileWorld)).trace
      = sentMessages (setTokens (splitOn '\t' lowerCaseLine) existingFileWorld).trace
          ++ ["1\t0\n".toList] ∧
    showHexUpper (crc32 "c".toList) = "6B9DF6F".toList ∧
    sentMessages (performTransfer sampleEnv
        (setTokens (splitOn '\t' paddedLine) shortFileWorld)).trace
      = sentMessages (setTokens (splitOn '\t' paddedLine) shortFileWorld).trace
          ++ ["1\t0\n".toList] :=
  ⟨by decide,
   ((checksum_compared_as_text sampleEnv
      (setTokens (splitOn '\t' lowerCaseLine) existingFileWorld) 7 3 "abc".toList
      (by decide) (by decide) (by decide) (by decide) (by decide) (by decide) (by decide)
      (by decide)).2.2.2 (by decide) (by decide) (by decide)).1,
   by decide,
   ((checksum_compared_as_text sampleEnv
      (setTokens (splitOn '\t' paddedLine) shortFileWorld) 7 1 "c".toList
      (by decide) (by decide) (by decide) (by decide) (by decide) (by decide) (by decide)
      (by decide)).2.2.2 (by decide) (by decide) (by decide)).1⟩

/-! ## C28: a Connect command with illegal strings in its path -/

/-- C28 (divergence): the loop of `performConnect` over `illegalCharacters`
runs from `begin()` to `begin()`, so no path field is ever rejected: for every
two-field Connect command the download directory becomes
`savePath\audiopacks\field`. For the field `..\evil`, which holds the
configured illegal strings `..` and `\`, the directory is changed and
created. -/
theorem illegal_connect_path_accepted (w : World) (path : Str) :
    (performConnect (setTokens ["0".toList, path] w)).program.downloadPath
      = w.program.savePath ++ "\\audiopacks\\".toList ++ path ∧
    "..".toList ∈ freshSession.program.illegalCharacters ∧
    icontains "..\\evil".toList "..".toList = true ∧
    freshSession.program.downloadPath = [] ∧
    (parseBuffer sampleEnv illegalConnectLine freshSession).program.downloadPath
      = ".\\audiopacks\\..\\evil".toList ∧
    (parseBuffer sampleEnv illegalConnectLine freshSession).fs.dirs
      = [".\\audiopacks\\..\\evil".toList] ∧
    Effect.createDirectories ".\\audiopacks\\..\\evil".toList
      ∈ (parseBuffer sampleEnv illegalConnectLine freshSession).trace := by
  refine ⟨?_, by decide, by decide, by decide, by decide, by decide, by decide⟩
  cases ha : w.net.authenticated <;> simp [performConnect, tok, ha, World.emit] <;>
    split <;> rfl

/-! ## C29: connect attempts with `connect_attempts = 0` -/

/-- C29 (divergence): with `connectAttempts = 0`, a value `loadSettings`
accepts, `startConnectTimer` takes its else branch at once after a resolve:
`attempts` becomes 1 and the timer is armed with the advanced iterator, so the
first resolved endpoint is skipped. With one resolved endpoint the connect
timer then finds the end of the list: no connect is started and the main timer
is stopped. With two endpoints the first connect goes to the second one,
logged as attempt 1 of 0. -/
theorem zero_attempts_skip_first_endpoint (w : World) (e : Endpoint) (rest : Iter) :
    (handleResolve (some (e :: rest)) (withConnectAttempts 0 w)).net.connectTimer = some rest ∧
    (handleResolve (some (e :: rest)) (withConnectAttempts 0 w)).net.attempts = 1 ∧
    (run sampleEnv zeroAttemptsWorld (firstFiring ["10.0.0.1:7777".toList])).map
        (fun v => (v.trace, v.net.mainTimer, v.net.connectTimer))
      = some ([Effect.asyncResolve [] []], false, none) ∧
    (run sampleEnv zeroAttemptsWorld (firstFiring sampleEndpoints)).map (fun v => v.trace)
      = some [Effect.asyncResolve [] [],
          Effect.logText "Connecting to 10.0.0.2:7777 (attempt 1 of 0)...".toList,
          Effect.asyncConnect "10.0.0.2:7777".toList] := by
  refine ⟨?_, ?_, by decide, by decide⟩
  · simp [handleResolve, startConnectTimer, withConnectAttempts]
  · simp [handleResolve, startConnectTimer, withConnectAttempts]

/-! ## C30: the liveness check across the wrap of the tick counter -/

/-- C30: `handleMainTimer` computes the elapsed time as the 32-bit difference
of the tick counter and `lastCommunication`. When `d` milliseconds, fewer than
2^32, have passed since `lastCommunication`, so that the counter reads
`(lastCommunication + d) mod 2^32`, that difference is `d`, also when the
counter has wrapped and is numerically below `lastCommunication`. While
connected the timer handler calls `closeConnection` exactly when `d` is
strictly greater than `networkTimeout` and otherwise only re-arms the timer;
while not connected it never calls `closeConnection`. -/
theorem liveness_check_wrap_around (w : World) (d : Nat)
    (hl : w.net.lastCommunication < 4294967296) (hd : d < 4294967296)
    (hnow : w.tick = (w.net.lastCommunication + d) % 4294967296) :
    timeElapsed w = d ∧
    (w.net.connected = true →
      handleMainTimer w
        = startMainTimer (if d > w.program.settings.networkTimeout then closeConnection w
            else w)) ∧
    (w.net.connected = false →
      handleMainTimer w
        = startMainTimer (if w.game.started && !w.net.connecting then
            startAsync (stopAsync w) else w)) := by
  have he : timeElapsed w = d := by
    unfold timeElapsed
    omega
  refine ⟨he, fun h => ?_, handleMainTimer_not_connected w⟩
  rw [handleMainTimer_connected w h, he]

/-- C30 (witness): last communication one second before the wrap, tick four
seconds after it: five seconds have passed. -/
theorem liveness_check_wrap_around_witness :
    timeElapsed wrappedSession = 5000 ∧
    handleMainTimer wrappedSession
      = startMainTimer (if 5000 > wrappedSession.program.settings.networkTimeout then
          closeConnection wrappedSession else wrappedSession) :=
  ⟨(liveness_check_wrap_around wrappedSession 5000 (by decide) (by decide) (by decide)).1,
   (liveness_check_wrap_around wrappedSession 5000 (by decide) (by decide) (by decide)).2.1
     (by decide)⟩


end SampAudio
